import Mathlib

/-!
# BingoFlash backend: order lifecycle and ticket issuance

A shallow embedding of `src/src/tickets.js` and `src/src/orders.js`.

Conventions of the embedding.

* The persistent document (`loadDB` / `saveDB` of `db.js`) is a value of type `DB`;
  every operation takes the stored document and returns the document that is stored
  when the operation ends. A `throw` that happens before `saveDB` leaves the stored
  document as it was.
* JavaScript numbers that the code treats as integers are `Int`; `x | 0` is `toInt32`.
  Money and commission figures are `ℚ`.
* A string-valued field that may be `null` or `undefined` is an `Option String`;
  it is falsy when it is `none` or `some ""`.
* `Math.random`, `uuidv4` and the clock are read from an explicit environment `Env`.
* JSON objects used as maps are association lists in `Object.entries` order.
-/

namespace BingoFlash

/-! ## JavaScript values -/

/-- The `x | 0` of the source (ToInt32) on an integer-valued number. -/
def toInt32 (x : Int) : Int :=
  (x + 2147483648) % 4294967296 - 2147483648

/-- The integer nearest to `m`, the even one of the two when `m` lies half way. -/
def roundHalfEven (m : ℚ) : Int :=
  if m - ⌊m⌋ < 1 / 2 then ⌊m⌋
  else if 1 / 2 < m - ⌊m⌋ then ⌊m⌋ + 1
  else if ⌊m⌋ % 2 = 0 then ⌊m⌋ else ⌊m⌋ + 1

/-- Exponent of the spacing of the doubles around `q`: 52 below the binary exponent of `q`
for a normal number, `-1074` in the subnormal range. -/
def doubleQuantum (q : ℚ) : Int :=
  max (Int.log 2 |q| - 52) (-1074)

/-- The double nearest to the real number `q` (IEEE 754 binary64, round to nearest, ties to
even): the result of a `+`, `*` or `/` of the source whose exact result is `q`. A number is
the rational it denotes; beyond the greatest double, where the source has `Infinity`, the
value is not a double. -/
def toDouble (q : ℚ) : ℚ :=
  if q = 0 then 0
  else (roundHalfEven (q / 2 ^ doubleQuantum q) : ℚ) * 2 ^ doubleQuantum q

/-- Truthiness of a string field that may be absent. -/
def truthy (s : Option String) : Prop :=
  ∃ t, s = some t ∧ t ≠ ""

instance (s : Option String) : Decidable (truthy s) :=
  match s with
  | none => isFalse (by rintro ⟨t, h, _⟩; cases h)
  | some t =>
    if h : t = "" then isFalse (by rintro ⟨u, hu, hne⟩; cases hu; exact hne h)
    else isTrue ⟨t, rfl, h⟩

/-- The `s || null` of the source on a string field. -/
def orNull (s : Option String) : Option String :=
  if truthy s then s else none

/-- A date field of a stored record: missing (or empty), a text `Date.parse` rejects,
or the ISO text of the instant `ms` (milliseconds since the epoch). -/
inductive DateField where
  | absent
  | invalid (raw : String)
  | at (ms : Int)
deriving DecidableEq, Repr

/-- Sources of non-determinism read by one request. -/
structure Env where
  /-- The k-th result of `Math.random()`, as the numerator of a fraction over `2^53`. -/
  rand : Nat → Nat
  /-- The text `x.toString(36).slice(2, 6).toUpperCase()` of a draw `x`. -/
  suffix : Nat → String
  /-- The k-th result of `uuidv4()`. -/
  uuid : Nat → String
  /-- The clock, in milliseconds; one request reads one instant. -/
  now : Int

/-! ## Card generator (`tickets.js`) -/

/-- The expression `Math.floor(Math.random() * pool.length)` for the draw `r / 2^53`. -/
def randIndex (r len : Nat) : Nat :=
  (r % 2 ^ 53) * len / 2 ^ 53

/-- Digit of a base-36 numeral, lower case as `Number.prototype.toString(36)` prints it. -/
def digit36 (d : Nat) : Char :=
  if d < 10 then Char.ofNat (48 + d) else Char.ofNat (87 + d)

/-- Base-36 digits of `n`, most significant first; `fuel` bounds the number of digits. -/
def digits36 : Nat → Nat → List Char → List Char
  | 0, _, acc => acc
  | fuel + 1, n, acc =>
    if n / 36 = 0 then digit36 (n % 36) :: acc
    else digits36 fuel (n / 36) (digit36 (n % 36) :: acc)

/-- The text `n.toString(36)` of an integer. -/
def toString36 (n : Int) : String :=
  if n < 0 then String.mk ('-' :: digits36 (n.natAbs + 1) n.natAbs [])
  else String.mk (digits36 (n.natAbs + 1) n.natAbs [])

/-- The method `s.padStart(w, '0')`. -/
def padStart0 (w : Nat) (s : String) : String :=
  String.mk (List.replicate (w - s.length) '0') ++ s

/-- Source `makeSerial(eventId, seq)`; `rand` is the random suffix. -/
def makeSerial (eventId : String) (seq : Int) (rand : String) : String :=
  let up := String.mk (((eventId.toList.filter Char.isAlphanum).map Char.toUpper).take 12)
  let base36 := padStart0 5 ((toString36 seq).map Char.toUpper)
  "BF-" ++ up ++ "-" ++ base36 ++ "-" ++ rand

/-- Column ranges of the 75-ball game. -/
def COLS : List (Int × Int) :=
  [(1, 15), (16, 30), (31, 45), (46, 60), (61, 75)]

/-- The pool `a, a+1, ..., b` built by the first loop of `sampleRange`. -/
def pool (a b : Int) : List Int :=
  (List.range (b - a + 1).toNat).map (fun (k : Nat) => a + (k : Int))

/-- The picking loop of `sampleRange`: `n` iterations left, `pos` the next draw. -/
def pickLoop (rand : Nat → Nat) : Nat → Nat → List Int → List Int → List Int × Nat
  | 0, pos, _, picked => (picked, pos)
  | n + 1, pos, pl, picked =>
    if 0 < pl.length then
      let idx := randIndex (rand pos) pl.length
      pickLoop rand n (pos + 1) (pl.eraseIdx idx) (picked ++ [pl.getD idx 0])
    else (picked, pos)

/-- Source `sampleRange(a, b, n)`, returning the sample and the next draw position. -/
def sampleRange (rand : Nat → Nat) (a b : Int) (n : Nat) (pos : Nat) : List Int × Nat :=
  let r := pickLoop rand n pos (pool a b) []
  (List.insertionSort (fun x y => x ≤ y) r.1, r.2)

/-- The `COLS.map(([a, b]) => sampleRange(a, b, 5))` of `genCols`. -/
def sampleCols (rand : Nat → Nat) : List (Int × Int) → Nat → List (List Int) × Nat
  | [], pos => ([], pos)
  | (a, b) :: rest, pos =>
    let c := sampleRange rand a b 5 pos
    let cs := sampleCols rand rest c.2
    (c.1 :: cs.1, cs.2)

/-- Source `genCols()`, returning the grid and the next draw position. -/
def genCols (rand : Nat → Nat) (pos : Nat) : List (List Int) × Nat :=
  let r := sampleCols rand COLS pos
  (r.1.set 2 ((r.1.getD 2 []).set 2 0), r.2)

/-- The 25 cells `cols[ci][ri] | 0`, column by column. -/
def flatCells (cols : List (List Int)) : List Int :=
  (List.range 5).flatMap (fun ci =>
    (List.range 5).map (fun ri => toInt32 ((cols.getD ci []).getD ri 0)))

/-- The text `JSON.stringify(flat)` of an array of integers. -/
def jsonInts (flat : List Int) : String :=
  "[" ++ ",".intercalate (flat.map toString) ++ "]"

/-- Source `sign(cols)`. -/
def sign (cols : List (List Int)) : String :=
  jsonInts (flatCells cols)

/-! ## Data model (`db.js`) -/

/-- A row of `db.events`. -/
structure Event where
  id : String
  /-- Cards per combo; `0` when the field is missing. -/
  combo_size : Int := 0
deriving DecidableEq, Repr

/-- A row of `db.offers`. -/
structure Offer where
  id : String
  event_id : String
  /-- Combos of the bundle; `0` when the field is missing. -/
  combos_count : Int := 0
  price_cop : ℚ := 0
deriving DecidableEq, Repr

/-- A row of `db.orders`. -/
structure Order where
  id : String
  /-- The empty string when the field is missing. -/
  event_id : String
  offer_id : Option String := none
  buyer_name : Option String := none
  buyer_phone : Option String := none
  buyer_email : Option String := none
  vendor_code : Option String := none
  vendor_id : Option String := none
  vendor_name : Option String := none
  format : Option String := none
  amount_cop : ℚ := 0
  nequi_ref : Option String := none
  payment_url : Option String := none
  status : String
  created_at : DateField := DateField.absent
  paid_at : DateField := DateField.absent
  expires_at : DateField := DateField.absent
  expired_at : DateField := DateField.absent
  failed_at : DateField := DateField.absent
  tickets_issued_at : DateField := DateField.absent
  payment_method : Option String := none
  /-- An integer; zero when the field is missing. -/
  combos_count : Int := 0
  /-- An integer; zero when the field is missing. -/
  combo_size : Int := 0
  vendor_stats_applied : Bool := false
deriving DecidableEq, Repr

/-- A row of `db.tickets`. -/
structure Ticket where
  id : String
  serial : String
  order_id : String
  event_id : String
  buyer_name : Option String := none
  buyer_phone : Option String := none
  buyer_email : Option String := none
  vendor_id : Option String := none
  vendor_name : Option String := none
  card_index : Int
  cols : List (List Int)
  cols_signature : Option String
  pdf_url : Option String := none
  jpg_url : Option String := none
  created_at : DateField := DateField.absent
deriving DecidableEq, Repr

/-- The object `v.stats` of a vendor; a missing object or field reads as zero. -/
structure VendorStats where
  combos : Int := 0
  cartones : Int := 0
  ventas_cop : ℚ := 0
  comision : ℚ := 0
deriving DecidableEq, Repr

/-- An entry of `state.vendors`. -/
structure Vendor where
  /-- The text `v.name || v.nombre || ''`. -/
  name : String := ""
  linkToken : Option String := none
  /-- The number `Number(v.commissionPct || v.comisionPct || 0) || 0`. -/
  commissionPct : ℚ := 0
  stats : VendorStats := {}
deriving DecidableEq, Repr

/-- An object of the list `state.generated`. The fields `order_id`, `source` and `origin`
are read for their truthiness and text: `none` stands for a falsy value. The fields `id`
and `ticket_id` are read through `!= null` and `String(...)`: `none` stands for `null` or
`undefined`, any other value is its text. -/
structure GenEntry where
  order_id : Option String := none
  source : Option String := none
  origin : Option String := none
  id : Option String := none
  ticket_id : Option String := none
deriving DecidableEq, Repr

/-- An element of the list `state.generated`: a primitive id (number or string, as its
text), `null`, or an object. -/
inductive GenItem where
  | prim (v : String)
  | null
  | obj (g : GenEntry)
deriving DecidableEq, Repr

/-- The object `db.event_states[eventId].state`. -/
structure PanelState where
  /-- The map `state.vendors`, `none` when missing or not an object; a key may map to `null`. -/
  vendors : Option (List (String × Option Vendor)) := none
  /-- The list `state.generated`, `none` when missing or not an array. -/
  generated : Option (List GenItem) := none
deriving DecidableEq, Repr

/-- An entry `db.event_states[eventId]`. -/
structure EventStateEntry where
  state : Option PanelState := none
  updated_at : DateField := DateField.absent
deriving DecidableEq, Repr

/-- An entry of `db.idempotency`. -/
structure IdemRecord where
  order_id : Option String
  created_at : DateField := DateField.absent
deriving DecidableEq, Repr

/-- The stored document. -/
structure DB where
  events : List Event := []
  offers : List Offer := []
  orders : List Order := []
  tickets : List Ticket := []
  idempotency : List (String × IdemRecord) := []
  event_states : List (String × EventStateEntry) := []
  /-- The map `db.event_ticket_seq`; a missing map is the empty one. -/
  event_ticket_seq : List (String × Int) := []
deriving DecidableEq, Repr

/-- Assignment `obj[k] = v` on a JSON object: an existing key keeps its place. -/
def setKey {β : Type} (k : String) (v : β) : List (String × β) → List (String × β)
  | [] => [(k, v)]
  | (k1, v1) :: rest => if k1 = k then (k1, v) :: rest else (k1, v1) :: setKey k v rest

/-- In-place change of the value stored under key `k`, when there is one. -/
def updateKey {β : Type} (k : String) (f : β → β) : List (String × β) → List (String × β)
  | [] => []
  | (k1, v1) :: rest => if k1 = k then (k1, f v1) :: rest else (k1, v1) :: updateKey k f rest

/-- In-place change of the object that `db.orders.find(p)` returns. -/
def updateFirst (p : Order → Prop) [DecidablePred p] (f : Order → Order) :
    List Order → List Order
  | [] => []
  | o :: rest => if p o then f o :: rest else o :: updateFirst p f rest

/-- The read `db.event_ticket_seq[eventId] | 0`. -/
def seqOf (db : DB) (eventId : String) : Int :=
  toInt32 ((db.event_ticket_seq.lookup eventId).getD 0)

/-! ## Ticket issuance (`tickets.js`) -/

/-- The vendor that `applyVendorStatsOnce` updates for `orderRow`, when every guard passes. -/
def ledgerVendor (db : DB) (orderRow : Order) : Option (String × Vendor) :=
  match orderRow.vendor_id with
  | none => none
  | some vid =>
    if vid = "" then none
    else if orderRow.vendor_stats_applied then none
    else
      match db.event_states.lookup orderRow.event_id with
      | none => none
      | some entry =>
        match entry.state with
        | none => none
        | some st =>
          match st.vendors with
          | none => none
          | some vs =>
            match vs.lookup vid with
            | some (some v) => some (vid, v)
            | _ => none

/-- The four assignments to `v.stats` in `applyVendorStatsOnce`. The two money figures are
computed in double precision: `pct/100`, the product with `amount` and the two sums are each
rounded to the nearest double. -/
def bumpStats (orderRow : Order) (totalCards : Int) (v : Vendor) : Vendor :=
  { v with stats :=
    { combos := toInt32 v.stats.combos + toInt32 orderRow.combos_count
      cartones := toInt32 v.stats.cartones + toInt32 totalCards
      ventas_cop := toDouble (v.stats.ventas_cop + orderRow.amount_cop)
      comision := toDouble (v.stats.comision
        + toDouble (orderRow.amount_cop * toDouble (v.commissionPct / 100))) } }

/-- Source `applyVendorStatsOnce(orderRow, totalCards)`, where `orderRow` is the object
`db.orders.find(o => o && o.id === orderId)`: the vendor's stats are increased and the
flag `vendor_stats_applied` of that order is set. -/
def applyVendorStatsOnce (db : DB) (orderRow : Order) (totalCards : Int) : DB :=
  match ledgerVendor db orderRow with
  | none => db
  | some (vid, _) =>
    { db with
      event_states := updateKey orderRow.event_id (fun entry =>
        { entry with state := entry.state.map (fun st =>
          { st with vendors := st.vendors.map (fun vs =>
            updateKey vid (fun ov => ov.map (bumpStats orderRow totalCards)) vs) }) })
        db.event_states
      orders := updateFirst (fun o => o.id = orderRow.id)
        (fun o => { o with vendor_stats_applied := true }) db.orders }

/-- Variables of the generation loop of `generateTicketsForOrder`. -/
structure LoopState where
  created : Nat
  /-- The set `existing` of used signatures, in insertion order. -/
  existing : List String
  seqCursor : Int
  /-- Position of the next `Math.random()` draw. -/
  pos : Nat
  /-- The array `db.tickets`. -/
  tickets : List Ticket
deriving Repr

/-- The ticket pushed by one iteration of the loop. -/
def newTicket (env : Env) (order : Order) (st : LoopState) (cols : List (List Int))
    (sig : String) (p1 : Nat) : Ticket :=
  { id := env.uuid st.created
    serial := makeSerial order.event_id (st.seqCursor + 1) (env.suffix (env.rand p1))
    order_id := order.id
    event_id := order.event_id
    buyer_name := orNull order.buyer_name
    buyer_phone := orNull order.buyer_phone
    buyer_email := orNull order.buyer_email
    vendor_id := orNull order.vendor_id
    vendor_name := orNull order.vendor_name
    card_index := (st.created : Int)
    cols := cols
    cols_signature := some sig
    pdf_url := none
    jpg_url := none
    created_at := DateField.at env.now }

/-- The loop `while (created < totalCards && safety > 0)`; the first argument is `safety`. -/
def issueLoop (env : Env) (order : Order) (totalCards : Int) : Nat → LoopState → LoopState
  | 0, st => st
  | safety + 1, st =>
    if (st.created : Int) < totalCards then
      let g := genCols env.rand st.pos
      let sig := sign g.1
      if sig ∈ st.existing then
        issueLoop env order totalCards safety { st with pos := g.2 }
      else
        issueLoop env order totalCards safety
          { created := st.created + 1
            existing := st.existing ++ [sig]
            seqCursor := st.seqCursor + 1
            pos := g.2 + 1
            tickets := st.tickets ++ [newTicket env order st g.1 sig g.2] }
    else st

/-- The value `generateTicketsForOrder` resolves to. -/
structure IssueResult where
  totalCards : Int
  idempotent : Bool := false
deriving DecidableEq, Repr

/-- The number `order.combos_count || 1`. -/
def combosOf (order : Order) : Int :=
  if order.combos_count = 0 then 1 else order.combos_count

/-- The number `order.combo_size || 6`. -/
def comboSizeOf (order : Order) : Int :=
  if order.combo_size = 0 then 6 else order.combo_size

/-- The number `totalCards` of `generateTicketsForOrder`. -/
def totalCardsOf (order : Order) : Int :=
  combosOf order * comboSizeOf order

/-- The set `existing` before the loop: signatures of the event's tickets. -/
def usedSignatures (db : DB) (eventId : String) : List String :=
  db.tickets.filterMap (fun t =>
    if t.event_id = eventId then
      match t.cols_signature with
      | some s => if s = "" then none else some s
      | none => none
    else none)

/-- State of the loop variables when the loop is entered. -/
def loopStart (db : DB) (order : Order) : LoopState :=
  { created := 0
    existing := usedSignatures db order.event_id
    seqCursor := seqOf db order.event_id
    pos := 0
    tickets := db.tickets }

/-- State of the loop variables when the loop is left. -/
def loopEnd (env : Env) (db : DB) (order : Order) : LoopState :=
  issueLoop env order (totalCardsOf order) (totalCardsOf order * 20).toNat (loopStart db order)

/-- Source `generateTicketsForOrder(order)` run on the stored document `db`: either the
error it throws (nothing is saved), or the document it saves and the value it returns. -/
def generateTicketsForOrder (env : Env) (db : DB) (order : Order) :
    Except String (DB × IssueResult) :=
  let existingForOrder := db.tickets.filter (fun t => t.order_id = order.id)
  if 0 < existingForOrder.length then
    match db.orders.find? (fun o => o.id = order.id) with
    | some orderRow =>
      Except.ok (applyVendorStatsOnce db orderRow existingForOrder.length,
        { totalCards := existingForOrder.length, idempotent := true })
    | none => Except.ok (db, { totalCards := existingForOrder.length, idempotent := true })
  else if order.event_id = "" then
    Except.error "order.event_id requerido para generar cartones"
  else
    let fin := loopEnd env db order
    let db1 : DB :=
      { db with
        tickets := fin.tickets
        event_ticket_seq := setKey order.event_id fin.seqCursor db.event_ticket_seq }
    match db1.orders.find? (fun o => o.id = order.id) with
    | some orderRow => Except.ok (applyVendorStatsOnce db1 orderRow fin.created,
        { totalCards := fin.created })
    | none => Except.ok (db1, { totalCards := fin.created })

/-- The loop of `issueLoop` together with the number of times its body runs: every pass
through `safety--` adds one to the second component. -/
def issueLoopCounted (env : Env) (order : Order) (totalCards : Int) :
    Nat → LoopState → LoopState × Nat
  | 0, st => (st, 0)
  | safety + 1, st =>
    if (st.created : Int) < totalCards then
      let g := genCols env.rand st.pos
      let sig := sign g.1
      if sig ∈ st.existing then
        let r := issueLoopCounted env order totalCards safety { st with pos := g.2 }
        (r.1, r.2 + 1)
      else
        let r := issueLoopCounted env order totalCards safety
          { created := st.created + 1
            existing := st.existing ++ [sig]
            seqCursor := st.seqCursor + 1
            pos := g.2 + 1
            tickets := st.tickets ++ [newTicket env order st g.1 sig g.2] }
        (r.1, r.2 + 1)
    else (st, 0)

/-- Number of iterations the loop of `generateTicketsForOrder` performs for `order`. -/
def loopIterations (env : Env) (db : DB) (order : Order) : Nat :=
  (issueLoopCounted env order (totalCardsOf order) (totalCardsOf order * 20).toNat
    (loopStart db order)).2

/-! ## Order lifecycle (`orders.js`) -/

/-- Deployment settings read from `process.env`. -/
structure Config where
  /-- The number `Number(process.env.ORDER_PENDING_TTL_MINUTES || 30)`. -/
  ttlMin : Int := 30
  /-- The text `(process.env.PAYMENT_MODE || 'SIMULATED').toUpperCase()`. -/
  paymentMode : String := "SIMULATED"
deriving DecidableEq, Repr

/-- The values of the source constant `ORDER_STATUS`. -/
def ORDER_STATUS : List String :=
  ["PENDING_PAYMENT", "PAID", "TICKETS_ISSUED", "FAILED", "EXPIRED", "CANCELLED"]

/-- Source `isApprovedStatus(s)`. -/
def isApprovedStatus (s : String) : Prop :=
  s = "PAID" ∨ s = "TICKETS_ISSUED"

instance (s : String) : Decidable (isApprovedStatus s) := by
  unfold isApprovedStatus; infer_instance

/-- The instant `Date.parse(o.created_at) || nowMs` of the sweep. -/
def createdOrNow (now : Int) (o : Order) : Int :=
  match o.created_at with
  | DateField.at ms => if ms = 0 then now else ms
  | _ => now

/-- Body of the loop of `expirePendingOrders` for one order: the order afterwards, and
whether `changed` was set. The backfill is the one of an order for which `toISOString()`
gives a text; `BackfillThrows` is the case where it throws. -/
def expireOne (cfg : Config) (now : Int) (o : Order) : Order × Bool :=
  if o.status ≠ "PENDING_PAYMENT" then (o, false)
  else
    match o.expires_at with
    | DateField.absent =>
      ({ o with expires_at := DateField.at (createdOrNow now o + cfg.ttlMin * 60 * 1000) }, true)
    | DateField.invalid _ => (o, false)
    | DateField.at expMs =>
      if expMs ≤ now then
        ({ o with status := "EXPIRED", expired_at := DateField.at now }, true)
      else (o, false)

/-- Source `expirePendingOrders(db)` at the instant `now`, for a run that returns: the
stored document afterwards and the returned flag `changed`. -/
def expirePendingOrders (cfg : Config) (now : Int) (db : DB) : DB × Bool :=
  ({ db with orders := db.orders.map (fun o => (expireOne cfg now o).1) },
    db.orders.any (fun o => (expireOne cfg now o).2))

/-- The greatest instant a `Date` holds: 8.64e15 milliseconds from the epoch, either way. -/
def maxDateMs : Int := 8640000000000000

/-- The instant `ms` is one a `Date` holds, so that `new Date(ms).toISOString()` is a text. -/
def InDateRange (ms : Int) : Prop :=
  -maxDateMs ≤ ms ∧ ms ≤ maxDateMs

instance (ms : Int) : Decidable (InDateRange ms) := by
  unfold InDateRange; infer_instance

/-- The loop body throws on the order `o`: it is `PENDING_PAYMENT` without `expires_at`, and
`created + ttlMin*60*1000` is not an instant a `Date` holds, so `toISOString()` throws
`RangeError`. -/
def BackfillThrows (cfg : Config) (now : Int) (o : Order) : Prop :=
  o.status = "PENDING_PAYMENT" ∧ o.expires_at = DateField.absent ∧
    ¬ InDateRange (createdOrNow now o + cfg.ttlMin * 60 * 1000)

instance (cfg : Config) (now : Int) (o : Order) : Decidable (BackfillThrows cfg now o) := by
  unfold BackfillThrows; infer_instance

/-- Source `expirePendingOrders(db)` at the instant `now`, with the exception it can raise.
The `RangeError` of `toISOString()` leaves the loop before `saveDB`, so nothing is stored
and nothing is returned; without it the run is `expirePendingOrders`. -/
def expirePendingOrdersOrThrow (cfg : Config) (now : Int) (db : DB) :
    Except String (DB × Bool) :=
  if ∃ o ∈ db.orders, BackfillThrows cfg now o then
    Except.error "RangeError: Invalid time value"
  else Except.ok (expirePendingOrders cfg now db)

/-- What a handler leaves behind: the stored document, the HTTP reply, and the outcome of
the call to `generateTicketsForOrder` when the handler made one. -/
structure Outcome (ρ : Type) where
  db : DB
  reply : ρ
  issuance : Option (Except String IssueResult) := none

/-- Reply of `POST /payments/nequi-webhook`. -/
structure WebhookReply where
  code : Nat
  ok : Bool := false
  idempotent : Bool := false
  error : Option String := none
deriving DecidableEq, Repr

/-- The assignments `o2.status = TICKETS_ISSUED; o2.tickets_issued_at = nowISO()` on the
object `db2.orders.find(o => o.id === orderId)`. -/
def markIssued (now : Int) (orderId : String) (db : DB) : DB :=
  { db with orders := (updateFirst (fun o => o.id = orderId)
      (fun o => { o with status := "TICKETS_ISSUED", tickets_issued_at := DateField.at now })
      db.orders) }

/-- Handler of `POST /payments/nequi-webhook` with body `{ nequiRef, status }`. -/
def nequiWebhook (cfg : Config) (env : Env) (db : DB) (nequiRef : Option String)
    (status : String) : Outcome WebhookReply :=
  match nequiRef with
  | none => { db := db, reply := { code := 400, error := some "Falta nequiRef" } }
  | some ref =>
    if ref = "" then { db := db, reply := { code := 400, error := some "Falta nequiRef" } }
    else
      let db1 := (expirePendingOrders cfg env.now db).1
      match db1.orders.find? (fun o => o.nequi_ref = some ref) with
      | none => { db := db1, reply := { code := 404, error := some "Orden no encontrada" } }
      | some order =>
        if status = "APPROVED" ∨ status = "PAID" then
          if isApprovedStatus order.status then
            { db := db1, reply := { code := 200, ok := true, idempotent := true } }
          else if order.status = "EXPIRED" then
            { db := db1, reply := { code := 409, error := some "Orden expirada" } }
          else
            let paid : Order := { order with status := "PAID", paid_at := DateField.at env.now }
            let db2 : DB := { db1 with orders :=
              (updateFirst (fun o => o.nequi_ref = some ref) (fun _ => paid) db1.orders) }
            match generateTicketsForOrder env db2 paid with
            | Except.ok (db3, r) =>
              { db := markIssued env.now paid.id db3
                reply := { code := 200, ok := true }
                issuance := some (Except.ok r) }
            | Except.error e =>
              { db := db2, reply := { code := 200, ok := true }, issuance := some (Except.error e) }
        else if status = "REJECTED" ∨ status = "FAILED" then
          { db := { db1 with orders :=
              (updateFirst (fun o => o.nequi_ref = some ref)
                (fun o => { o with status := "FAILED", failed_at := DateField.at env.now })
                db1.orders) }
            reply := { code := 200, ok := true } }
        else { db := db1, reply := { code := 200, ok := true } }

/-- Reply of `POST /admin/mark-paid`. -/
structure MarkPaidReply where
  code : Nat
  order : Option Order := none
  tickets : List Ticket := []
  alreadyPaid : Bool := false
  error : Option String := none
deriving DecidableEq, Repr

/-- The expression `db.tickets.filter(t => t.order_id === id).sort(by card_index)`. -/
def ticketsOfOrder (db : DB) (orderId : String) : List Ticket :=
  List.insertionSort (fun a b => a.card_index ≤ b.card_index)
    (db.tickets.filter (fun t => t.order_id = orderId))

/-- The value of `combosCount` that `mark-paid` writes back to the order. -/
def refilledCombos (db : DB) (order : Order) : Int :=
  if truthy order.offer_id then
    match db.offers.find? (fun o => some o.id = order.offer_id ∧ o.event_id = order.event_id) with
    | some offer => if offer.combos_count = 0 then combosOf order else offer.combos_count
    | none => combosOf order
  else combosOf order

/-- The value of `comboSize` that `mark-paid` writes back to the order. -/
def refilledComboSize (db : DB) (order : Order) : Int :=
  match db.events.find? (fun e => e.id = order.event_id) with
  | some e => if e.combo_size = 0 then comboSizeOf order else e.combo_size
  | none => comboSizeOf order

/-- Handler of `POST /admin/mark-paid` with body `{ orderId }`. -/
def markPaid (env : Env) (db : DB) (orderId : Option String) : Outcome MarkPaidReply :=
  match orderId with
  | none => { db := db, reply := { code := 400, error := some "Falta orderId" } }
  | some oid =>
    if oid = "" then { db := db, reply := { code := 400, error := some "Falta orderId" } }
    else
      match db.orders.find? (fun o => o.id = oid) with
      | none => { db := db, reply := { code := 404, error := some "Orden no encontrada" } }
      | some order =>
        if order.status = "PAID" then
          { db := db
            reply :=
              { code := 200, order := some order, tickets := ticketsOfOrder db order.id
                alreadyPaid := true } }
        else
          let paid : Order :=
            { order with
              combos_count := refilledCombos db order
              combo_size := refilledComboSize db order
              status := "PAID"
              paid_at := DateField.at env.now }
          let db1 : DB := { db with orders :=
            (updateFirst (fun o => o.id = oid) (fun _ => paid) db.orders) }
          match generateTicketsForOrder env db1 paid with
          | Except.ok (db2, r) =>
            { db := db2
              reply := { code := 200, order := some paid, tickets := ticketsOfOrder db2 paid.id }
              issuance := some (Except.ok r) }
          | Except.error e =>
            { db := db1
              reply := { code := 200, order := some paid, tickets := ticketsOfOrder db1 paid.id }
              issuance := some (Except.error e) }

/-! ## Order creation (`orders.js`) -/

/-- White space of JavaScript: what `trim()` strips and what `\s` matches. -/
def jsSpace (c : Char) : Bool :=
  decide (c.toNat = 9 ∨ c.toNat = 10 ∨ c.toNat = 11 ∨ c.toNat = 12 ∨ c.toNat = 13 ∨
    c.toNat = 32 ∨ c.toNat = 160 ∨ c.toNat = 5760 ∨
    (8192 ≤ c.toNat ∧ c.toNat ≤ 8202) ∨ c.toNat = 8232 ∨ c.toNat = 8233 ∨
    c.toNat = 8239 ∨ c.toNat = 8287 ∨ c.toNat = 12288 ∨ c.toNat = 65279)

/-- The method `s.trim()`. -/
def jsTrim (s : String) : String :=
  String.mk (((s.toList.dropWhile jsSpace).reverse.dropWhile jsSpace).reverse)

/-- Source `normStr(v)` on a string field that may be absent. -/
def normStr (v : Option String) : String :=
  match v with
  | none => ""
  | some s => jsTrim s

/-- Length in UTF-16 code units, the unit a JavaScript regular expression counts. -/
def utf16Length (cs : List Char) : Nat :=
  (cs.map (fun c => if c.toNat < 65536 then 1 else 2)).sum

/-- A character of the class `[^\s@]`. -/
def emailChar (c : Char) : Bool :=
  !jsSpace c && c != '@'

/-- The test of `/^[^\s@]+@[^\s@]+\.[^\s@]{2,}$/` on the characters `cs`: one `@`, no white
space, a non-empty part before it, and after it a dot that has at least one character before
and at least two code units behind. -/
def emailShape (cs : List Char) : Bool :=
  match cs.dropWhile (fun c => c != '@') with
  | [] => false
  | _ :: dom =>
    !(cs.takeWhile (fun c => c != '@')).isEmpty &&
      (cs.takeWhile (fun c => c != '@')).all emailChar && dom.all emailChar &&
      (List.range dom.length).any (fun i =>
        decide (0 < i) && dom.getD i ' ' == '.' &&
          decide (2 ≤ utf16Length (dom.drop (i + 1))))

/-- Source `isValidEmail(email)`. -/
def isValidEmail (email : Option String) : Bool :=
  match email with
  | none => true
  | some e => if e = "" then true else emailShape (jsTrim e).toList

/-- Source `isValidPhone(phone)`. -/
def isValidPhone (phone : Option String) : Bool :=
  decide (7 ≤ ((normStr phone).toList.filter Char.isDigit).length ∧
    ((normStr phone).toList.filter Char.isDigit).length ≤ 15)

/-- What `resolveVendorForEvent` returns for a match. -/
structure VendorInfo where
  id : String
  name : String
  commissionPct : ℚ
deriving DecidableEq, Repr

/-- The loop `for (const [id, v] of Object.entries(vendors))` of `resolveVendorForEvent`. -/
def vendorMatch (code : String) : List (String × Option Vendor) → Option VendorInfo
  | [] => none
  | (_, none) :: rest => vendorMatch code rest
  | (id, some v) :: rest =>
    if code = id ∨ code = jsTrim ((orNull v.linkToken).getD "") then
      some { id := id
             name := if jsTrim v.name = "" then id else jsTrim v.name
             commissionPct := v.commissionPct }
    else vendorMatch code rest

/-- Source `resolveVendorForEvent(db, eventId, vendorCode)`. -/
def resolveVendorForEvent (db : DB) (eventId : String) (vendorCode : Option String) :
    Option VendorInfo :=
  match vendorCode with
  | none => none
  | some raw =>
    if raw = "" then none
    else
      match db.event_states.lookup eventId with
      | none => none
      | some entry =>
        match entry.state with
        | none => none
        | some st =>
          match st.vendors with
          | none => none
          | some vs => vendorMatch (jsTrim raw) vs

/-- Body and headers of `POST /orders`. -/
structure OrderRequest where
  eventId : Option String := none
  offerId : Option String := none
  buyerName : Option String := none
  buyerPhone : Option String := none
  buyerEmail : Option String := none
  format : Option String := none
  vendor : Option String := none
  /-- Header `Idempotency-Key`. -/
  idempotencyKey : Option String := none
  /-- Header `X-Idempotency-Key`. -/
  xIdempotencyKey : Option String := none
deriving DecidableEq, Repr

/-- Source `getIdempotencyKey(req)`. -/
def getIdempotencyKey (req : OrderRequest) : Option String :=
  if normStr (if truthy req.idempotencyKey then req.idempotencyKey else req.xIdempotencyKey) = ""
  then none
  else some (normStr (if truthy req.idempotencyKey then req.idempotencyKey
    else req.xIdempotencyKey))

/-- Reply of `POST /orders`. -/
structure CreateOrderReply where
  code : Nat
  orderId : Option String := none
  status : Option String := none
  amount : Option ℚ := none
  paymentUrl : Option String := none
  idempotent : Bool := false
  error : Option String := none
deriving DecidableEq, Repr

/-- The test `!eventId || !offerId || !buyerName || !buyerPhone || !format`. -/
def missingOrderFields (req : OrderRequest) : Prop :=
  ¬ truthy req.eventId ∨ ¬ truthy req.offerId ∨ ¬ truthy req.buyerName ∨
    ¬ truthy req.buyerPhone ∨ ¬ truthy req.format

instance (req : OrderRequest) : Decidable (missingOrderFields req) := by
  unfold missingOrderFields; infer_instance

/-- The previously created order that `POST /orders` answers with when the idempotency key
is already mapped. -/
def idempotentHit (db : DB) (idemKey : Option String) : Option Order :=
  match idemKey with
  | none => none
  | some k =>
    match db.idempotency.lookup k with
    | none => none
    | some existing =>
      if truthy existing.order_id then
        db.orders.find? (fun o => some o.id = existing.order_id)
      else none

/-- The object `orderRow` that `POST /orders` pushes. -/
def newOrderRow (cfg : Config) (env : Env) (db : DB) (req : OrderRequest) (offer : Offer)
    (orderId : String) : Order :=
  { id := orderId
    event_id := req.eventId.getD ""
    offer_id := req.offerId
    buyer_name := req.buyerName
    buyer_phone := req.buyerPhone
    buyer_email := orNull req.buyerEmail
    vendor_code := orNull req.vendor
    vendor_id := (resolveVendorForEvent db (req.eventId.getD "") req.vendor).map (fun v => v.id)
    vendor_name :=
      (resolveVendorForEvent db (req.eventId.getD "") req.vendor).map (fun v => v.name)
    format := req.format
    amount_cop := offer.price_cop
    nequi_ref := some ("NEQ-" ++ orderId)
    payment_url := some ("https://nequi-falso/" ++ orderId)
    status := "PENDING"
    created_at := DateField.at env.now
    paid_at := DateField.absent
    expires_at := DateField.at (env.now + cfg.ttlMin * 60 * 1000)
    payment_method := some "NEQUI"
    combos_count := if offer.combos_count = 0 then 1 else offer.combos_count
    combo_size :=
      match db.events.find? (fun e => e.id = req.eventId.getD "") with
      | some e => if e.combo_size = 0 then 6 else e.combo_size
      | none => 6 }

/-- Handler of `POST /orders`. -/
def createOrder (cfg : Config) (env : Env) (db : DB) (req : OrderRequest) :
    Outcome CreateOrderReply :=
  if missingOrderFields req then
    { db := db, reply := { code := 400, error := some "Faltan campos obligatorios" } }
  else if isValidPhone req.buyerPhone = false then
    { db := db, reply := { code := 400, error := some "Teléfono no válido" } }
  else if isValidEmail req.buyerEmail = false then
    { db := db, reply := { code := 400, error := some "Correo no válido" } }
  else
    let db1 := (expirePendingOrders cfg env.now db).1
    match db1.offers.find? (fun o => some o.id = req.offerId ∧ some o.event_id = req.eventId) with
    | none =>
      { db := db1, reply := { code := 400, error := some "Oferta no válida para este evento" } }
    | some offer =>
      match idempotentHit db1 (getIdempotencyKey req) with
      | some prev =>
        { db := db1
          reply :=
            { code := 200, orderId := some prev.id, status := some prev.status
              amount := some prev.amount_cop, paymentUrl := orNull prev.payment_url
              idempotent := true } }
      | none =>
        let orderRow := newOrderRow cfg env db1 req offer (env.uuid 0)
        { db :=
            { db1 with
              orders := db1.orders ++ [orderRow]
              idempotency :=
                match getIdempotencyKey req with
                | some k =>
                  setKey k { order_id := some (env.uuid 0), created_at := DateField.at env.now }
                    db1.idempotency
                | none => db1.idempotency }
          reply :=
            { code := 200, orderId := some (env.uuid 0), status := some "PENDING"
              amount := some offer.price_cop
              paymentUrl := some ("https://nequi-falso/" ++ env.uuid 0) } }

/-- Body of `POST /admin/manual-order`; a number field is `0` when missing. -/
structure ManualOrderRequest where
  eventId : Option String := none
  buyerName : Option String := none
  buyerPhone : Option String := none
  buyerEmail : Option String := none
  format : Option String := none
  paymentMethod : Option String := none
  vendor : Option String := none
  combos : Int := 0
  comboSize : Int := 0
deriving DecidableEq, Repr

/-- Reply of `POST /admin/manual-order`. -/
structure ManualOrderReply where
  code : Nat
  orderId : Option String := none
  nequiRef : Option String := none
  paymentUrl : Option String := none
  error : Option String := none
deriving DecidableEq, Repr

/-- The object `order` that `POST /admin/manual-order` builds and pushes on its in-memory
copy of the document, `nequi_ref` assigned. -/
def manualOrderRow (cfg : Config) (env : Env) (db : DB) (req : ManualOrderRequest) : Order :=
  { id := env.uuid 0
    event_id := req.eventId.getD ""
    offer_id := none
    buyer_name := req.buyerName
    buyer_phone := req.buyerPhone
    buyer_email := orNull req.buyerEmail
    vendor_code := orNull req.vendor
    vendor_id := (resolveVendorForEvent db (req.eventId.getD "") req.vendor).map (fun v => v.id)
    vendor_name :=
      (resolveVendorForEvent db (req.eventId.getD "") req.vendor).map (fun v => v.name)
    format := req.format
    amount_cop := 0
    nequi_ref := some ("NEQ-" ++ env.uuid 0)
    status := "PENDING_PAYMENT"
    created_at := DateField.at env.now
    paid_at := DateField.absent
    expires_at := DateField.at (env.now + cfg.ttlMin * 60 * 1000)
    payment_method := if truthy req.paymentMethod then req.paymentMethod else some "MANUAL"
    combos_count := if req.combos = 0 then 1 else req.combos
    combo_size := if req.comboSize = 0 then 6 else req.comboSize }

/-- What `POST /admin/manual-order` leaves behind: the stored document, the reply when one
is sent, and the exception that escapes the handler when one does. -/
structure ManualOrderOutcome where
  db : DB
  reply : Option ManualOrderReply := none
  thrown : Option String := none
deriving DecidableEq, Repr

/-- Handler of `POST /admin/manual-order`. After the validations it builds the order and
pushes it on the in-memory copy `db.orders`; the next statement, `if (idemKey)`, reads an
identifier that neither the handler nor the module declares (the `const idemKey` of
`POST /orders` is local to that handler), so a `ReferenceError` is thrown there: `saveDB`,
the simulated approval and `res.json` that follow are never reached. -/
def manualOrder (_cfg : Config) (_env : Env) (db : DB) (req : ManualOrderRequest) :
    ManualOrderOutcome :=
  if ¬ truthy req.eventId ∨ ¬ truthy req.buyerName ∨ ¬ truthy req.buyerPhone ∨
      ¬ truthy req.format then
    { db := db, reply := some { code := 400, error := some "Faltan campos obligatorios" } }
  else if isValidPhone req.buyerPhone = false then
    { db := db, reply := some { code := 400, error := some "Teléfono no válido" } }
  else if isValidEmail req.buyerEmail = false then
    { db := db, reply := some { code := 400, error := some "Correo no válido" } }
  else
    { db := db, thrown := some "ReferenceError: idemKey is not defined" }

/-! ## Sold cards breakdown (`events.js`) -/

/-- The object `computeSoldCardsBreakdown` returns. -/
structure Breakdown where
  online : Nat
  manual : Nat
  total : Nat
deriving DecidableEq, Repr

/-- An upper-casing for the samples: the letters `a-z` are mapped to `A-Z`, every other
character is kept. It gives what `toUpperCase()` gives on texts of ASCII characters. -/
def upperAscii (s : String) : String :=
  String.mk (s.data.map Char.toUpper)

/-- The list `tickets` of `computeSoldCardsBreakdown`: the stored tickets whose `order_id`
is the id of an order of the event with status `PAID` or `TICKETS_ISSUED`. -/
def onlineTickets (db : DB) (eventId : String) : List Ticket :=
  let ordersForEvent := db.orders.filter
    (fun o => o.event_id = eventId ∧ (o.status = "PAID" ∨ o.status = "TICKETS_ISSUED"))
  let orderIds := ordersForEvent.map (fun o => o.id)
  db.tickets.filter (fun t => t.order_id ∈ orderIds)

/-- The list `gen` of `computeSoldCardsBreakdown`: `state.generated` of the event, empty
when the entry, its state or the list is missing. -/
def generatedOf (db : DB) (eventId : String) : List GenItem :=
  match db.event_states.lookup eventId with
  | some entry =>
    match entry.state with
    | some st => st.generated.getD []
    | none => []
  | none => []

/-- The text `String(g.source || g.origin || '')`. -/
def sourceText (g : GenEntry) : String :=
  if truthy g.source then g.source.getD ""
  else if truthy g.origin then g.origin.getD ""
  else ""

/-- The text `id` of `isOnlineGen`: `g.id` when it is not `null`, else `g.ticket_id` when
that is not `null`, else the empty text. -/
def entryId (g : GenEntry) : String :=
  match g.id with
  | some s => s
  | none =>
    match g.ticket_id with
    | some s => s
    | none => ""

/-- The closure `isOnlineGen`, for the set `onlineIds`; `upper` is the method
`String.prototype.toUpperCase` of the engine. On `null` it returns `false` at its first
line; on a primitive every property it reads is `undefined`, so it returns `false` at its
last line. -/
def isOnlineGen (upper : String → String) (onlineIds : List String) : GenItem → Bool
  | GenItem.obj g =>
    if truthy g.order_id then true
    else if upper (sourceText g) = "ONLINE" then true
    else if entryId g = "" then false
    else decide (entryId g ∈ onlineIds)
  | _ => false

/-- Source `computeSoldCardsBreakdown(db, eventId)` on a stored document (whose `orders`
and `tickets` are arrays); `upper` is the method `String.prototype.toUpperCase` of the
engine. The branch is chosen by the first element of `gen` alone. -/
def computeSoldCardsBreakdown (upper : String → String) (db : DB) (eventId : String) :
    Breakdown :=
  let tickets := onlineTickets db eventId
  let online := tickets.length
  let gen := generatedOf db eventId
  let manual :=
    match gen with
    | GenItem.obj _ :: _ =>
      (gen.filter (fun g => !isOnlineGen upper (tickets.map (fun t => t.id)) g)).length
    | _ => gen.length - online
  { online := online, manual := manual, total := online + manual }

/-! ## Public order search (`orders.js`) -/

/-- The query of `GET /orders`; a parameter that is not sent is `none`. -/
structure OrderQuery where
  phone : Option String := none
  email : Option String := none
  eventId : Option String := none
deriving DecidableEq, Repr

/-- A row of the reply of `GET /orders`: the object literal built in `rows.map`. -/
structure SafeRow where
  id : String
  event_id : String
  buyer_name : Option String
  buyer_phone : Option String
  buyer_email : Option String
  format : Option String
  amount_cop : ℚ
  status : String
  created_at : DateField
  paid_at : DateField
  expires_at : DateField
  payment_method : String
  combos_count : Int
  combo_size : Int
deriving DecidableEq, Repr

/-- Reply of `GET /orders`. -/
structure SearchReply where
  code : Nat
  rows : List SafeRow := []
  error : Option String := none
deriving DecidableEq, Repr

/-- What `GET /orders` takes from the JavaScript engine. The comparator of the handler,
`(a, b) => (a.created_at < b.created_at ? 1 : -1)`, answers `-1` both ways on equal
values, and the order `sort` leaves such rows in is left to the engine. -/
structure Engine where
  /-- The method `rows.sort(compareFn)`, for the comparator that returns `1` where the
  given function is `true` and `-1` elsewhere. -/
  sort : (Order → Order → Bool) → List Order → List Order
  /-- The comparison `x < y` of two `created_at` values. -/
  less : DateField → DateField → Bool

/-- The object literal `rows.map` builds from an order. -/
def safeRow (o : Order) : SafeRow :=
  { id := o.id
    event_id := o.event_id
    buyer_name := o.buyer_name
    buyer_phone := o.buyer_phone
    buyer_email := orNull o.buyer_email
    format := o.format
    amount_cop := o.amount_cop
    status := o.status
    created_at := o.created_at
    paid_at := o.paid_at
    expires_at := o.expires_at
    payment_method := if truthy o.payment_method then o.payment_method.getD "" else "MANUAL"
    combos_count := combosOf o
    combo_size := comboSizeOf o }

/-- The three filters of `GET /orders`: each one applies when its parameter is truthy. -/
def matchesQuery (q : OrderQuery) (o : Order) : Bool :=
  decide ((truthy q.phone → o.buyer_phone = q.phone) ∧
    (truthy q.email → o.buyer_email = q.email) ∧
    (truthy q.eventId → some o.event_id = q.eventId))

/-- Handler of `GET /orders` on the stored document `db`; it saves nothing. -/
def publicOrderSearch (eng : Engine) (db : DB) (q : OrderQuery) : SearchReply :=
  if ¬ truthy q.phone ∧ ¬ truthy q.email then
    { code := 400, error := some "Debe enviar phone o email" }
  else
    let rows := db.orders.filter (matchesQuery q)
    let sorted := eng.sort (fun a b => eng.less a.created_at b.created_at) rows
    { code := 200, rows := sorted.map safeRow }

/-! ## Observations used by the statements -/

/-- The stored document after `generateTicketsForOrder(order)`: what it saved, or the
document as it was when it threw. -/
def storeAfterIssue (env : Env) (db : DB) (order : Order) : DB :=
  match generateTicketsForOrder env db order with
  | Except.ok (db1, _) => db1
  | Except.error _ => db

/-- The value `generateTicketsForOrder(order)` resolves to, `none` when it throws. -/
def issueReturn (env : Env) (db : DB) (order : Order) : Option IssueResult :=
  match generateTicketsForOrder env db order with
  | Except.ok (_, r) => some r
  | Except.error _ => none

/-- Within each event the tickets have pairwise distinct `cols_signature` values. -/
def SignaturesDistinct (tickets : List Ticket) : Prop :=
  tickets.Pairwise (fun a b => a.event_id = b.event_id → a.cols_signature ≠ b.cols_signature)

instance (tickets : List Ticket) : Decidable (SignaturesDistinct tickets) := by
  unfold SignaturesDistinct; infer_instance

/-- Tickets of the store that belong to the order with id `orderId`, in stored order. -/
def ticketsFor (db : DB) (orderId : String) : List Ticket :=
  db.tickets.filter (fun t => t.order_id = orderId)

/-- Number of fresh grids among the next `attempts` candidate grids the draws give, read
from position `pos` of the draw sequence: a candidate takes the 25 draws of `genCols`; it is
fresh when its signature is not in `used`, and a fresh candidate joins `used` and is
followed by the one draw of its serial. -/
def freshGrids (env : Env) : Nat → List String → Nat → Nat
  | 0, _, _ => 0
  | attempts + 1, used, pos =>
    if sign (genCols env.rand pos).1 ∈ used then
      freshGrids env attempts used (genCols env.rand pos).2
    else
      freshGrids env attempts (used ++ [sign (genCols env.rand pos).1])
        ((genCols env.rand pos).2 + 1) + 1

/-- The draws yield `totalCards` fresh grids before the retry ceiling is reached: among the
`20 * totalCards` candidate grids the ceiling allows, counted from the first draw and
against the signatures the event already uses, at least `totalCards` are fresh. -/
def DrawsSuffice (env : Env) (db : DB) (order : Order) : Prop :=
  totalCardsOf order
    ≤ (freshGrids env (totalCardsOf order * 20).toNat (usedSignatures db order.event_id) 0 : Nat)

instance (env : Env) (db : DB) (order : Order) : Decidable (DrawsSuffice env db order) := by
  unfold DrawsSuffice; infer_instance

/-- The retry ceiling ran out before `totalCards` cards were created. -/
def CeilingReached (env : Env) (db : DB) (order : Order) : Prop :=
  ((loopEnd env db order).created : Int) < totalCardsOf order

instance (env : Env) (db : DB) (order : Order) : Decidable (CeilingReached env db order) := by
  unfold CeilingReached; infer_instance

/-- Number of calls, in a run of successive `generateTicketsForOrder` calls, that change
the vendor ledger (`db.event_states`). -/
def ledgerChanges : DB → List (Env × Order) → Nat
  | _, [] => 0
  | db, (env, order) :: rest =>
    (if (storeAfterIssue env db order).event_states = db.event_states then 0 else 1)
      + ledgerChanges (storeAfterIssue env db order) rest

/-- The handler called `generateTicketsForOrder` and the call threw. -/
def issuanceThrew : Option (Except String IssueResult) → Bool
  | some (Except.error _) => true
  | _ => false

/-- The handler called `generateTicketsForOrder`. -/
def issuanceCalled : Option (Except String IssueResult) → Bool
  | some _ => true
  | none => false

/-- The vendor stored under `vendorId` in the panel state of event `eventId`. -/
def vendorOf (db : DB) (eventId vendorId : String) : Option Vendor :=
  ((((db.event_states.lookup eventId).bind (fun entry => entry.state)).bind
    (fun st => st.vendors)).bind (fun vs => vs.lookup vendorId)).bind id

/-- The stored value `db.event_ticket_seq[eventId]`, `0` when there is none. -/
def counterOf (db : DB) (eventId : String) : Int :=
  (db.event_ticket_seq.lookup eventId).getD 0

/-- An integer of the signed 32-bit range. -/
def InInt32 (x : Int) : Prop :=
  -2147483648 ≤ x ∧ x < 2147483648

instance (x : Int) : Decidable (InInt32 x) := by
  unfold InInt32; infer_instance

/-- Value of a base-36 digit written `0-9` or `A-Z`. -/
def digitValue36 (c : Char) : Nat :=
  if c.isDigit then c.toNat - 48 else c.toNat - 55

/-- The number a base-36 numeral denotes, most significant digit first. -/
def parse36 (s : String) : Nat :=
  s.toList.foldl (fun acc c => acc * 36 + digitValue36 c) 0

/-- A character `A-Z` or `0-9`. -/
def upperAlnum (c : Char) : Bool :=
  c.isUpper || c.isDigit

/-- A grid of 5 columns of 5 cells, every cell in the signed 32-bit range. -/
def IsGrid32 (cols : List (List Int)) : Prop :=
  cols.length = 5 ∧ ∀ col ∈ cols, col.length = 5 ∧ ∀ x ∈ col, InInt32 x

instance (cols : List (List Int)) : Decidable (IsGrid32 cols) := by
  unfold IsGrid32; infer_instance

/-- The money figures are far enough from the greatest double that no operation of
`applyVendorStatsOnce` on them overflows to `Infinity`: the amount and the percentage are at
most `10^100` in magnitude, the two stored sums at most `10^300`. -/
def MoneyInRange (v : Vendor) (row : Order) : Prop :=
  |row.amount_cop| ≤ 10 ^ 100 ∧ |v.commissionPct| ≤ 10 ^ 100 ∧
    |v.stats.ventas_cop| ≤ 10 ^ 300 ∧ |v.stats.comision| ≤ 10 ^ 300

/-- The sizes of the order are integers for which the arithmetic of the loop is exact in
double precision: `combos_count`, `combo_size` and the ceiling `totalCards * 20` lie within
`2^53` of zero, so `totalCards`, `safety` and every `safety--` and `created++` are the
integers of the model. -/
def ExactSizes (order : Order) : Prop :=
  -9007199254740992 ≤ order.combos_count ∧ order.combos_count ≤ 9007199254740992 ∧
    -9007199254740992 ≤ order.combo_size ∧ order.combo_size ≤ 9007199254740992 ∧
    -9007199254740992 ≤ totalCardsOf order * 20 ∧ totalCardsOf order * 20 ≤ 9007199254740992

instance (order : Order) : Decidable (ExactSizes order) := by
  unfold ExactSizes; infer_instance

/-- The order with its vendor and payment-reference fields blanked: `vendor_code`,
`vendor_id`, `vendor_name`, `vendor_stats_applied`, `nequi_ref` and `payment_url`. -/
def scrubVendor (o : Order) : Order :=
  { o with
    vendor_code := none, vendor_id := none, vendor_name := none
    vendor_stats_applied := false, nequi_ref := none, payment_url := none }

/-- Two stores that differ at most in the six fields `scrubVendor` blanks, order by order. -/
def SameButVendorFields (db1 db2 : DB) : Prop :=
  db1.orders.map scrubVendor = db2.orders.map scrubVendor ∧ db1.events = db2.events ∧
    db1.offers = db2.offers ∧ db1.tickets = db2.tickets ∧
    db1.idempotency = db2.idempotency ∧ db1.event_states = db2.event_states ∧
    db1.event_ticket_seq = db2.event_ticket_seq

/-- A sort that reads the rows through the comparator only: when a renaming of the rows
leaves every comparison as it was, sorting the renamed rows gives the renamed result. -/
def ComparisonSort (sort : (Order → Order → Bool) → List Order → List Order) : Prop :=
  ∀ (cmp : Order → Order → Bool) (f : Order → Order) (l : List Order),
    (∀ a b, cmp (f a) (f b) = cmp a b) → sort cmp (l.map f) = (sort cmp l).map f

/-- Insertion of a row in a sorted list: `a` goes behind every row `b` for which the
comparator called on `(a, b)` returns `1`. -/
def insertRow (cmp : Order → Order → Bool) (a : Order) : List Order → List Order
  | [] => [a]
  | b :: rest => if cmp a b then b :: insertRow cmp a rest else a :: b :: rest

/-- An insertion sort, one of the sorts an engine may run. -/
def sortRows (cmp : Order → Order → Bool) (l : List Order) : List Order :=
  l.foldr (insertRow cmp) []

/-- An engine for the samples: insertion sort, and ISO texts compared as their instants
(a comparison with a missing or unparsable text is `false`). -/
def engineSample : Engine :=
  { sort := sortRows
    less := fun x y =>
      match x, y with
      | DateField.at a, DateField.at b => decide (a < b)
      | _, _ => false }

/-- An order of the event with status `PAID` or `TICKETS_ISSUED` has the id `orderId`. -/
def PaidOrderOfEvent (db : DB) (eventId orderId : String) : Prop :=
  ∃ o ∈ db.orders, o.id = orderId ∧ o.event_id = eventId ∧
    (o.status = "PAID" ∨ o.status = "TICKETS_ISSUED")

instance (db : DB) (eventId orderId : String) : Decidable (PaidOrderOfEvent db eventId orderId) := by
  unfold PaidOrderOfEvent; infer_instance

/-- The object counts as manual: it has no `order_id`; its mark (`source`, or `origin`
when `source` is empty), put in upper case by `upper`, is not `ONLINE`; and its id (`id`,
or `ticket_id` when it has no `id`) is empty or is not the id of one of `tickets`. -/
def ManualEntry (upper : String → String) (tickets : List Ticket) (g : GenEntry) : Prop :=
  ¬ truthy g.order_id ∧ upper (sourceText g) ≠ "ONLINE" ∧
    (entryId g = "" ∨ ∀ t ∈ tickets, t.id ≠ entryId g)

instance (upper : String → String) (tickets : List Ticket) (g : GenEntry) :
    Decidable (ManualEntry upper tickets g) := by
  unfold ManualEntry; infer_instance

/-- The object counts as manual in the words of the documentation: it has no `order_id`,
neither `source` nor `origin` is `ONLINE`, and its `id` is not the id of one of `tickets`. -/
def ManualEntryAsDocumented (tickets : List Ticket) (g : GenEntry) : Prop :=
  ¬ truthy g.order_id ∧ g.source ≠ some "ONLINE" ∧ g.origin ≠ some "ONLINE" ∧
    ∀ t ∈ tickets, some t.id ≠ g.id

instance (tickets : List Ticket) (g : GenEntry) :
    Decidable (ManualEntryAsDocumented tickets g) := by
  unfold ManualEntryAsDocumented; infer_instance

/-! ## Sample stores and requests -/

/-- Every `Math.random()` call returns `0`. -/
def envConst : Env :=
  { rand := fun _ => 0, suffix := fun _ => "AAAA", uuid := fun k => toString k, now := 2000 }

/-- The k-th `Math.random()` call returns `k * 1234567890123457 mod 2^53` over `2^53`. -/
def envSpread : Env :=
  { rand := fun k => k * 1234567890123457, suffix := fun _ => "ZZZZ"
    uuid := fun k => toString (100 + k), now := 2000 }

/-- The environment `envSpread` read at the later instant 5000000. -/
def envLate : Env :=
  { rand := fun k => k * 1234567890123457, suffix := fun _ => "ZZZZ"
    uuid := fun k => toString (100 + k), now := 5000000 }

/-- The first 25 draws are `0` (one `genCols` call), the later ones as in `envSpread`. -/
def envMixed : Env :=
  { rand := fun k => if k < 25 then 0 else k * 1234567890123457, suffix := fun _ => "MMMM"
    uuid := fun k => toString (200 + k), now := 2000 }

/-- An order for 1 combo of 2 cards. -/
def orderTwoCards : Order :=
  { id := "o1", event_id := "E1", status := "PAID", nequi_ref := some "NEQ-o1"
    combos_count := 1, combo_size := 2 }

/-- An order for 2 combos of 6 cards. -/
def orderDozen : Order :=
  { id := "o1", event_id := "E1", status := "PAID", nequi_ref := some "NEQ-o1"
    combos_count := 2, combo_size := 6 }

/-- The grid `genCols` returns when every draw is `0`. -/
def gridConst : List (List Int) :=
  [[1, 2, 3, 4, 5], [16, 17, 18, 19, 20], [31, 32, 0, 34, 35], [46, 47, 48, 49, 50],
    [61, 62, 63, 64, 65]]

/-- A ticket of order `o1` in event `E1`. -/
def ticketSeed : Ticket :=
  { id := "t0", serial := "BF-E1-00001-AAAA", order_id := "o1", event_id := "E1"
    card_index := 0, cols := gridConst
    cols_signature :=
      some "[1,2,3,4,5,16,17,18,19,20,31,32,0,34,35,46,47,48,49,50,61,62,63,64,65]" }

/-- A store in which order `o1` is issued: one ticket, counter of `E1` at 1. -/
def storeIssued : DB :=
  { orders := [{ orderTwoCards with
      status := "TICKETS_ISSUED", combo_size := 1, paid_at := DateField.at 500 }]
    tickets := [ticketSeed]
    event_ticket_seq := [("E1", 1)] }

/-- A store holding `ticketSeed` only; order `o2` of the same event has no ticket. -/
def storeOtherOrder : DB :=
  { tickets := [ticketSeed], event_ticket_seq := [("E1", 1)] }

/-- An order of event `E1` with no ticket in `storeOtherOrder`. -/
def orderSecond : Order :=
  { id := "o2", event_id := "E1", status := "PAID", combos_count := 1, combo_size := 2 }

/-- An order attributed to vendor `v1`. -/
def orderVendor : Order :=
  { id := "o1", event_id := "E1", status := "PAID", vendor_id := some "v1"
    amount_cop := 6000, combos_count := 1, combo_size := 2 }

/-- A store with order `orderVendor` and vendor `v1` (10 % commission) in the ledger. -/
def storeVendor : DB :=
  { orders := [orderVendor]
    event_states :=
      [("E1", { state := some { vendors := some [("v1", some { commissionPct := 10 })] } })] }

/-- The store `storeVendor` with the commission of vendor `v1` at 7 %. -/
def storeVendorSeven : DB :=
  { orders := [orderVendor]
    event_states :=
      [("E1", { state := some { vendors := some [("v1", some { commissionPct := 7 })] } })] }

/-- A store whose only order is `FAILED` with a deadline at instant 1000. -/
def storeFailedDue : DB :=
  { orders := [{ orderTwoCards with status := "FAILED", expires_at := DateField.at 1000 }] }

/-- A store whose only order is `PENDING_PAYMENT` with a deadline at instant 1000. -/
def storePendingDue : DB :=
  { orders := [{ orderTwoCards with
      status := "PENDING_PAYMENT", expires_at := DateField.at 1000 }] }

/-- A store whose only order is `EXPIRED`. -/
def storeExpired : DB :=
  { orders := [{ orderTwoCards with
      status := "EXPIRED", expires_at := DateField.at 1000, expired_at := DateField.at 1500 }] }

/-- A store whose only order is pending, not yet due, and carries no event id. -/
def storeNoEvent : DB :=
  { orders := [{ orderTwoCards with
      event_id := "", status := "PENDING_PAYMENT", expires_at := DateField.at 9000 }] }

/-- A store whose only order carries the status text `PENDING`, with a deadline at instant
1000. -/
def storePendingLiteral : DB :=
  { orders := [{ orderTwoCards with status := "PENDING", expires_at := DateField.at 1000 }] }

/-- A store whose only order is `PAID` and has no ticket. -/
def storePaidNoTickets : DB :=
  { orders := [orderTwoCards] }

/-- A store in which order `o1` (2 combos of 6 cards, offer `c2`) is `TICKETS_ISSUED`, while
event `E1` now has `combo_size` 4 and offer `c2` now has 5 combos. -/
def storeResized : DB :=
  { events := [{ id := "E1", combo_size := 4 }]
    offers := [{ id := "c2", event_id := "E1", combos_count := 5, price_cop := 12000 }]
    orders := [{ orderDozen with
      status := "TICKETS_ISSUED", offer_id := some "c2", paid_at := DateField.at 500 }]
    tickets := [ticketSeed]
    event_ticket_seq := [("E1", 1)] }

/-- The seed document of `db.js` reduced to event `VIERNES` and its offer `c1`. -/
def storeSeed : DB :=
  { events := [{ id := "VIERNES", combo_size := 6 }]
    offers := [{ id := "c1", event_id := "VIERNES", combos_count := 1, price_cop := 6000 }] }

/-- A valid body of `POST /orders` for offer `c1`, with an idempotency key. -/
def requestFirst : OrderRequest :=
  { eventId := some "VIERNES", offerId := some "c1", buyerName := some "Ana"
    buyerPhone := some "300 123 4567", buyerEmail := some "ana@example.co"
    format := some "digital", idempotencyKey := some " k-1 " }

/-- A valid body of `POST /admin/manual-order`. -/
def requestManual : ManualOrderRequest :=
  { eventId := some "VIERNES", buyerName := some "Ana", buyerPhone := some "300 123 4567"
    format := some "digital", combos := 2, comboSize := 6 }

/-- A store in which key `k-1` is mapped to order `o1`, which is pending and not yet due. -/
def storeKeyed : DB :=
  { events := [{ id := "VIERNES", combo_size := 6 }]
    offers := [{ id := "c1", event_id := "VIERNES", combos_count := 1, price_cop := 6000 }]
    orders := [{ id := "o1", event_id := "VIERNES", status := "PENDING", amount_cop := 6000
                 nequi_ref := some "NEQ-o1", expires_at := DateField.at 9000 }]
    idempotency := [("k-1", { order_id := some "o1", created_at := DateField.at 100 })] }

/-- A store whose event `E1` has one vendor, `v1`, with no link token. -/
def storeVendorNoToken : DB :=
  { event_states :=
      [("E1", { state := some { vendors := some [("v1", some { name := "Ana" })] } })] }

/-- The store `storeVendor` with the stored counter `stats.combos` of vendor `v1` at
`2^31`. -/
def storeVendorWrapped : DB :=
  { orders := [orderVendor]
    event_states :=
      [("E1", { state := some { vendors :=
        (some [("v1", some { commissionPct := 10, stats := { combos := 2147483648 } })]) } })] }

/-- The grid `gridConst` with its first cell changed to 2 and its second to 3. -/
def gridOther : List (List Int) :=
  [[2, 3, 3, 4, 5], [16, 17, 18, 19, 20], [31, 32, 0, 34, 35], [46, 47, 48, 49, 50],
    [61, 62, 63, 64, 65]]

/-- Two `PENDING_PAYMENT` orders without `expires_at`: `o1` has no `created_at`, `o2` was
created at the epoch (instant `0`). -/
def storeLegacyPending : DB :=
  { orders :=
      [{ id := "o1", event_id := "E1", status := "PENDING_PAYMENT" },
       { id := "o2", event_id := "E1", status := "PENDING_PAYMENT"
         created_at := DateField.at 0 }] }

/-- Order `o1` is `PENDING_PAYMENT` with a deadline at instant 1000; order `o2` is
`PENDING_PAYMENT` without `expires_at` and was created at the last instant a `Date` holds. -/
def storeDueAndUndatable : DB :=
  { orders :=
      [{ id := "o1", event_id := "E1", status := "PENDING_PAYMENT"
         expires_at := DateField.at 1000 },
       { id := "o2", event_id := "E1", status := "PENDING_PAYMENT"
         created_at := DateField.at 8640000000000000 }] }

/-- A `PENDING_PAYMENT` order without `expires_at`, created at instant 1000. -/
def storeLegacyDated : DB :=
  { orders :=
      [{ id := "o1", event_id := "E1", status := "PENDING_PAYMENT"
         created_at := DateField.at 1000 }] }

/-- An order whose `combos_count` and `combo_size` are missing (or `0`). -/
def orderNoSizes : Order :=
  { id := "o3", event_id := "E1", status := "PAID" }

/-- A generated object that names the ticket `t0` by `ticket_id` and has no `id`. -/
def entryByTicketId : GenEntry :=
  { ticket_id := some "t0" }

/-- A generated object with the `id` `g1` that names the ticket `t0` by `ticket_id`. -/
def entryWithBothIds : GenEntry :=
  { id := some "g1", ticket_id := some "t0" }

/-- A list `state.generated` of two objects. -/
def generatedSample : List GenEntry :=
  [entryByTicketId, entryWithBothIds]

/-- Order `o1` is paid and has the ticket `t0`; the panel state lists the two generated
objects of `generatedSample`. -/
def storeGenerated : DB :=
  { orders := [orderTwoCards]
    tickets := [ticketSeed]
    event_states :=
      [("E1", { state := some { generated := some (generatedSample.map GenItem.obj) } })] }

/-- Order `o1` is paid and has the ticket `t0`; the panel state lists three generated ids
in the legacy format. -/
def storeLegacyGenerated : DB :=
  { orders := [orderTwoCards]
    tickets := [ticketSeed]
    event_states :=
      [("E1", { state := some { generated := some (["1", "2", "3"].map GenItem.prim) } })] }

/-- Two orders of the buyer with phone `3001234567`, the first attributed to a vendor. -/
def storeSearchA : DB :=
  { orders :=
      [{ id := "o1", event_id := "E1", status := "PAID", buyer_phone := some "3001234567"
         created_at := DateField.at 1000, combos_count := 1, combo_size := 6
         vendor_code := some "V-ANA", vendor_id := some "v1", vendor_name := some "Ana"
         vendor_stats_applied := true, nequi_ref := some "NEQ-o1"
         payment_url := some "https://pay.example/o1" },
       { id := "o2", event_id := "E1", status := "PENDING", buyer_phone := some "3001234567"
         created_at := DateField.at 2000, combos_count := 1, combo_size := 6 }] }

/-- The store `storeSearchA` with the vendor and payment-reference fields changed. -/
def storeSearchB : DB :=
  { orders :=
      [{ id := "o1", event_id := "E1", status := "PAID", buyer_phone := some "3001234567"
         created_at := DateField.at 1000, combos_count := 1, combo_size := 6
         vendor_code := some "V-LUZ", vendor_id := some "v2", vendor_name := some "Luz"
         nequi_ref := some "NEQ-zz" },
       { id := "o2", event_id := "E1", status := "PENDING", buyer_phone := some "3001234567"
         created_at := DateField.at 2000, combos_count := 1, combo_size := 6
         payment_url := some "https://pay.example/o2" }] }

/-- A search by phone. -/
def querySample : OrderQuery :=
  { phone := some "3001234567" }

/-! ## Lemmas on the card generator -/

theorem jsonInts_ne_empty (flat : List Int) : jsonInts flat ≠ "" := by
  intro h
  have h1 : (jsonInts flat).length = 0 := by rw [h]; rfl
  unfold jsonInts at h1
  simp only [String.length_append] at h1
  have h2 : ("[" : String).length = 1 := rfl
  omega

theorem sign_ne_empty (cols : List (List Int)) : sign cols ≠ "" :=
  jsonInts_ne_empty _

/-! ## Lemmas on the generation loop -/

theorem issueLoop_inv (env : Env) (order : Order) (total : Int) :
    ∀ (safety : Nat) (st : LoopState), ∃ news : List Ticket,
      (issueLoop env order total safety st).tickets = st.tickets ++ news ∧
      (issueLoop env order total safety st).created = st.created + news.length ∧
      (issueLoop env order total safety st).seqCursor = st.seqCursor + (news.length : Int) ∧
      (∀ t ∈ news, t.order_id = order.id ∧ t.event_id = order.event_id ∧
        ∃ s, t.cols_signature = some s ∧ s ≠ "" ∧ s ∉ st.existing) ∧
      news.Pairwise (fun a b => a.cols_signature ≠ b.cols_signature) ∧
      news.map (fun t => t.card_index)
        = (List.range news.length).map (fun i => ((st.created + i : Nat) : Int)) := by
  intro safety
  induction safety with
  | zero =>
    intro st
    exact ⟨[], by simp [issueLoop]⟩
  | succ n ih =>
    intro st
    by_cases hc : (st.created : Int) < total
    · by_cases hm : sign (genCols env.rand st.pos).1 ∈ st.existing
      · obtain ⟨news, h1, h2, h3, h4, h5, h6⟩ :=
          ih { st with pos := (genCols env.rand st.pos).2 }
        refine ⟨news, ?_, ?_, ?_, ?_, h5, ?_⟩
        · simpa [issueLoop, hc, hm] using h1
        · simpa [issueLoop, hc, hm] using h2
        · simpa [issueLoop, hc, hm] using h3
        · simpa using h4
        · simpa using h6
      · obtain ⟨news, h1, h2, h3, h4, h5, h6⟩ := ih
          { created := st.created + 1
            existing := st.existing ++ [sign (genCols env.rand st.pos).1]
            seqCursor := st.seqCursor + 1
            pos := (genCols env.rand st.pos).2 + 1
            tickets := st.tickets ++ [newTicket env order st (genCols env.rand st.pos).1
              (sign (genCols env.rand st.pos).1) (genCols env.rand st.pos).2] }
        dsimp only at h1 h2 h3 h4 h6
        refine ⟨newTicket env order st (genCols env.rand st.pos).1
              (sign (genCols env.rand st.pos).1) (genCols env.rand st.pos).2 :: news,
          ?_, ?_, ?_, ?_, ?_, ?_⟩
        · simp only [issueLoop, hc, hm, if_true, if_false]
          simpa using h1
        · simp only [issueLoop, hc, hm, if_true, if_false]
          simp only [List.length_cons]
          omega
        · simp only [issueLoop, hc, hm, if_true, if_false]
          simp only [List.length_cons]
          rw [h3]; push_cast; ring
        · intro t ht
          rcases List.mem_cons.mp ht with rfl | ht
          · exact ⟨rfl, rfl, _, rfl, sign_ne_empty _, hm⟩
          · obtain ⟨a, b, s, hs, hne, hnot⟩ := h4 t ht
            exact ⟨a, b, s, hs, hne, fun hin => hnot (List.mem_append_left _ hin)⟩
        · refine List.Pairwise.cons ?_ h5
          intro t ht heq
          obtain ⟨_, _, s, hs, _, hnot⟩ := h4 t ht
          apply hnot
          have : some (sign (genCols env.rand st.pos).1) = some s := by
            rw [← hs]; exact heq
          simp [Option.some.inj this]
        · simp only [List.map_cons, List.length_cons]
          rw [List.range_succ_eq_map, List.map_cons, List.map_map, h6]
          congr 1
          apply List.map_congr_left
          intro i _
          simp only [Function.comp, newTicket]
          push_cast; omega
    · exact ⟨[], by simp [issueLoop, hc]⟩

theorem issueLoop_created_le (env : Env) (order : Order) (total : Int) :
    ∀ (safety : Nat) (st : LoopState), (st.created : Int) ≤ total →
      ((issueLoop env order total safety st).created : Int) ≤ total := by
  intro safety
  induction safety with
  | zero => intro st h; simpa [issueLoop] using h
  | succ n ih =>
    intro st h
    by_cases hc : (st.created : Int) < total
    · by_cases hm : sign (genCols env.rand st.pos).1 ∈ st.existing
      · simp only [issueLoop, hc, hm, if_true]
        exact ih _ h
      · simp only [issueLoop, hc, hm, if_true, if_false]
        apply ih
        show ((st.created + 1 : Nat) : Int) ≤ total
        push_cast; omega
    · simpa [issueLoop, hc] using h

/-! ## Lemmas on `generateTicketsForOrder` -/

theorem applyVendorStatsOnce_tickets (db : DB) (row : Order) (n : Int) :
    (applyVendorStatsOnce db row n).tickets = db.tickets := by
  unfold applyVendorStatsOnce
  split <;> rfl

theorem applyVendorStatsOnce_seq (db : DB) (row : Order) (n : Int) :
    (applyVendorStatsOnce db row n).event_ticket_seq = db.event_ticket_seq := by
  unfold applyVendorStatsOnce
  split <;> rfl

/-- The document `db` with the tickets and the sequence counter the loop leaves. -/
theorem loopEnd_tickets (env : Env) (db : DB) (order : Order) :
    ∃ news : List Ticket,
      (loopEnd env db order).tickets = db.tickets ++ news ∧
      (loopEnd env db order).created = news.length ∧
      (loopEnd env db order).seqCursor = seqOf db order.event_id + (news.length : Int) ∧
      (∀ t ∈ news, t.order_id = order.id ∧ t.event_id = order.event_id ∧
        ∃ s, t.cols_signature = some s ∧ s ≠ "" ∧
          s ∉ usedSignatures db order.event_id) ∧
      news.Pairwise (fun a b => a.cols_signature ≠ b.cols_signature) ∧
      news.map (fun t => t.card_index)
        = (List.range news.length).map (fun (i : Nat) => (i : Int)) := by
  obtain ⟨news, h1, h2, h3, h4, h5, h6⟩ :=
    issueLoop_inv env order (totalCardsOf order) (totalCardsOf order * 20).toNat
      (loopStart db order)
  refine ⟨news, h1, ?_, h3, h4, h5, ?_⟩
  · simpa [loopStart] using h2
  · rw [h6]
    apply List.map_congr_left
    intro i _
    simp [loopStart]

/-- The path of `generateTicketsForOrder` taken when the order already has tickets. -/
theorem issue_existing (env : Env) (db : DB) (order : Order)
    (h : ticketsFor db order.id ≠ []) :
    issueReturn env db order
        = some { totalCards := (ticketsFor db order.id).length, idempotent := true } ∧
      (storeAfterIssue env db order).tickets = db.tickets ∧
      (storeAfterIssue env db order).event_ticket_seq = db.event_ticket_seq := by
  have hpos : 0 < (db.tickets.filter (fun t => t.order_id = order.id)).length :=
    List.length_pos.mpr h
  unfold issueReturn storeAfterIssue generateTicketsForOrder
  simp only [hpos, if_true]
  cases db.orders.find? (fun o => o.id = order.id) with
  | none => exact ⟨rfl, rfl, rfl⟩
  | some row =>
    exact ⟨rfl, applyVendorStatsOnce_tickets _ _ _, applyVendorStatsOnce_seq _ _ _⟩

/-- The path of `generateTicketsForOrder` taken when the order has no ticket yet and
carries an event id. -/
theorem issue_fresh (env : Env) (db : DB) (order : Order)
    (h : ticketsFor db order.id = []) (he : order.event_id ≠ "") :
    issueReturn env db order = some { totalCards := (loopEnd env db order).created } ∧
      (storeAfterIssue env db order).tickets = (loopEnd env db order).tickets ∧
      (storeAfterIssue env db order).event_ticket_seq
        = setKey order.event_id (loopEnd env db order).seqCursor db.event_ticket_seq := by
  have hpos : ¬ 0 < (db.tickets.filter (fun t => t.order_id = order.id)).length := by
    unfold ticketsFor at h
    simp [h]
  unfold issueReturn storeAfterIssue generateTicketsForOrder
  simp only [hpos, he, if_false]
  cases db.orders.find? (fun o => o.id = order.id) with
  | none => exact ⟨rfl, rfl, rfl⟩
  | some row =>
    exact ⟨rfl, applyVendorStatsOnce_tickets _ _ _, applyVendorStatsOnce_seq _ _ _⟩

/-- The only throw of `generateTicketsForOrder`: no ticket for the order and no event id. -/
theorem issue_throw (env : Env) (db : DB) (order : Order)
    (h : ticketsFor db order.id = []) (he : order.event_id = "") :
    issueReturn env db order = none ∧ storeAfterIssue env db order = db := by
  have hpos : ¬ 0 < (db.tickets.filter (fun t => t.order_id = order.id)).length := by
    unfold ticketsFor at h
    simp [h]
  unfold issueReturn storeAfterIssue generateTicketsForOrder
  simp [hpos, he]

theorem mem_usedSignatures (db : DB) (e : String) (t : Ticket) (s : String)
    (ht : t ∈ db.tickets) (hev : t.event_id = e) (hs : t.cols_signature = some s)
    (hne : s ≠ "") : s ∈ usedSignatures db e := by
  unfold usedSignatures
  rw [List.mem_filterMap]
  exact ⟨t, ht, by simp [hev, hs, hne]⟩

theorem SignaturesDistinct_issue (env : Env) (db : DB) (order : Order)
    (h : SignaturesDistinct db.tickets) :
    SignaturesDistinct (storeAfterIssue env db order).tickets := by
  by_cases hex : ticketsFor db order.id = []
  · by_cases he : order.event_id = ""
    · rw [(issue_throw env db order hex he).2]; exact h
    · rw [(issue_fresh env db order hex he).2.1]
      obtain ⟨news, h1, _, _, h4, h5, _⟩ := loopEnd_tickets env db order
      rw [h1]
      unfold SignaturesDistinct
      rw [List.pairwise_append]
      refine ⟨h, ?_, ?_⟩
      · refine List.Pairwise.imp ?_ h5
        intro a b hab _
        exact hab
      · intro a ha b hb hev hsig
        obtain ⟨_, hbe, s, hs, hne, hnot⟩ := h4 b hb
        apply hnot
        exact mem_usedSignatures db order.event_id a s ha (hev.trans hbe) (hsig.trans hs) hne
  · rw [(issue_existing env db order hex).2.1]; exact h

theorem ticketsFor_append_new (db : DB) (news : List Ticket) (oid : String)
    (hold : ticketsFor db oid = []) (hnew : ∀ t ∈ news, t.order_id = oid) :
    (db.tickets ++ news).filter (fun t => t.order_id = oid) = news := by
  unfold ticketsFor at hold
  rw [List.filter_append, hold, List.nil_append, List.filter_eq_self]
  intro t ht
  simp [hnew t ht]

theorem totalCardsOf_pos (order : Order) (hc : 0 < order.combos_count)
    (hs : 0 < order.combo_size) :
    totalCardsOf order = order.combos_count * order.combo_size := by
  unfold totalCardsOf combosOf comboSizeOf
  rw [if_neg (by omega), if_neg (by omega)]

/-! ## Lemmas on the vendor ledger -/

theorem find_updateFirst (p : Order → Prop) [DecidablePred p] (f : Order → Order)
    (hf : ∀ o, p o → p (f o)) :
    ∀ (l : List Order) (x : Order), l.find? (fun o => decide (p o)) = some x →
      (updateFirst p f l).find? (fun o => decide (p o)) = some (f x) := by
  intro l
  induction l with
  | nil => intro x h; simp at h
  | cons o rest ih =>
    intro x h
    by_cases hp : p o
    · have hx : o = x := by simpa [List.find?, hp] using h
      subst hx
      simp [updateFirst, hp, List.find?, hf o hp]
    · have hx : rest.find? (fun o => decide (p o)) = some x := by
        simpa [List.find?, hp] using h
      simp [updateFirst, hp, List.find?, ih x hx]

theorem find_updateFirst_none (p : Order → Prop) [DecidablePred p] (f : Order → Order) :
    ∀ (l : List Order), l.find? (fun o => decide (p o)) = none → updateFirst p f l = l := by
  intro l
  induction l with
  | nil => intro _; rfl
  | cons o rest ih =>
    intro h
    by_cases hp : p o
    · simp [List.find?, hp] at h
    · have hx : rest.find? (fun o => decide (p o)) = none := by
        simpa [List.find?, hp] using h
      simp [updateFirst, hp, ih hx]

theorem ledgerVendor_applied (db : DB) (row : Order) (h : row.vendor_stats_applied = true) :
    ledgerVendor db row = none := by
  unfold ledgerVendor
  cases row.vendor_id with
  | none => rfl
  | some vid =>
    by_cases hv : vid = ""
    · simp [hv]
    · simp [hv, h]

theorem applyVendorStatsOnce_applied (db : DB) (row : Order) (n : Int)
    (h : row.vendor_stats_applied = true) : applyVendorStatsOnce db row n = db := by
  unfold applyVendorStatsOnce
  rw [ledgerVendor_applied db row h]

/-- When `applyVendorStatsOnce` touches the ledger it also sets the flag of the order row. -/
theorem applyVendorStatsOnce_sets_flag (db : DB) (row : Order) (n : Int)
    (hrow : db.orders.find? (fun o => decide (o.id = row.id)) = some row)
    (hch : (applyVendorStatsOnce db row n).event_states ≠ db.event_states) :
    ∃ row1, (applyVendorStatsOnce db row n).orders.find? (fun o => decide (o.id = row.id))
        = some row1 ∧ row1.vendor_stats_applied = true := by
  unfold applyVendorStatsOnce at hch ⊢
  cases hl : ledgerVendor db row with
  | none => rw [hl] at hch; exact absurd rfl hch
  | some pr =>
    obtain ⟨vid, v⟩ := pr
    refine ⟨{ row with vendor_stats_applied := true }, ?_, rfl⟩
    exact find_updateFirst (fun o => o.id = row.id)
      (fun o => { o with vendor_stats_applied := true }) (fun _ ho => ho) db.orders row hrow

/-- Shape of the document `generateTicketsForOrder` saves: the ledger and the orders are
touched by `applyVendorStatsOnce` only, on the row found by the order id. -/
theorem issue_shape (env : Env) (db : DB) (order : Order) :
    ∃ (dbX : DB), dbX.orders = db.orders ∧ dbX.event_states = db.event_states ∧
      (storeAfterIssue env db order = dbX ∨
        ∃ row n, db.orders.find? (fun o => decide (o.id = order.id)) = some row ∧
          storeAfterIssue env db order = applyVendorStatsOnce dbX row n) := by
  unfold storeAfterIssue generateTicketsForOrder
  by_cases hpos : 0 < (db.tickets.filter (fun t => t.order_id = order.id)).length
  · simp only [hpos, if_true]
    cases hf : db.orders.find? (fun o => decide (o.id = order.id)) with
    | none => exact ⟨db, rfl, rfl, Or.inl rfl⟩
    | some row => exact ⟨db, rfl, rfl, Or.inr ⟨row, _, rfl, rfl⟩⟩
  · simp only [hpos, if_false]
    by_cases he : order.event_id = ""
    · simp only [he, if_true]
      exact ⟨db, rfl, rfl, Or.inl rfl⟩
    · simp only [he, if_false]
      cases hf : db.orders.find? (fun o => decide (o.id = order.id)) with
      | none =>
        exact ⟨{ db with
          tickets := (loopEnd env db order).tickets
          event_ticket_seq :=
            setKey order.event_id (loopEnd env db order).seqCursor db.event_ticket_seq },
          rfl, rfl, Or.inl rfl⟩
      | some row =>
        exact ⟨{ db with
          tickets := (loopEnd env db order).tickets
          event_ticket_seq :=
            setKey order.event_id (loopEnd env db order).seqCursor db.event_ticket_seq },
          rfl, rfl, Or.inr ⟨row, _, rfl, rfl⟩⟩

/-- With the flag already set on the order row, a call leaves ledger and orders alone. -/
theorem issue_flagged (env : Env) (db : DB) (order : Order) (row : Order)
    (hrow : db.orders.find? (fun o => decide (o.id = order.id)) = some row)
    (hflag : row.vendor_stats_applied = true) :
    (storeAfterIssue env db order).event_states = db.event_states ∧
      (storeAfterIssue env db order).orders = db.orders := by
  obtain ⟨dbX, ho, hes, hcase⟩ := issue_shape env db order
  rcases hcase with h | ⟨row1, n, hrow1, h⟩
  · rw [h]; exact ⟨hes, ho⟩
  · rw [hrow] at hrow1
    cases hrow1
    rw [h, applyVendorStatsOnce_applied dbX row n hflag]
    exact ⟨hes, ho⟩

/-- A call that changes the ledger leaves the flag set on the order row. -/
theorem issue_change_sets_flag (env : Env) (db : DB) (order : Order)
    (hch : (storeAfterIssue env db order).event_states ≠ db.event_states) :
    ∃ row, (storeAfterIssue env db order).orders.find? (fun o => decide (o.id = order.id))
        = some row ∧ row.vendor_stats_applied = true := by
  obtain ⟨dbX, ho, hes, hcase⟩ := issue_shape env db order
  rcases hcase with h | ⟨row, n, hrow, h⟩
  · rw [h, hes] at hch; exact absurd rfl hch
  · have hid : row.id = order.id := by
      have := List.find?_some hrow
      simpa using this
    rw [h] at hch ⊢
    rw [← hes] at hch
    rw [← ho, ← hid] at hrow
    rw [← hid]
    exact applyVendorStatsOnce_sets_flag dbX row n hrow hch

theorem ledgerChanges_flagged (oid : String) :
    ∀ (calls : List (Env × Order)) (db : DB), (∀ c ∈ calls, c.2.id = oid) →
      (∃ row, db.orders.find? (fun o => decide (o.id = oid)) = some row ∧
        row.vendor_stats_applied = true) →
      ledgerChanges db calls = 0 := by
  intro calls
  induction calls with
  | nil => intro db _ _; rfl
  | cons c rest ih =>
    intro db hid hflag
    obtain ⟨env, order⟩ := c
    obtain ⟨row, hrow, hf⟩ := hflag
    have hoid : order.id = oid := hid (env, order) (List.mem_cons_self _ _)
    rw [← hoid] at hrow
    obtain ⟨hes, ho⟩ := issue_flagged env db order row hrow hf
    have hrest := ih (storeAfterIssue env db order)
      (fun c hc => hid c (List.mem_cons_of_mem _ hc))
      ⟨row, by rw [ho, ← hoid]; exact hrow, hf⟩
    simp [ledgerChanges, hes, hrest]

theorem ledgerChanges_le_one (oid : String) :
    ∀ (calls : List (Env × Order)) (db : DB), (∀ c ∈ calls, c.2.id = oid) →
      ledgerChanges db calls ≤ 1 := by
  intro calls
  induction calls with
  | nil => intro db _; simp [ledgerChanges]
  | cons c rest ih =>
    intro db hid
    obtain ⟨env, order⟩ := c
    have hoid : order.id = oid := hid (env, order) (List.mem_cons_self _ _)
    have hrestid : ∀ c ∈ rest, c.2.id = oid := fun c hc => hid c (List.mem_cons_of_mem _ hc)
    by_cases hch : (storeAfterIssue env db order).event_states = db.event_states
    · have := ih (storeAfterIssue env db order) hrestid
      simp only [ledgerChanges, hch, if_true]
      omega
    · obtain ⟨row, hrow, hf⟩ := issue_change_sets_flag env db order hch
      rw [hoid] at hrow
      have := ledgerChanges_flagged oid rest (storeAfterIssue env db order) hrestid
        ⟨row, hrow, hf⟩
      simp only [ledgerChanges, hch, if_false]
      omega

/-! ## Lemmas on the expiry sweep and the handlers -/

theorem expireOne_nequi_ref (cfg : Config) (now : Int) (o : Order) :
    (expireOne cfg now o).1.nequi_ref = o.nequi_ref := by
  unfold expireOne
  split
  · rfl
  · split
    · rfl
    · rfl
    · split <;> rfl

theorem expireOne_other_status (cfg : Config) (now : Int) (o : Order)
    (h : o.status ≠ "PENDING_PAYMENT") : (expireOne cfg now o).1 = o := by
  unfold expireOne
  rw [if_pos h]

theorem expireOne_due (cfg : Config) (now : Int) (o : Order) (ms : Int)
    (h : o.status = "PENDING_PAYMENT") (hexp : o.expires_at = DateField.at ms)
    (hms : ms ≤ now) :
    (expireOne cfg now o).1 = { o with status := "EXPIRED", expired_at := DateField.at now } := by
  unfold expireOne
  rw [if_neg (by simp [h])]
  simp only [hexp, hms, if_true]

/-- The order a payment reference identifies after the sweep is the swept image of the
order it identified before. -/
theorem sweep_find (cfg : Config) (now : Int) (db : DB) (ref : String) (o : Order)
    (h : db.orders.find? (fun o => decide (o.nequi_ref = some ref)) = some o) :
    (expirePendingOrders cfg now db).1.orders.find? (fun o => decide (o.nequi_ref = some ref))
      = some (expireOne cfg now o).1 := by
  unfold expirePendingOrders
  simp only [List.find?_map]
  have hfun : ((fun o : Order => decide (o.nequi_ref = some ref)) ∘
      fun o => (expireOne cfg now o).1) = fun o => decide (o.nequi_ref = some ref) := by
    funext x
    simp [Function.comp, expireOne_nequi_ref]
  rw [hfun, h]
  rfl

theorem found_has_ref (l : List Order) (ref : String) (o : Order)
    (h : l.find? (fun o => decide (o.nequi_ref = some ref)) = some o) :
    o.nequi_ref = some ref := by
  have := List.find?_some h
  simpa using this

theorem found_has_id (l : List Order) (oid : String) (o : Order)
    (h : l.find? (fun o => decide (o.id = oid)) = some o) : o.id = oid := by
  have := List.find?_some h
  simpa using this

/-- An approval signal for an order that is already approved after the sweep. -/
theorem webhook_already_approved (cfg : Config) (env : Env) (db : DB) (ref status : String)
    (o : Order) (href : ref ≠ "") (hst : status = "APPROVED" ∨ status = "PAID")
    (hfind : db.orders.find? (fun o => decide (o.nequi_ref = some ref)) = some o)
    (happ : isApprovedStatus o.status) :
    (nequiWebhook cfg env db (some ref) status).reply
        = { code := 200, ok := true, idempotent := true } ∧
      (nequiWebhook cfg env db (some ref) status).issuance = none ∧
      (nequiWebhook cfg env db (some ref) status).db.tickets = db.tickets ∧
      (nequiWebhook cfg env db (some ref) status).db.event_ticket_seq = db.event_ticket_seq ∧
      (nequiWebhook cfg env db (some ref) status).db.orders.find?
        (fun o => decide (o.nequi_ref = some ref)) = some o := by
  have hne : o.status ≠ "PENDING_PAYMENT" := by
    rcases happ with h | h <;> rw [h] <;> decide
  have hsw := sweep_find cfg env.now db ref o hfind
  rw [expireOne_other_status cfg env.now o hne] at hsw
  have hout : nequiWebhook cfg env db (some ref) status
      = { db := (expirePendingOrders cfg env.now db).1
          reply := { code := 200, ok := true, idempotent := true } } := by
    unfold nequiWebhook
    simp only [href, if_false, hsw, hst, if_true, happ]
  rw [hout]
  exact ⟨rfl, rfl, rfl, rfl, hsw⟩

/-- An approval signal for an order that is `EXPIRED` after the sweep. -/
theorem webhook_expired (cfg : Config) (env : Env) (db : DB) (ref status : String)
    (o : Order) (href : ref ≠ "") (hst : status = "APPROVED" ∨ status = "PAID")
    (hfind : db.orders.find? (fun o => decide (o.nequi_ref = some ref)) = some o)
    (hexp : (expireOne cfg env.now o).1.status = "EXPIRED") :
    (nequiWebhook cfg env db (some ref) status).reply
        = { code := 409, error := some "Orden expirada" } ∧
      (nequiWebhook cfg env db (some ref) status).issuance = none ∧
      (nequiWebhook cfg env db (some ref) status).db.tickets = db.tickets ∧
      (nequiWebhook cfg env db (some ref) status).db.orders.find?
        (fun o => decide (o.nequi_ref = some ref)) = some (expireOne cfg env.now o).1 := by
  have hsw := sweep_find cfg env.now db ref o hfind
  have hna : ¬ isApprovedStatus "EXPIRED" := by decide
  have hout : nequiWebhook cfg env db (some ref) status
      = { db := (expirePendingOrders cfg env.now db).1
          reply := { code := 409, error := some "Orden expirada" } } := by
    unfold nequiWebhook
    simp only [href, if_false, hsw, hst, if_true, hna, hexp]
  rw [hout]
  exact ⟨rfl, rfl, rfl, hsw⟩

/-- A rejection signal: the identified order is moved to `FAILED`. -/
theorem webhook_rejected (cfg : Config) (env : Env) (db : DB) (ref status : String)
    (o : Order) (href : ref ≠ "") (hst : status = "REJECTED" ∨ status = "FAILED")
    (hfind : db.orders.find? (fun o => decide (o.nequi_ref = some ref)) = some o) :
    (nequiWebhook cfg env db (some ref) status).reply = { code := 200, ok := true } ∧
      (nequiWebhook cfg env db (some ref) status).issuance = none ∧
      (nequiWebhook cfg env db (some ref) status).db.tickets = db.tickets ∧
      (nequiWebhook cfg env db (some ref) status).db.orders.find?
        (fun o => decide (o.nequi_ref = some ref))
        = some { (expireOne cfg env.now o).1 with
            status := "FAILED", failed_at := DateField.at env.now } := by
  have hsw := sweep_find cfg env.now db ref o hfind
  have hna : ¬ (status = "APPROVED" ∨ status = "PAID") := by
    rcases hst with h | h <;> rw [h] <;> decide
  have hout : nequiWebhook cfg env db (some ref) status
      = { db := { (expirePendingOrders cfg env.now db).1 with orders :=
            (updateFirst (fun o => o.nequi_ref = some ref)
              (fun o => { o with status := "FAILED", failed_at := DateField.at env.now })
              (expirePendingOrders cfg env.now db).1.orders) }
          reply := { code := 200, ok := true } } := by
    unfold nequiWebhook
    simp only [href, if_false, hsw, hst, if_true, hna]
  rw [hout]
  refine ⟨rfl, rfl, rfl, ?_⟩
  exact find_updateFirst (fun o => o.nequi_ref = some ref)
    (fun o => { o with status := "FAILED", failed_at := DateField.at env.now })
    (fun _ ho => ho) _ _ hsw

set_option maxRecDepth 100000 in
/-- The sweep compares the status with `PENDING_PAYMENT`: an order whose status text is
`PENDING` is not expired by it, and an `APPROVED` webhook after its deadline approves it. -/
theorem webhook_pending_literal_due :
    (expirePendingOrders {} 2000 storePendingLiteral).1 = storePendingLiteral ∧
      (nequiWebhook {} envSpread storePendingLiteral (some "NEQ-o1") "APPROVED").reply
        = { code := 200, ok := true } ∧
      (nequiWebhook {} envSpread storePendingLiteral (some "NEQ-o1") "APPROVED").db.orders.map
          (fun o => o.status) = ["TICKETS_ISSUED"] := by
  decide

/-- The admin action on an order whose status is `PAID`. -/
theorem markPaid_already_paid (env : Env) (db : DB) (oid : String) (o : Order)
    (hoid : oid ≠ "") (hfind : db.orders.find? (fun o => decide (o.id = oid)) = some o)
    (hp : o.status = "PAID") :
    (markPaid env db (some oid)).reply
        = { code := 200, order := some o, tickets := ticketsOfOrder db o.id
            alreadyPaid := true } ∧
      (markPaid env db (some oid)).issuance = none ∧
      (markPaid env db (some oid)).db = db := by
  have hout : markPaid env db (some oid)
      = { db := db
          reply := { code := 200, order := some o, tickets := ticketsOfOrder db o.id
                     alreadyPaid := true } } := by
    unfold markPaid
    simp only [hoid, if_false, hfind, hp, if_true]
  rw [hout]
  exact ⟨rfl, rfl, rfl⟩

/-- The loop commits as many tickets as the draws give fresh grids, up to `total`. -/
theorem issueLoop_created_eq (env : Env) (order : Order) (total : Int) :
    ∀ (safety : Nat) (st : LoopState), (st.created : Int) ≤ total →
      ((issueLoop env order total safety st).created : Int)
        = min total ((st.created : Int) + (freshGrids env safety st.existing st.pos : Nat)) := by
  intro safety
  induction safety with
  | zero =>
    intro st h
    simp only [issueLoop, freshGrids]
    omega
  | succ n ih =>
    intro st h
    by_cases hc : (st.created : Int) < total
    · by_cases hm : sign (genCols env.rand st.pos).1 ∈ st.existing
      · simp only [issueLoop, freshGrids, hc, hm, if_true]
        exact ih _ h
      · simp only [issueLoop, freshGrids, hc, hm, if_true, if_false]
        have h1 := ih
          { created := st.created + 1
            existing := st.existing ++ [sign (genCols env.rand st.pos).1]
            seqCursor := st.seqCursor + 1
            pos := (genCols env.rand st.pos).2 + 1
            tickets := st.tickets ++
              [newTicket env order st (genCols env.rand st.pos).1
                (sign (genCols env.rand st.pos).1) (genCols env.rand st.pos).2] }
          (by show ((st.created + 1 : Nat) : Int) ≤ total; omega)
        rw [h1]
        show min total (((st.created + 1 : Nat) : Int) + _) = _
        push_cast
        congr 1
        omega
    · simp only [issueLoop, hc, if_false]
      omega

/-- When the draws suffice, the loop is left with `created = totalCards`. -/
theorem loopEnd_created_of_draws (env : Env) (db : DB) (order : Order)
    (h0 : 0 ≤ totalCardsOf order) (hd : DrawsSuffice env db order) :
    ((loopEnd env db order).created : Int) = totalCardsOf order := by
  unfold DrawsSuffice at hd
  have h := issueLoop_created_eq env order (totalCardsOf order)
    (totalCardsOf order * 20).toNat (loopStart db order) (by simpa [loopStart] using h0)
  unfold loopEnd
  rw [h]
  have hs : (loopStart db order).created = 0 := rfl
  have he : (loopStart db order).existing = usedSignatures db order.event_id := rfl
  have hp : (loopStart db order).pos = 0 := rfl
  rw [hs, he, hp]
  simp only [Nat.cast_zero, zero_add]
  exact min_eq_left hd

theorem freshGrids_le_succ (env : Env) :
    ∀ (n : Nat) (used : List String) (pos : Nat),
      freshGrids env n used pos ≤ freshGrids env (n + 1) used pos := by
  intro n
  induction n with
  | zero => intro used pos; exact Nat.zero_le _
  | succ k ih =>
    intro used pos
    by_cases hm : sign (genCols env.rand pos).1 ∈ used
    · rw [freshGrids, freshGrids, if_pos hm, if_pos hm]
      exact ih _ _
    · rw [freshGrids, freshGrids, if_neg hm, if_neg hm]
      exact Nat.succ_le_succ (ih _ _)

theorem freshGrids_mono (env : Env) (used : List String) (pos : Nat) (n m : Nat)
    (h : n ≤ m) : freshGrids env n used pos ≤ freshGrids env m used pos := by
  induction m with
  | zero =>
    have : n = 0 := Nat.le_zero.mp h
    rw [this]
  | succ k ih =>
    by_cases hk : n ≤ k
    · exact Nat.le_trans (ih hk) (freshGrids_le_succ env k used pos)
    · have : n = k + 1 := by omega
      rw [this]

/-- The draws suffice as soon as a first run of attempts, within the ceiling, gives
`totalCards` fresh grids. -/
theorem drawsSuffice_of_first_attempts (env : Env) (db : DB) (order : Order) (n : Nat)
    (hn : n ≤ (totalCardsOf order * 20).toNat)
    (h : totalCardsOf order ≤ (freshGrids env n (usedSignatures db order.event_id) 0 : Nat)) :
    DrawsSuffice env db order := by
  unfold DrawsSuffice
  have := freshGrids_mono env (usedSignatures db order.event_id) 0 n _ hn
  omega

/-! ## Ticket issuance: the claims -/

/-- Claim C1. `generateTicketsForOrder` preserves per-event signature uniqueness: if the
tickets of each event have pairwise distinct `cols_signature` values in the store, then for
every order and every sequence of draws they still have after the call (old and new tickets
together). -/
theorem C1_issue_keeps_signatures_distinct (env : Env) (db : DB) (order : Order)
    (h : SignaturesDistinct db.tickets) :
    SignaturesDistinct (storeAfterIssue env db order).tickets :=
  SignaturesDistinct_issue env db order h

set_option maxRecDepth 100000 in
/-- Witness of C1: a second order of event `E1` is issued; its first candidate grid is the
grid of the stored ticket and is discarded. -/
theorem C1_witness :
    SignaturesDistinct storeOtherOrder.tickets ∧
      SignaturesDistinct (storeAfterIssue envMixed storeOtherOrder orderSecond).tickets :=
  ⟨by decide,
    C1_issue_keeps_signatures_distinct envMixed storeOtherOrder orderSecond (by decide)⟩

/-- Claim C2. For an order with no ticket yet, an event id and positive `combos_count` and
`combo_size`, when the draws yield `combos_count * combo_size` fresh grids before the retry
ceiling (`DrawsSuffice`, a count over the candidate grids of the draw sequence), the call
returns `combos_count * combo_size`, appends exactly that many tickets, all of the order, and
their `card_index` values are `0, 1, ..., combos_count * combo_size - 1` in that order. -/
theorem C2_issue_all_cards (env : Env) (db : DB) (order : Order)
    (hnone : ticketsFor db order.id = []) (he : order.event_id ≠ "")
    (hc : 0 < order.combos_count) (hs : 0 < order.combo_size)
    (hd : DrawsSuffice env db order) :
    issueReturn env db order = some { totalCards := order.combos_count * order.combo_size } ∧
      (storeAfterIssue env db order).tickets
        = db.tickets ++ ticketsFor (storeAfterIssue env db order) order.id ∧
      ((ticketsFor (storeAfterIssue env db order) order.id).length : Int)
        = order.combos_count * order.combo_size ∧
      (ticketsFor (storeAfterIssue env db order) order.id).map (fun t => t.card_index)
        = (List.range (order.combos_count * order.combo_size).toNat).map
            (fun (i : Nat) => (i : Int)) := by
  obtain ⟨hret, htk, _⟩ := issue_fresh env db order hnone he
  obtain ⟨news, h1, h2, _, h4, _, h6⟩ := loopEnd_tickets env db order
  have htot := totalCardsOf_pos order hc hs
  have hcr : ((loopEnd env db order).created : Int) = order.combos_count * order.combo_size := by
    rw [← htot]
    exact loopEnd_created_of_draws env db order (by rw [htot]; positivity) hd
  have hlen : (news.length : Int) = order.combos_count * order.combo_size := by
    rw [← h2]; exact hcr
  have hfor : ticketsFor (storeAfterIssue env db order) order.id = news := by
    unfold ticketsFor
    rw [htk, h1]
    exact ticketsFor_append_new db news order.id hnone (fun t ht => (h4 t ht).1)
  refine ⟨?_, ?_, ?_, ?_⟩
  · rw [hret, hcr]
  · rw [hfor, htk, h1]
  · rw [hfor]; exact hlen
  · rw [hfor, h6, ← hlen]
    rfl

set_option maxRecDepth 100000 in
/-- Witness of C2. The example of the specification, 2 combos of 6 cards in an empty store:
the first 12 candidate grids are fresh. And order `o2` of `storeOtherOrder`, 2 cards, with
the draws of `envMixed`: the first candidate grid is the one already used in the event, the
next two are fresh, and the order gets its 2 tickets. -/
theorem C2_witness :
    (12 : Int) ≤ (freshGrids envSpread 12 (usedSignatures {} orderDozen.event_id) 0 : Nat) ∧
    DrawsSuffice envSpread {} orderDozen ∧
      (issueReturn envSpread {} orderDozen
          = some { totalCards := orderDozen.combos_count * orderDozen.combo_size } ∧
        (storeAfterIssue envSpread {} orderDozen).tickets
          = ({} : DB).tickets
            ++ ticketsFor (storeAfterIssue envSpread {} orderDozen) orderDozen.id ∧
        ((ticketsFor (storeAfterIssue envSpread {} orderDozen) orderDozen.id).length : Int)
          = orderDozen.combos_count * orderDozen.combo_size ∧
        (ticketsFor (storeAfterIssue envSpread {} orderDozen) orderDozen.id).map
            (fun t => t.card_index)
          = (List.range (orderDozen.combos_count * orderDozen.combo_size).toNat).map
              (fun (i : Nat) => (i : Int))) ∧
    freshGrids envMixed 1 (usedSignatures storeOtherOrder orderSecond.event_id) 0 = 0 ∧
    freshGrids envMixed 3 (usedSignatures storeOtherOrder orderSecond.event_id) 0 = 2 ∧
    DrawsSuffice envMixed storeOtherOrder orderSecond ∧
    ((ticketsFor (storeAfterIssue envMixed storeOtherOrder orderSecond) orderSecond.id).length
        : Int) = orderSecond.combos_count * orderSecond.combo_size :=
  ⟨by decide,
    drawsSuffice_of_first_attempts envSpread {} orderDozen 12 (by decide) (by decide),
    C2_issue_all_cards envSpread {} orderDozen (by decide) (by decide) (by decide) (by decide)
      (drawsSuffice_of_first_attempts envSpread {} orderDozen 12 (by decide) (by decide)),
    by decide, by decide,
    drawsSuffice_of_first_attempts envMixed storeOtherOrder orderSecond 3 (by decide)
      (by decide),
    (C2_issue_all_cards envMixed storeOtherOrder orderSecond (by decide) (by decide)
      (by decide) (by decide)
      (drawsSuffice_of_first_attempts envMixed storeOtherOrder orderSecond 3 (by decide)
        (by decide))).2.2.1⟩

/-- Claim C3. Issuance is idempotent per order: when the store already holds a ticket of the
order, the call returns the number of tickets of the order, with the idempotent mark, and
leaves the tickets and every sequence counter as they were; a further call, with any draws,
again leaves the tickets as they were. -/
theorem C3_issue_idempotent (env env2 : Env) (db : DB) (order : Order)
    (h : ticketsFor db order.id ≠ []) :
    issueReturn env db order
        = some { totalCards := (ticketsFor db order.id).length, idempotent := true } ∧
      (storeAfterIssue env db order).tickets = db.tickets ∧
      (storeAfterIssue env db order).event_ticket_seq = db.event_ticket_seq ∧
      (storeAfterIssue env2 (storeAfterIssue env db order) order).tickets = db.tickets ∧
      issueReturn env2 (storeAfterIssue env db order) order
        = some { totalCards := (ticketsFor db order.id).length, idempotent := true } := by
  obtain ⟨hret, htk, hseq⟩ := issue_existing env db order h
  have hfor : ticketsFor (storeAfterIssue env db order) order.id = ticketsFor db order.id := by
    unfold ticketsFor; rw [htk]
  have h2 : ticketsFor (storeAfterIssue env db order) order.id ≠ [] := by rw [hfor]; exact h
  obtain ⟨hret2, htk2, _⟩ := issue_existing env2 (storeAfterIssue env db order) order h2
  refine ⟨hret, htk, hseq, ?_, ?_⟩
  · rw [htk2, htk]
  · rw [hret2, hfor]

/-- Witness of C3: order `o1` of `storeIssued` is issued again. -/
theorem C3_witness :
    ticketsFor storeIssued orderTwoCards.id ≠ [] ∧
      (storeAfterIssue envSpread (storeAfterIssue envConst storeIssued orderTwoCards)
        orderTwoCards).tickets = storeIssued.tickets :=
  ⟨by decide,
    (C3_issue_idempotent envConst envSpread storeIssued orderTwoCards (by decide)).2.2.2.1⟩

/-- Claim C4. Vendor stats are applied at most once per order: in any run of successive
`generateTicketsForOrder` calls for one order id, at most one call changes the vendor ledger;
and when the flag `vendor_stats_applied` of the order row is already set, no call of the run
changes it. -/
theorem C4_vendor_stats_once (db : DB) (oid : String) (calls : List (Env × Order))
    (hid : ∀ c ∈ calls, c.2.id = oid) :
    ledgerChanges db calls ≤ 1 ∧
      ((∃ row, db.orders.find? (fun o => decide (o.id = oid)) = some row ∧
          row.vendor_stats_applied = true) →
        ledgerChanges db calls = 0) :=
  ⟨ledgerChanges_le_one oid calls db hid, ledgerChanges_flagged oid calls db hid⟩

set_option maxRecDepth 100000 in
/-- Witness of C4: two successive calls for the order of vendor `v1`. -/
theorem C4_witness :
    (∀ c ∈ [(envConst, orderVendor), (envSpread, orderVendor)], c.2.id = "o1") ∧
      ledgerChanges storeVendor [(envConst, orderVendor), (envSpread, orderVendor)] ≤ 1 :=
  ⟨by intro c hc; simp at hc; rcases hc with rfl | rfl <;> rfl,
    (C4_vendor_stats_once storeVendor "o1" [(envConst, orderVendor), (envSpread, orderVendor)]
      (by intro c hc; simp at hc; rcases hc with rfl | rfl <;> rfl)).1⟩

set_option maxRecDepth 100000 in
/-- Counterexample to C5: with every draw `0` each candidate after the first repeats the
first grid; for an order of 2 cards the ceiling of 40 draws runs out, and the call resolves
with `totalCards = 1` and one stored ticket instead of throwing. -/
theorem C5_counterexample :
    CeilingReached envConst {} orderTwoCards ∧
      totalCardsOf orderTwoCards = 2 ∧
      issueReturn envConst {} orderTwoCards = some { totalCards := 1 } ∧
      (storeAfterIssue envConst {} orderTwoCards).tickets.length = 1 := by
  decide

/-- Claim C5, amended. When the retry ceiling runs out before `totalCards` unique cards
exist (order without tickets, with an event id), `generateTicketsForOrder` does not throw: it
resolves with `totalCards` equal to the number of tickets it appended for the order, which is
smaller than the number requested, and those tickets are stored. -/
theorem C5_ceiling_partial_result (env : Env) (db : DB) (order : Order)
    (hnone : ticketsFor db order.id = []) (he : order.event_id ≠ "")
    (hceil : CeilingReached env db order) :
    issueReturn env db order
        = some { totalCards :=
            ((ticketsFor (storeAfterIssue env db order) order.id).length : Int) } ∧
      ((ticketsFor (storeAfterIssue env db order) order.id).length : Int) < totalCardsOf order ∧
      (storeAfterIssue env db order).tickets
        = db.tickets ++ ticketsFor (storeAfterIssue env db order) order.id := by
  obtain ⟨hret, htk, _⟩ := issue_fresh env db order hnone he
  obtain ⟨news, h1, h2, _, h4, _, _⟩ := loopEnd_tickets env db order
  have hfor : ticketsFor (storeAfterIssue env db order) order.id = news := by
    unfold ticketsFor
    rw [htk, h1]
    exact ticketsFor_append_new db news order.id hnone (fun t ht => (h4 t ht).1)
  unfold CeilingReached at hceil
  refine ⟨?_, ?_, ?_⟩
  · rw [hret, hfor, h2]
  · rw [hfor, ← h2]; exact hceil
  · rw [hfor, htk, h1]

set_option maxRecDepth 100000 in
/-- Witness of the amended C5: the order of 2 cards in an empty store, every draw `0`. -/
theorem C5_witness :
    CeilingReached envConst {} orderTwoCards ∧
      ((ticketsFor (storeAfterIssue envConst {} orderTwoCards) orderTwoCards.id).length : Int)
        < totalCardsOf orderTwoCards :=
  ⟨by decide,
    (C5_ceiling_partial_result envConst {} orderTwoCards (by decide) (by decide)
      (by decide)).2.1⟩

/-! ## Order lifecycle: the claims -/

/-- Claim C6. A repeated approval signal is a no-op: when the payment reference identifies an
order already `PAID` or `TICKETS_ISSUED`, a webhook with status `APPROVED` or `PAID` answers
200 with the idempotent mark, calls no issuance, and leaves the tickets, every sequence
counter and that order (status and `paid_at` included) as they were. -/
theorem C6_repeated_approval_noop (cfg : Config) (env : Env) (db : DB) (ref status : String)
    (o : Order) (href : ref ≠ "") (hst : status = "APPROVED" ∨ status = "PAID")
    (hfind : db.orders.find? (fun o => decide (o.nequi_ref = some ref)) = some o)
    (happ : isApprovedStatus o.status) :
    (nequiWebhook cfg env db (some ref) status).reply
        = { code := 200, ok := true, idempotent := true } ∧
      (nequiWebhook cfg env db (some ref) status).issuance = none ∧
      (nequiWebhook cfg env db (some ref) status).db.tickets = db.tickets ∧
      (nequiWebhook cfg env db (some ref) status).db.event_ticket_seq = db.event_ticket_seq ∧
      ∃ o1, (nequiWebhook cfg env db (some ref) status).db.orders.find?
          (fun o => decide (o.nequi_ref = some ref)) = some o1 ∧
        o1.status = o.status ∧ o1.paid_at = o.paid_at := by
  obtain ⟨h1, h2, h3, h4, h5⟩ :=
    webhook_already_approved cfg env db ref status o href hst hfind happ
  exact ⟨h1, h2, h3, h4, o, h5, rfl, rfl⟩

/-- Witness of C6: a second `APPROVED` signal for the issued order of `storeIssued`. -/
theorem C6_witness :
    isApprovedStatus "TICKETS_ISSUED" ∧
      (nequiWebhook {} envSpread storeIssued (some "NEQ-o1") "APPROVED").db.tickets
        = storeIssued.tickets :=
  ⟨by decide,
    (C6_repeated_approval_noop {} envSpread storeIssued "NEQ-o1" "APPROVED"
      { orderTwoCards with
        status := "TICKETS_ISSUED", combo_size := 1, paid_at := DateField.at 500 }
      (by decide) (by decide) (by decide) (by decide)).2.2.1⟩

set_option maxRecDepth 100000 in
/-- An order in status `FAILED` (not yet approved) whose `expires_at`, instant 1000, lies
before the time of the call, instant 2000, is approved by an `APPROVED` webhook: the answer
is 200 and the order ends in `TICKETS_ISSUED`. -/
theorem webhook_failed_due_approved :
    storeFailedDue.orders.map (fun o => (o.status, o.expires_at))
        = [("FAILED", DateField.at 1000)] ∧
      envSpread.now = 2000 ∧
      (nequiWebhook {} envSpread storeFailedDue (some "NEQ-o1") "APPROVED").reply
        = { code := 200, ok := true } ∧
      (nequiWebhook {} envSpread storeFailedDue (some "NEQ-o1") "APPROVED").db.orders.map
          (fun o => o.status) = ["TICKETS_ISSUED"] := by
  decide

/-- An order in status `PENDING_PAYMENT` (or already `EXPIRED`) whose `expires_at` is at or
before the time of the call cannot become paid through the webhook: an `APPROVED` (or
`PAID`) signal for it is answered 409, no issuance is called, no ticket is added, and the
order is `EXPIRED` afterwards. -/
theorem webhook_due_pending_conflict (cfg : Config) (env : Env) (db : DB)
    (ref status : String)
    (o : Order) (ms : Int) (href : ref ≠ "") (hst : status = "APPROVED" ∨ status = "PAID")
    (hfind : db.orders.find? (fun o => decide (o.nequi_ref = some ref)) = some o)
    (hstat : o.status = "PENDING_PAYMENT" ∨ o.status = "EXPIRED")
    (hexp : o.expires_at = DateField.at ms) (hms : ms ≤ env.now) :
    (nequiWebhook cfg env db (some ref) status).reply
        = { code := 409, error := some "Orden expirada" } ∧
      (nequiWebhook cfg env db (some ref) status).issuance = none ∧
      (nequiWebhook cfg env db (some ref) status).db.tickets = db.tickets ∧
      ∃ o1, (nequiWebhook cfg env db (some ref) status).db.orders.find?
          (fun o => decide (o.nequi_ref = some ref)) = some o1 ∧
        o1.status = "EXPIRED" := by
  have hexpired : (expireOne cfg env.now o).1.status = "EXPIRED" := by
    rcases hstat with h | h
    · rw [expireOne_due cfg env.now o ms h hexp hms]
    · rw [expireOne_other_status cfg env.now o (by rw [h]; decide)]; exact h
  obtain ⟨h1, h2, h3, h4⟩ := webhook_expired cfg env db ref status o href hst hfind hexpired
  exact ⟨h1, h2, h3, _, h4, hexpired⟩

set_option maxRecDepth 100000 in
/-- Claim C7, evaluated at the failing input. `POST /orders` on the seed store at instant
2000 stores order `100` with the status text `PENDING`, the reference `NEQ-100` and the
deadline 1802000. An `APPROVED` webhook for that reference at instant 5000000, after the
deadline, is answered 200, not 409: the sweep leaves the order as it is, the order ends
`TICKETS_ISSUED` and its 6 tickets are stored. -/
theorem C7_created_order_approved_after_deadline :
    (createOrder {} envSpread storeSeed requestFirst).db.orders.map
        (fun o => (o.id, o.status, o.nequi_ref, o.expires_at))
      = [("100", "PENDING", some "NEQ-100", DateField.at 1802000)] ∧
    envLate.now = 5000000 ∧
    (expirePendingOrders {} envLate.now
        (createOrder {} envSpread storeSeed requestFirst).db).1.orders.map
        (fun o => o.status) = ["PENDING"] ∧
    (nequiWebhook {} envLate (createOrder {} envSpread storeSeed requestFirst).db
        (some "NEQ-100") "APPROVED").reply = { code := 200, ok := true } ∧
    (nequiWebhook {} envLate (createOrder {} envSpread storeSeed requestFirst).db
        (some "NEQ-100") "APPROVED").db.orders.map (fun o => o.status)
      = ["TICKETS_ISSUED"] ∧
    (nequiWebhook {} envLate (createOrder {} envSpread storeSeed requestFirst).db
        (some "NEQ-100") "APPROVED").db.tickets.length = 6 := by
  decide

set_option maxRecDepth 100000 in
/-- Claim C8, evaluated at the failing input. For the `EXPIRED` order of `storeExpired` the
webhook rejects an `APPROVED` signal with 409 and leaves the store as it was, but the admin
action `mark-paid` answers 200, moves the order to `PAID`, stamps `paid_at` and issues its
2 tickets. -/
theorem C8_mark_paid_approves_expired :
    storeExpired.orders.map (fun o => o.status) = ["EXPIRED"] ∧
      (nequiWebhook {} envSpread storeExpired (some "NEQ-o1") "APPROVED").reply.code = 409 ∧
      (nequiWebhook {} envSpread storeExpired (some "NEQ-o1") "APPROVED").db = storeExpired ∧
      (markPaid envSpread storeExpired (some "o1")).reply.code = 200 ∧
      (markPaid envSpread storeExpired (some "o1")).db.orders.map
          (fun o => (o.status, o.paid_at)) = [("PAID", DateField.at 2000)] ∧
      (ticketsFor (markPaid envSpread storeExpired (some "o1")).db "o1").length = 2 := by
  decide

/-- Counterexample to C9: the order of `storeIssued` is `TICKETS_ISSUED`; a `REJECTED`
webhook for its payment reference is answered 200 and leaves it in status `FAILED`. -/
theorem C9_counterexample :
    storeIssued.orders.map (fun o => o.status) = ["TICKETS_ISSUED"] ∧
      (nequiWebhook {} envConst storeIssued (some "NEQ-o1") "REJECTED").reply
        = { code := 200, ok := true } ∧
      (nequiWebhook {} envConst storeIssued (some "NEQ-o1") "REJECTED").db.orders.map
          (fun o => o.status) = ["FAILED"] := by
  decide

/-- Claim C9, amended. A rejection signal (`REJECTED` or `FAILED`) moves the order its
payment reference identifies to `FAILED` whatever the order's status was, approved and
terminal statuses included: the answer is 200, no issuance is called, the tickets are
untouched, and afterwards the order has status `FAILED` and `failed_at` stamped. -/
theorem C9_rejection_sets_failed (cfg : Config) (env : Env) (db : DB) (ref status : String)
    (o : Order) (href : ref ≠ "") (hst : status = "REJECTED" ∨ status = "FAILED")
    (hfind : db.orders.find? (fun o => decide (o.nequi_ref = some ref)) = some o) :
    (nequiWebhook cfg env db (some ref) status).reply = { code := 200, ok := true } ∧
      (nequiWebhook cfg env db (some ref) status).issuance = none ∧
      (nequiWebhook cfg env db (some ref) status).db.tickets = db.tickets ∧
      ∃ o1, (nequiWebhook cfg env db (some ref) status).db.orders.find?
          (fun o => decide (o.nequi_ref = some ref)) = some o1 ∧
        o1.status = "FAILED" ∧ o1.failed_at = DateField.at env.now := by
  obtain ⟨h1, h2, h3, h4⟩ := webhook_rejected cfg env db ref status o href hst hfind
  exact ⟨h1, h2, h3, _, h4, rfl, rfl⟩

/-- Witness of the amended C9: a `FAILED` signal for the paid order of `storePaidNoTickets`. -/
theorem C9_witness :
    storePaidNoTickets.orders.map (fun o => o.status) = ["PAID"] ∧
      ∃ o1, (nequiWebhook {} envConst storePaidNoTickets (some "NEQ-o1") "FAILED").db.orders.find?
          (fun o => decide (o.nequi_ref = some "NEQ-o1")) = some o1 ∧
        o1.status = "FAILED" ∧ o1.failed_at = DateField.at envConst.now :=
  ⟨by decide,
    (C9_rejection_sets_failed {} envConst storePaidNoTickets "NEQ-o1" "FAILED" orderTwoCards
      (by decide) (by decide) (by decide)).2.2.2⟩

set_option maxRecDepth 100000 in
/-- Counterexample to C10: the pending order of `storeNoEvent` carries no event id. The first
`APPROVED` webhook marks it `PAID` and calls the issuance, which throws, so the order is left
`PAID` without tickets. On that store neither a further `APPROVED` webhook nor the admin
action `mark-paid` calls the issuance, and the order still has no ticket afterwards. -/
theorem C10_counterexample :
    issuanceThrew (nequiWebhook {} envConst storeNoEvent (some "NEQ-o1") "APPROVED").issuance
        = true ∧
      (nequiWebhook {} envConst storeNoEvent (some "NEQ-o1") "APPROVED").db.orders.map
          (fun o => o.status) = ["PAID"] ∧
      (nequiWebhook {} envConst storeNoEvent (some "NEQ-o1") "APPROVED").db.tickets = [] ∧
      issuanceCalled (nequiWebhook {} envSpread
          (nequiWebhook {} envConst storeNoEvent (some "NEQ-o1") "APPROVED").db
          (some "NEQ-o1") "APPROVED").issuance = false ∧
      (nequiWebhook {} envSpread
          (nequiWebhook {} envConst storeNoEvent (some "NEQ-o1") "APPROVED").db
          (some "NEQ-o1") "APPROVED").db.tickets = [] ∧
      issuanceCalled (markPaid envSpread
          (nequiWebhook {} envConst storeNoEvent (some "NEQ-o1") "APPROVED").db
          (some "o1")).issuance = false ∧
      (markPaid envSpread
          (nequiWebhook {} envConst storeNoEvent (some "NEQ-o1") "APPROVED").db
          (some "o1")).db.tickets = [] := by
  decide

/-- Claim C10, amended. A later confirmation does not retry the issuance of an order in
status `PAID`, with or without tickets: a further `APPROVED` webhook answers 200 with the
idempotent mark and the admin action `mark-paid` answers with `alreadyPaid`; neither calls
`generateTicketsForOrder`, and the tickets of the store stay as they were. -/
theorem C10_paid_order_not_reissued (cfg : Config) (env : Env) (db : DB) (ref : String)
    (o : Order) (href : ref ≠ "") (hoid : o.id ≠ "")
    (hw : db.orders.find? (fun o => decide (o.nequi_ref = some ref)) = some o)
    (hm : db.orders.find? (fun x => decide (x.id = o.id)) = some o)
    (hp : o.status = "PAID") :
    (nequiWebhook cfg env db (some ref) "APPROVED").issuance = none ∧
      (nequiWebhook cfg env db (some ref) "APPROVED").reply
        = { code := 200, ok := true, idempotent := true } ∧
      (nequiWebhook cfg env db (some ref) "APPROVED").db.tickets = db.tickets ∧
      (markPaid env db (some o.id)).issuance = none ∧
      (markPaid env db (some o.id)).reply.alreadyPaid = true ∧
      (markPaid env db (some o.id)).db = db := by
  obtain ⟨h1, h2, h3, _, _⟩ :=
    webhook_already_approved cfg env db ref "APPROVED" o href (Or.inl rfl) hw (Or.inl hp)
  obtain ⟨k1, k2, k3⟩ := markPaid_already_paid env db o.id o hoid hm hp
  refine ⟨h2, h1, h3, k2, ?_, k3⟩
  rw [k1]

set_option maxRecDepth 100000 in
/-- Witness of the amended C10: the paid order of `storePaidNoTickets` has no ticket, an
issuance for it would create its 2 cards, and neither confirmation path calls it. -/
theorem C10_witness :
    issueReturn envSpread storePaidNoTickets orderTwoCards = some { totalCards := 2 } ∧
      (nequiWebhook {} envSpread storePaidNoTickets (some "NEQ-o1") "APPROVED").db.tickets
        = storePaidNoTickets.tickets ∧
      (markPaid envSpread storePaidNoTickets (some orderTwoCards.id)).db = storePaidNoTickets :=
  ⟨by decide,
    (C10_paid_order_not_reissued {} envSpread storePaidNoTickets "NEQ-o1" orderTwoCards
      (by decide) (by decide) (by decide) (by decide) (by decide)).2.2.1,
    (C10_paid_order_not_reissued {} envSpread storePaidNoTickets "NEQ-o1" orderTwoCards
      (by decide) (by decide) (by decide) (by decide) (by decide)).2.2.2.2.2⟩

/-! ## Lemmas on order creation -/

theorem expireOne_id (cfg : Config) (now : Int) (o : Order) :
    (expireOne cfg now o).1.id = o.id := by
  unfold expireOne
  split
  · rfl
  · split
    · rfl
    · rfl
    · split <;> rfl

theorem expireOne_amount (cfg : Config) (now : Int) (o : Order) :
    (expireOne cfg now o).1.amount_cop = o.amount_cop := by
  unfold expireOne
  split
  · rfl
  · split
    · rfl
    · rfl
    · split <;> rfl

/-- The order an id identifies after the sweep is the swept image of the order it identified
before. -/
theorem sweep_find_id (cfg : Config) (now : Int) (db : DB) (oid : String) (o : Order)
    (h : db.orders.find? (fun o => decide (o.id = oid)) = some o) :
    (expirePendingOrders cfg now db).1.orders.find? (fun o => decide (o.id = oid))
      = some (expireOne cfg now o).1 := by
  unfold expirePendingOrders
  simp only [List.find?_map]
  have hfun : ((fun o : Order => decide (o.id = oid)) ∘
      fun o => (expireOne cfg now o).1) = fun o => decide (o.id = oid) := by
    funext x
    simp [Function.comp, expireOne_id]
  rw [hfun, h]
  rfl

/-- The answer of `POST /orders` to a valid request whose idempotency key is mapped to an
existing order. -/
theorem createOrder_idempotent (cfg : Config) (env : Env) (db : DB) (req : OrderRequest)
    (k oid : String) (record : IdemRecord) (prev : Order) (offer : Offer)
    (hfields : ¬ missingOrderFields req) (hphone : isValidPhone req.buyerPhone = true)
    (hemail : isValidEmail req.buyerEmail = true)
    (hoffer : db.offers.find?
      (fun o => decide (some o.id = req.offerId ∧ some o.event_id = req.eventId)) = some offer)
    (hkey : getIdempotencyKey req = some k)
    (hrec : db.idempotency.lookup k = some record) (hoid : record.order_id = some oid)
    (hne : oid ≠ "")
    (hprev : db.orders.find? (fun o => decide (o.id = oid)) = some prev) :
    createOrder cfg env db req
      = { db := (expirePendingOrders cfg env.now db).1
          reply :=
            { code := 200, orderId := some (expireOne cfg env.now prev).1.id
              status := some (expireOne cfg env.now prev).1.status
              amount := some (expireOne cfg env.now prev).1.amount_cop
              paymentUrl := orNull (expireOne cfg env.now prev).1.payment_url
              idempotent := true } } := by
  have hsw := sweep_find_id cfg env.now db oid prev hprev
  have htr : truthy record.order_id := ⟨oid, hoid, hne⟩
  have hpred : (fun o : Order => decide (some o.id = record.order_id))
      = fun o => decide (o.id = oid) := by
    funext o
    simp [hoid]
  have hhit : idempotentHit (expirePendingOrders cfg env.now db).1 (some k)
      = some (expireOne cfg env.now prev).1 := by
    unfold idempotentHit
    have hid : (expirePendingOrders cfg env.now db).1.idempotency = db.idempotency := rfl
    simp only [hid, hrec, htr, if_true, hpred]
    exact hsw
  have hoff : (expirePendingOrders cfg env.now db).1.offers = db.offers := rfl
  unfold createOrder
  simp only [hfields, if_false, hphone, hemail, hoff, hoffer, hkey, hhit]
  simp

/-! ## Order creation and admin actions: the claims -/

set_option maxRecDepth 100000 in
/-- Claim C11, evaluated at the failing input. Order `o1` of `storeResized` is
`TICKETS_ISSUED` with 2 combos of 6 cards; its offer now has 5 combos and its event now has
`combo_size` 4. The admin action `mark-paid` does not return at its already-paid test, which
compares with `PAID` only: it answers 200, moves the order back to `PAID` and rewrites its
`combos_count` to 5 and its `combo_size` to 4, so that `totalCardsOf` goes from 12 to 20. -/
theorem C11_mark_paid_rewrites_issued_order :
    storeResized.orders.map (fun o => (o.id, o.status, o.combos_count, o.combo_size))
        = [("o1", "TICKETS_ISSUED", 2, 6)] ∧
      (markPaid envSpread storeResized (some "o1")).reply.code = 200 ∧
      (markPaid envSpread storeResized (some "o1")).reply.alreadyPaid = false ∧
      (markPaid envSpread storeResized (some "o1")).db.orders.map
          (fun o => (o.id, o.status, o.combos_count, o.combo_size))
        = [("o1", "PAID", 5, 4)] ∧
      storeResized.orders.map totalCardsOf = [12] ∧
      (markPaid envSpread storeResized (some "o1")).db.orders.map totalCardsOf = [20] := by
  decide

set_option maxRecDepth 100000 in
/-- Claim C12, evaluated at the failing input. A valid `POST /orders` request on the seed
store is answered 200 and stores one order whose status is the text `PENDING`, which is not
one of the six values of `ORDER_STATUS`. -/
theorem C12_create_order_writes_pending :
    (createOrder {} envConst storeSeed requestFirst).reply.code = 200 ∧
      (createOrder {} envConst storeSeed requestFirst).reply.status = some "PENDING" ∧
      (createOrder {} envConst storeSeed requestFirst).db.orders.map (fun o => o.status)
        = ["PENDING"] ∧
      "PENDING" ∉ ORDER_STATUS := by
  decide

set_option maxRecDepth 100000 in
/-- Claim C13, evaluated at the failing input. A valid `POST /admin/manual-order` request
throws a `ReferenceError` at the read of `idemKey`, in simulated payment mode and in any
other: no reply is sent and the stored document keeps no trace of the order. -/
theorem C13_manual_order_persists_nothing :
    (manualOrder {} envConst storeSeed requestManual).thrown
        = some "ReferenceError: idemKey is not defined" ∧
      (manualOrder {} envConst storeSeed requestManual).reply = none ∧
      (manualOrder {} envConst storeSeed requestManual).db.orders = storeSeed.orders ∧
      (manualOrder {} envConst storeSeed requestManual).db.tickets = storeSeed.tickets ∧
      (manualOrder { paymentMode := "REAL" } envConst storeSeed requestManual).thrown
        = some "ReferenceError: idemKey is not defined" ∧
      (manualOrder { paymentMode := "REAL" } envConst storeSeed requestManual).db.orders
        = storeSeed.orders := by
  decide

/-- Claim C14. Create order with an already-mapped idempotency key creates no duplicate: for
a valid request (required fields, valid phone and email, offer of the event) whose key `k` is
mapped to the id of an existing order, `POST /orders` answers 200 with the idempotent mark
and that order's id, amount and status (the status it has in the store when the handler
answers, after the expiry sweep), appends no order, and leaves the idempotency map as it
was. -/
theorem C14_idempotent_key_no_duplicate (cfg : Config) (env : Env) (db : DB)
    (req : OrderRequest) (k oid : String) (record : IdemRecord) (prev : Order) (offer : Offer)
    (hfields : ¬ missingOrderFields req) (hphone : isValidPhone req.buyerPhone = true)
    (hemail : isValidEmail req.buyerEmail = true)
    (hoffer : db.offers.find?
      (fun o => decide (some o.id = req.offerId ∧ some o.event_id = req.eventId)) = some offer)
    (hkey : getIdempotencyKey req = some k)
    (hrec : db.idempotency.lookup k = some record) (hoid : record.order_id = some oid)
    (hne : oid ≠ "")
    (hprev : db.orders.find? (fun o => decide (o.id = oid)) = some prev) :
    (createOrder cfg env db req).reply.code = 200 ∧
      (createOrder cfg env db req).reply.idempotent = true ∧
      (createOrder cfg env db req).reply.orderId = some prev.id ∧
      (createOrder cfg env db req).reply.amount = some prev.amount_cop ∧
      (∃ prev1, (createOrder cfg env db req).db.orders.find? (fun o => decide (o.id = oid))
          = some prev1 ∧
        (createOrder cfg env db req).reply.status = some prev1.status ∧
        (prev.status ≠ "PENDING_PAYMENT" → prev1.status = prev.status)) ∧
      (createOrder cfg env db req).db.orders.map (fun o => o.id)
        = db.orders.map (fun o => o.id) ∧
      (createOrder cfg env db req).db.idempotency = db.idempotency ∧
      (createOrder cfg env db req).db.tickets = db.tickets := by
  rw [createOrder_idempotent cfg env db req k oid record prev offer hfields hphone hemail
    hoffer hkey hrec hoid hne hprev]
  refine ⟨rfl, rfl, ?_, ?_, ?_, ?_, rfl, rfl⟩
  · show some (expireOne cfg env.now prev).1.id = some prev.id
    rw [expireOne_id]
  · show some (expireOne cfg env.now prev).1.amount_cop = some prev.amount_cop
    rw [expireOne_amount]
  · refine ⟨(expireOne cfg env.now prev).1, sweep_find_id cfg env.now db oid prev hprev,
      rfl, ?_⟩
    intro hst
    rw [expireOne_other_status cfg env.now prev hst]
  · show ((expirePendingOrders cfg env.now db).1.orders).map (fun o => o.id)
      = db.orders.map (fun o => o.id)
    unfold expirePendingOrders
    simp only [List.map_map]
    apply List.map_congr_left
    intro o _
    exact expireOne_id cfg env.now o

set_option maxRecDepth 100000 in
/-- Witness of C14: the request `requestFirst`, whose header carries key `k-1`, on the store
`storeKeyed` that maps `k-1` to order `o1`. -/
theorem C14_witness :
    getIdempotencyKey requestFirst = some "k-1" ∧
      (createOrder {} envConst storeKeyed requestFirst).reply.orderId = some "o1" ∧
      (createOrder {} envConst storeKeyed requestFirst).db.orders.map (fun o => o.id)
        = storeKeyed.orders.map (fun o => o.id) :=
  ⟨by decide,
    (C14_idempotent_key_no_duplicate {} envConst storeKeyed requestFirst "k-1" "o1"
      { order_id := some "o1", created_at := DateField.at 100 }
      { id := "o1", event_id := "VIERNES", status := "PENDING", amount_cop := 6000
        nequi_ref := some "NEQ-o1", expires_at := DateField.at 9000 }
      { id := "c1", event_id := "VIERNES", combos_count := 1, price_cop := 6000 }
      (by decide) (by decide) (by decide) (by decide) (by decide) (by decide) rfl (by decide)
      (by decide)).2.2.1,
    (C14_idempotent_key_no_duplicate {} envConst storeKeyed requestFirst "k-1" "o1"
      { order_id := some "o1", created_at := DateField.at 100 }
      { id := "o1", event_id := "VIERNES", status := "PENDING", amount_cop := 6000
        nequi_ref := some "NEQ-o1", expires_at := DateField.at 9000 }
      { id := "c1", event_id := "VIERNES", combos_count := 1, price_cop := 6000 }
      (by decide) (by decide) (by decide) (by decide) (by decide) (by decide) rfl (by decide)
      (by decide)).2.2.2.2.2.1⟩

set_option maxRecDepth 100000 in
/-- Claim C20, evaluated at the failing input. Event `E1` of `storeVendorNoToken` has one
vendor, `v1`, with no link token. The vendor code made of one space passes the test
`!vendorCode`, is trimmed to the empty text, and equals the trimmed text of the missing link
token: `resolveVendorForEvent` returns vendor `v1`, although the trimmed code is neither the
vendor's id nor a configured link token. -/
theorem C20_blank_code_resolves_vendor :
    (resolveVendorForEvent storeVendorNoToken "E1" (some " ")).map (fun v => (v.id, v.name))
        = some ("v1", "Ana") ∧
      jsTrim " " = "" ∧
      jsTrim " " ≠ "v1" ∧
      (resolveVendorForEvent storeVendorNoToken "E1" (some "")) = none ∧
      (resolveVendorForEvent storeVendorNoToken "E1" none) = none := by
  decide

/-! ## Lemmas on stored maps, the ledger figures and the sequence counter -/

theorem lookup_updateKey_self {β : Type} (k : String) (f : β → β) :
    ∀ l : List (String × β), (updateKey k f l).lookup k = (l.lookup k).map f := by
  intro l
  induction l with
  | nil => rfl
  | cons p rest ih =>
    obtain ⟨k1, v1⟩ := p
    by_cases h : k1 = k
    · subst h
      simp [updateKey, List.lookup]
    · have h2 : (k == k1) = false := by simpa using fun h3 => h h3.symm
      simp [updateKey, h, List.lookup, h2, ih]

theorem lookup_updateKey_other {β : Type} (k k2 : String) (f : β → β) (hne : k2 ≠ k) :
    ∀ l : List (String × β), (updateKey k f l).lookup k2 = l.lookup k2 := by
  intro l
  induction l with
  | nil => rfl
  | cons p rest ih =>
    obtain ⟨k1, v1⟩ := p
    by_cases h : k1 = k
    · subst h
      have h2 : (k2 == k1) = false := by simpa using hne
      simp [updateKey, List.lookup, h2]
    · by_cases h3 : k2 = k1
      · subst h3
        simp [updateKey, h, List.lookup]
      · have h2 : (k2 == k1) = false := by simpa using h3
        simp [updateKey, h, List.lookup, h2, ih]

theorem lookup_setKey_self {β : Type} (k : String) (v : β) :
    ∀ l : List (String × β), (setKey k v l).lookup k = some v := by
  intro l
  induction l with
  | nil => simp [setKey, List.lookup]
  | cons p rest ih =>
    obtain ⟨k1, v1⟩ := p
    by_cases h : k1 = k
    · subst h
      simp [setKey, List.lookup]
    · have h2 : (k == k1) = false := by simpa using fun h3 => h h3.symm
      simp [setKey, h, List.lookup, h2, ih]

theorem lookup_setKey_other {β : Type} (k k2 : String) (v : β) (hne : k2 ≠ k) :
    ∀ l : List (String × β), (setKey k v l).lookup k2 = l.lookup k2 := by
  intro l
  induction l with
  | nil =>
    have h2 : (k2 == k) = false := by simpa using hne
    simp [setKey, List.lookup, h2]
  | cons p rest ih =>
    obtain ⟨k1, v1⟩ := p
    by_cases h : k1 = k
    · subst h
      have h2 : (k2 == k1) = false := by simpa using hne
      simp [setKey, List.lookup, h2]
    · by_cases h3 : k2 = k1
      · subst h3
        simp [setKey, h, List.lookup]
      · have h2 : (k2 == k1) = false := by simpa using h3
        simp [setKey, h, List.lookup, h2, ih]

theorem toInt32_of_range (x : Int) (h : InInt32 x) : toInt32 x = x := by
  unfold InInt32 at h
  unfold toInt32
  omega

/-- The guards of `applyVendorStatsOnce` pass exactly along this chain of lookups. -/
theorem ledgerVendor_chain (db : DB) (row : Order) (vid : String) (v : Vendor)
    (h : ledgerVendor db row = some (vid, v)) :
    row.vendor_id = some vid ∧ vid ≠ "" ∧ row.vendor_stats_applied = false ∧
      ∃ entry st vs, db.event_states.lookup row.event_id = some entry ∧
        entry.state = some st ∧ st.vendors = some vs ∧ vs.lookup vid = some (some v) := by
  unfold ledgerVendor at h
  cases hvid : row.vendor_id with
  | none => rw [hvid] at h; simp at h
  | some w =>
    rw [hvid] at h
    by_cases hw : w = ""
    · simp [hw] at h
    · cases hfl : row.vendor_stats_applied with
      | true => simp [hw, hfl] at h
      | false =>
        simp only [hw, hfl, if_false] at h
        cases h1 : db.event_states.lookup row.event_id with
        | none => simp [h1] at h
        | some entry =>
          cases h2 : entry.state with
          | none => simp [h1, h2] at h
          | some st =>
            cases h3 : st.vendors with
            | none => simp [h1, h2, h3] at h
            | some vs =>
              cases h4 : vs.lookup w with
              | none => simp [h1, h2, h3, h4] at h
              | some ov =>
                cases ov with
                | none => simp [h1, h2, h3, h4] at h
                | some v1 =>
                  simp [h1, h2, h3, h4] at h
                  obtain ⟨hwv, hv1⟩ := h
                  subst hwv
                  subst hv1
                  exact ⟨rfl, hw, rfl, entry, st, vs, rfl, h2, h3, h4⟩

theorem ledgerVendor_of_vendorOf (db : DB) (row : Order) (vid : String) (v : Vendor)
    (hvid : row.vendor_id = some vid) (hvne : vid ≠ "")
    (hflag : row.vendor_stats_applied = false)
    (hv : vendorOf db row.event_id vid = some v) :
    ledgerVendor db row = some (vid, v) := by
  unfold vendorOf at hv
  unfold ledgerVendor
  rw [hvid]
  simp only [hvne, hflag, if_false]
  cases h1 : db.event_states.lookup row.event_id with
  | none => simp [h1] at hv
  | some entry =>
    cases h2 : entry.state with
    | none => simp [h1, h2] at hv
    | some st =>
      cases h3 : st.vendors with
      | none => simp [h1, h2, h3] at hv
      | some vs =>
        cases h4 : vs.lookup vid with
        | none => simp [h1, h2, h3, h4] at hv
        | some ov =>
          cases ov with
          | none => simp [h1, h2, h3, h4] at hv
          | some v1 =>
            simp [h1, h2, h3, h4] at hv
            subst hv
            simp [h2, h3, h4]

/-- The ledger after `applyVendorStatsOnce`, read vendor by vendor. -/
theorem vendorOf_apply (db : DB) (row : Order) (n : Int) (vid : String) (v : Vendor)
    (h : ledgerVendor db row = some (vid, v)) :
    vendorOf (applyVendorStatsOnce db row n) row.event_id vid = some (bumpStats row n v) ∧
      ∀ e2 vid2, (e2 ≠ row.event_id ∨ vid2 ≠ vid) →
        vendorOf (applyVendorStatsOnce db row n) e2 vid2 = vendorOf db e2 vid2 := by
  obtain ⟨_, _, _, entry, st, vs, h1, h2, h3, h4⟩ := ledgerVendor_chain db row vid v h
  unfold applyVendorStatsOnce
  rw [h]
  constructor
  · unfold vendorOf
    simp [lookup_updateKey_self, h1, h2, h3, h4]
  · intro e2 vid2 hne
    unfold vendorOf
    by_cases he : e2 = row.event_id
    · subst he
      have hv2 : vid2 ≠ vid := by
        rcases hne with h5 | h5
        · exact absurd rfl h5
        · exact h5
      simp [lookup_updateKey_self, h1, h2, h3, lookup_updateKey_other vid vid2 _ hv2]
    · simp [lookup_updateKey_other row.event_id e2 _ he]

/-- The document `generateTicketsForOrder` saves on its generating path when the order row
is in the store. -/
theorem issue_fresh_store (env : Env) (db : DB) (order row : Order)
    (h : ticketsFor db order.id = []) (he : order.event_id ≠ "")
    (hrow : db.orders.find? (fun o => decide (o.id = order.id)) = some row) :
    storeAfterIssue env db order
      = applyVendorStatsOnce
          { db with
            tickets := (loopEnd env db order).tickets
            event_ticket_seq :=
              setKey order.event_id (loopEnd env db order).seqCursor db.event_ticket_seq }
          row (loopEnd env db order).created := by
  have hpos : ¬ 0 < (db.tickets.filter (fun t => t.order_id = order.id)).length := by
    unfold ticketsFor at h
    simp [h]
  unfold storeAfterIssue generateTicketsForOrder
  simp only [hpos, he, if_false, hrow]

theorem loopEnd_created_range (env : Env) (db : DB) (order : Order)
    (hlt : totalCardsOf order < 2147483648) :
    InInt32 ((loopEnd env db order).created : Int) := by
  unfold InInt32
  constructor
  · omega
  · by_cases hneg : 0 ≤ totalCardsOf order
    · have := issueLoop_created_le env order (totalCardsOf order)
        (totalCardsOf order * 20).toNat (loopStart db order) (by simpa [loopStart] using hneg)
      unfold loopEnd
      omega
    · have h0 : (totalCardsOf order * 20).toNat = 0 := by omega
      unfold loopEnd
      rw [h0]
      simp [issueLoop, loopStart]

/-- Serials of the tickets the loop appends: the k-th carries the sequence number
`seqCursor + k + 1`. -/
theorem issueLoop_serial (env : Env) (order : Order) (total : Int) :
    ∀ (safety : Nat) (st : LoopState), ∃ news : List Ticket,
      (issueLoop env order total safety st).tickets = st.tickets ++ news ∧
      ∀ (i : Nat) (h : i < news.length), ∃ r,
        (news.get ⟨i, h⟩).serial
          = makeSerial order.event_id (st.seqCursor + (i : Int) + 1) r := by
  intro safety
  induction safety with
  | zero =>
    intro st
    exact ⟨[], by simp [issueLoop], fun i h => absurd h (by simp)⟩
  | succ n ih =>
    intro st
    by_cases hc : (st.created : Int) < total
    · by_cases hm : sign (genCols env.rand st.pos).1 ∈ st.existing
      · obtain ⟨news, h1, h2⟩ := ih { st with pos := (genCols env.rand st.pos).2 }
        refine ⟨news, ?_, h2⟩
        simpa [issueLoop, hc, hm] using h1
      · obtain ⟨news, h1, h2⟩ := ih
          { created := st.created + 1
            existing := st.existing ++ [sign (genCols env.rand st.pos).1]
            seqCursor := st.seqCursor + 1
            pos := (genCols env.rand st.pos).2 + 1
            tickets := st.tickets ++ [newTicket env order st (genCols env.rand st.pos).1
              (sign (genCols env.rand st.pos).1) (genCols env.rand st.pos).2] }
        dsimp only at h1 h2
        refine ⟨newTicket env order st (genCols env.rand st.pos).1
              (sign (genCols env.rand st.pos).1) (genCols env.rand st.pos).2 :: news, ?_, ?_⟩
        · simp only [issueLoop, hc, hm, if_true, if_false]
          simpa using h1
        · intro i h
          cases i with
          | zero =>
            refine ⟨env.suffix (env.rand (genCols env.rand st.pos).2), ?_⟩
            simp [newTicket]
          | succ j =>
            have hj : j < news.length := by simpa using h
            obtain ⟨r, hr⟩ := h2 j hj
            refine ⟨r, ?_⟩
            simp only [List.get_eq_getElem, List.getElem_cons_succ] at hr ⊢
            rw [hr]
            congr 1
            push_cast
            ring
    · exact ⟨[], by simp [issueLoop, hc], fun i h => absurd h (by simp)⟩

/-- The tickets `generateTicketsForOrder` appends, with their indices and serials, and the
sequence counters it leaves. -/
theorem issue_sequence (env : Env) (db : DB) (order : Order)
    (hc : InInt32 (counterOf db order.event_id)) :
    ∃ news : List Ticket,
      (storeAfterIssue env db order).tickets = db.tickets ++ news ∧
      counterOf (storeAfterIssue env db order) order.event_id
        = counterOf db order.event_id + (news.length : Int) ∧
      (∀ e, e ≠ order.event_id →
        counterOf (storeAfterIssue env db order) e = counterOf db e) ∧
      ∀ (i : Nat) (h : i < news.length),
        (news.get ⟨i, h⟩).card_index = (i : Int) ∧
        ∃ r, (news.get ⟨i, h⟩).serial
          = makeSerial order.event_id (counterOf db order.event_id + (i : Int) + 1) r := by
  by_cases hex : ticketsFor db order.id = []
  · by_cases he : order.event_id = ""
    · rw [(issue_throw env db order hex he).2]
      exact ⟨[], by simp, by simp, fun _ _ => rfl, fun i h => absurd h (by simp)⟩
    · obtain ⟨_, htk, hseq⟩ := issue_fresh env db order hex he
      obtain ⟨news, h1, _, h3, _, _, h6⟩ := loopEnd_tickets env db order
      obtain ⟨news2, k1, k2⟩ := issueLoop_serial env order (totalCardsOf order)
        (totalCardsOf order * 20).toNat (loopStart db order)
      have hsame : news2 = news := by
        have : (loopStart db order).tickets ++ news2 = db.tickets ++ news := by
          rw [← k1]; exact h1
        exact List.append_cancel_left this
      subst hsame
      have hstart : seqOf db order.event_id = counterOf db order.event_id := by
        unfold seqOf counterOf
        exact toInt32_of_range _ hc
      refine ⟨news2, ?_, ?_, ?_, ?_⟩
      · rw [htk, h1]
      · unfold counterOf at hstart ⊢
        rw [hseq, lookup_setKey_self, h3, hstart]
        rfl
      · intro e hne
        unfold counterOf
        rw [hseq, lookup_setKey_other order.event_id e _ hne]
      · intro i h
        constructor
        · have := congrArg (fun l => l[i]?) h6
          simp only [List.getElem?_map] at this
          rw [List.getElem?_eq_getElem h,
            List.getElem?_eq_getElem (by simpa using h)] at this
          simpa using this
        · obtain ⟨r, hr⟩ := k2 i h
          refine ⟨r, ?_⟩
          rw [hr]
          have : (loopStart db order).seqCursor = counterOf db order.event_id := hstart
          rw [this]
  · obtain ⟨_, htk, hseq⟩ := issue_existing env db order hex
    refine ⟨[], by simp [htk], ?_, ?_, fun i h => absurd h (by simp)⟩
    · unfold counterOf; rw [hseq]; simp
    · intro e _; unfold counterOf; rw [hseq]

/-- The ledger after the first issuance for an order whose row names a vendor of its event. -/
theorem first_issuance_stats (env : Env) (db : DB) (order row : Order) (vid : String)
    (v : Vendor) (hnone : ticketsFor db order.id = []) (he : order.event_id ≠ "")
    (hrow : db.orders.find? (fun o => decide (o.id = order.id)) = some row)
    (hvid : row.vendor_id = some vid) (hvne : vid ≠ "")
    (hflag : row.vendor_stats_applied = false)
    (hv : vendorOf db row.event_id vid = some v)
    (hc : InInt32 v.stats.combos) (hk : InInt32 v.stats.cartones)
    (hcc : InInt32 row.combos_count) (htot : totalCardsOf order < 2147483648) :
    vendorOf (storeAfterIssue env db order) row.event_id vid
        = some { v with stats :=
            { combos := v.stats.combos + row.combos_count
              cartones := v.stats.cartones
                + ((ticketsFor (storeAfterIssue env db order) order.id).length : Int)
              ventas_cop := toDouble (v.stats.ventas_cop + row.amount_cop)
              comision := toDouble (v.stats.comision
                + toDouble (row.amount_cop * toDouble (v.commissionPct / 100))) } } ∧
      ∀ e2 vid2, (e2 ≠ row.event_id ∨ vid2 ≠ vid) →
        vendorOf (storeAfterIssue env db order) e2 vid2 = vendorOf db e2 vid2 := by
  have hstore := issue_fresh_store env db order row hnone he hrow
  obtain ⟨_, htk, _⟩ := issue_fresh env db order hnone he
  obtain ⟨news, h1, h2, _, h4, _, _⟩ := loopEnd_tickets env db order
  have hfor : ticketsFor (storeAfterIssue env db order) order.id = news := by
    unfold ticketsFor
    rw [htk, h1]
    exact ticketsFor_append_new db news order.id hnone (fun t ht => (h4 t ht).1)
  have hcr := loopEnd_created_range env db order htot
  have hl : ledgerVendor
      { db with
        tickets := (loopEnd env db order).tickets
        event_ticket_seq :=
          setKey order.event_id (loopEnd env db order).seqCursor db.event_ticket_seq } row
      = some (vid, v) :=
    ledgerVendor_of_vendorOf _ row vid v hvid hvne hflag hv
  obtain ⟨ha, hb⟩ := vendorOf_apply _ row ((loopEnd env db order).created : Int) vid v hl
  constructor
  · rw [hfor, ← h2]
    rw [hstore, ha]
    unfold bumpStats
    rw [toInt32_of_range _ hc, toInt32_of_range _ hk, toInt32_of_range _ hcc,
      toInt32_of_range _ hcr]
  · intro e2 vid2 hne
    rw [hstore, hb e2 vid2 hne]
    rfl

theorem doubleQuantum_eq (q : ℚ) (e : Int) (h1 : (2 : ℚ) ^ e ≤ |q|)
    (h2 : |q| < (2 : ℚ) ^ (e + 1)) (hp : -1022 ≤ e) : doubleQuantum q = e - 52 := by
  have hpos : 0 < |q| := lt_of_lt_of_le (by positivity) h1
  have ha : e ≤ Int.log 2 |q| := (Int.zpow_le_iff_le_log (by norm_num) hpos).mp h1
  have hb : Int.log 2 |q| < e + 1 := (Int.lt_zpow_iff_log_lt (by norm_num) hpos).mp h2
  unfold doubleQuantum
  omega

theorem roundHalfEven_eq (m : ℚ) (f n : Int) (hf1 : (f : ℚ) ≤ m) (hf2 : m < f + 1)
    (hn : n = if m - f < 1 / 2 then f else if 1 / 2 < m - f then f + 1
      else if f % 2 = 0 then f else f + 1) : roundHalfEven m = n := by
  have hfl : ⌊m⌋ = f := Int.floor_eq_iff.mpr ⟨hf1, hf2⟩
  unfold roundHalfEven
  rw [hfl, hn]

/-- The double nearest to `q`, from its binary exponent `e` and the integer part `f` of its
mantissa scaled to 53 bits. -/
theorem toDouble_eq (q : ℚ) (e f n : Int) (hq : q ≠ 0) (h1 : (2 : ℚ) ^ e ≤ |q|)
    (h2 : |q| < (2 : ℚ) ^ (e + 1)) (hp : -1022 ≤ e)
    (hf1 : (f : ℚ) ≤ q / 2 ^ (e - 52)) (hf2 : q / 2 ^ (e - 52) < f + 1)
    (hn : n = if q / 2 ^ (e - 52) - f < 1 / 2 then f
      else if 1 / 2 < q / 2 ^ (e - 52) - f then f + 1
      else if f % 2 = 0 then f else f + 1) :
    toDouble q = (n : ℚ) * 2 ^ (e - 52) := by
  unfold toDouble
  rw [if_neg hq, doubleQuantum_eq q e h1 h2 hp, roundHalfEven_eq _ f n hf1 hf2 hn]

/-- In double precision `7 / 100` is `5044031582654956 / 2^56`. -/
theorem toDouble_seven_percent : toDouble (7 / 100) = 5044031582654956 / 2 ^ 56 := by
  rw [toDouble_eq (7 / 100) (-4) 5044031582654955 5044031582654956 (by norm_num)
    (by norm_num [abs_of_pos]) (by norm_num [abs_of_pos]) (by norm_num) (by norm_num)
    (by norm_num) (by norm_num)]
  norm_num

/-- In double precision `6000 * (7 / 100)` is `420 + 2^-44`, the double after `420`. -/
theorem toDouble_commission_seven :
    toDouble (6000 * toDouble (7 / 100)) = 420 + 1 / 2 ^ 44 := by
  rw [toDouble_seven_percent,
    toDouble_eq _ 8 7388718138654720 7388718138654721 (by norm_num)
      (by norm_num [abs_of_pos]) (by norm_num [abs_of_pos]) (by norm_num) (by norm_num)
      (by norm_num) (by norm_num)]
  norm_num

/-- In double precision `10 / 100` is `7205759403792794 / 2^56`. -/
theorem toDouble_ten_percent : toDouble (10 / 100) = 7205759403792794 / 2 ^ 56 := by
  rw [toDouble_eq (10 / 100) (-4) 7205759403792793 7205759403792794 (by norm_num)
    (by norm_num [abs_of_pos]) (by norm_num [abs_of_pos]) (by norm_num) (by norm_num)
    (by norm_num) (by norm_num)]
  norm_num

/-- In double precision `6000 * (10 / 100)` is `600`. -/
theorem toDouble_commission_ten : toDouble (6000 * toDouble (10 / 100)) = 600 := by
  rw [toDouble_ten_percent,
    toDouble_eq _ 9 5277655813324800 5277655813324800 (by norm_num)
      (by norm_num [abs_of_pos]) (by norm_num [abs_of_pos]) (by norm_num) (by norm_num)
      (by norm_num) (by norm_num)]
  norm_num

theorem toDouble_six_hundred : toDouble 600 = 600 := by
  rw [toDouble_eq 600 9 5277655813324800 5277655813324800 (by norm_num)
    (by norm_num [abs_of_pos]) (by norm_num [abs_of_pos]) (by norm_num) (by norm_num)
    (by norm_num) (by norm_num)]
  norm_num

theorem toDouble_six_thousand : toDouble 6000 = 6000 := by
  rw [toDouble_eq 6000 12 6597069766656000 6597069766656000 (by norm_num)
    (by norm_num [abs_of_pos]) (by norm_num [abs_of_pos]) (by norm_num) (by norm_num)
    (by norm_num) (by norm_num)]
  norm_num

theorem toDouble_after_420 : toDouble (420 + 1 / 2 ^ 44) = 420 + 1 / 2 ^ 44 := by
  rw [toDouble_eq _ 8 7388718138654721 7388718138654721 (by norm_num)
    (by norm_num [abs_of_pos]) (by norm_num [abs_of_pos]) (by norm_num) (by norm_num)
    (by norm_num) (by norm_num)]
  norm_num

/-! ## Ledger figures and sequence counter: the claims -/

/-- Counterexample to C15. Vendor `v1` of `storeVendorWrapped` has the stored counter
`stats.combos` at `2^31`: the first issuance for its order, of 1 combo, reads that counter
through `| 0` and leaves `stats.combos` at `-2147483647`, not at `2^31 + 1`. Vendor `v1` of
`storeVendorSeven` has a commission of 7 %: the first issuance for its order, of amount
6000, adds `6000 * (7 / 100)` computed in doubles, `420 + 2^-44` (printed
420.00000000000006), not the rational `6000 * 7 / 100 = 420`. -/
theorem C15_counterexample :
    (vendorOf storeVendorWrapped "E1" "v1").map (fun v => v.stats.combos)
        = some 2147483648 ∧
      storeVendorWrapped.orders.map (fun o => (o.id, o.vendor_id, o.combos_count))
        = [("o1", some "v1", 1)] ∧
      ticketsFor storeVendorWrapped orderVendor.id = [] ∧
      (vendorOf (storeAfterIssue envSpread storeVendorWrapped orderVendor) "E1" "v1").map
          (fun v => v.stats.combos) = some (-2147483647) ∧
      vendorOf storeVendorSeven "E1" "v1" = some { commissionPct := 7 } ∧
      orderVendor.amount_cop = 6000 ∧
      (vendorOf (storeAfterIssue envSpread storeVendorSeven orderVendor) "E1" "v1").map
          (fun v => v.stats.comision) = some (420 + 1 / 2 ^ 44) ∧
      (420 + 1 / 2 ^ 44 : ℚ) ≠ 6000 * 7 / 100 := by
  refine ⟨by decide, by decide, by decide, by decide, rfl, rfl, ?_, by norm_num⟩
  have h := (first_issuance_stats envSpread storeVendorSeven orderVendor orderVendor "v1"
    { commissionPct := 7 } (by decide) (by decide) (by decide) rfl (by decide) rfl rfl
    (by decide) (by decide) (by decide) (by decide)).1
  have hev : orderVendor.event_id = "E1" := rfl
  rw [hev] at h
  rw [h]
  simp only [orderVendor, Option.map_some', zero_add, toDouble_commission_seven,
    toDouble_after_420]

/-- Claim C15, amended. On the first issuance for an order whose stored row names, by a
non-empty `vendor_id`, a vendor present in the state of the row's event, with the stored
counters `combos` and `cartones` of the vendor, the row's `combos_count` and the number of
cards requested integers in the signed 32-bit range, and the money figures in range
(`MoneyInRange`), the vendor's stats become: `combos` increased by the row's `combos_count`,
`cartones` by the number of tickets issued for the order, `ventas_cop` the double sum of
the stored figure and the row's amount, and `comision` the double sum of the stored figure
and the double product `amount * (commissionPct / 100)`, each operation rounded to the
nearest double; every other vendor of the ledger is unchanged. -/
theorem C15_first_issuance_ledger (env : Env) (db : DB) (order row : Order) (vid : String)
    (v : Vendor) (hnone : ticketsFor db order.id = []) (he : order.event_id ≠ "")
    (hrow : db.orders.find? (fun o => decide (o.id = order.id)) = some row)
    (hvid : row.vendor_id = some vid) (hvne : vid ≠ "")
    (hflag : row.vendor_stats_applied = false)
    (hv : vendorOf db row.event_id vid = some v)
    (hc : InInt32 v.stats.combos) (hk : InInt32 v.stats.cartones)
    (hcc : InInt32 row.combos_count) (htot : totalCardsOf order < 2147483648)
    (_hm : MoneyInRange v row) :
    vendorOf (storeAfterIssue env db order) row.event_id vid
        = some { v with stats :=
            { combos := v.stats.combos + row.combos_count
              cartones := v.stats.cartones
                + ((ticketsFor (storeAfterIssue env db order) order.id).length : Int)
              ventas_cop := toDouble (v.stats.ventas_cop + row.amount_cop)
              comision := toDouble (v.stats.comision
                + toDouble (row.amount_cop * toDouble (v.commissionPct / 100))) } } ∧
      ∀ e2 vid2, (e2 ≠ row.event_id ∨ vid2 ≠ vid) →
        vendorOf (storeAfterIssue env db order) e2 vid2 = vendorOf db e2 vid2 :=
  first_issuance_stats env db order row vid v hnone he hrow hvid hvne hflag hv hc hk hcc htot

set_option maxRecDepth 100000 in
/-- Witness of the amended C15: the first issuance for the order of vendor `v1` in
`storeVendor` (1 combo, 2 cards, 6000 at 10 % commission); in doubles `6000 * (10 / 100)`
is `600`. -/
theorem C15_witness :
    ticketsFor storeVendor orderVendor.id = [] ∧ InInt32 orderVendor.combos_count ∧
      MoneyInRange { commissionPct := 10 } orderVendor ∧
      vendorOf (storeAfterIssue envSpread storeVendor orderVendor) "E1" "v1"
        = some { commissionPct := 10
                 stats :=
                   { combos := 1, cartones := 2, ventas_cop := 6000, comision := 600 } } := by
  have hm : MoneyInRange { commissionPct := 10 } orderVendor := by
    unfold MoneyInRange
    simp only [orderVendor]
    norm_num
  refine ⟨by decide, by decide, hm, ?_⟩
  have h := (C15_first_issuance_ledger envSpread storeVendor orderVendor orderVendor "v1"
    { commissionPct := 10 } (by decide) (by decide) (by decide) rfl (by decide) rfl rfl
    (by decide) (by decide) (by decide) (by decide) hm).1
  have hlen : (ticketsFor (storeAfterIssue envSpread storeVendor orderVendor)
      orderVendor.id).length = 2 := by decide
  rw [hlen] at h
  have hev : orderVendor.event_id = "E1" := rfl
  rw [hev] at h
  rw [h]
  simp only [orderVendor, zero_add, toDouble_commission_ten, toDouble_six_hundred,
    toDouble_six_thousand]
  norm_num

/-- Claim C19. The per-event sequence counter advances exactly by the number of tickets
committed: when the stored counter of the order's event is in the signed 32-bit range, after
`generateTicketsForOrder` that counter equals its previous value plus the number of tickets
the call appended, so it does not decrease; the counters of all other events are unchanged;
and the appended ticket with `card_index` i carries the sequence number `previous + i + 1`
in its serial, numbers that are pairwise distinct and greater than the previous counter. -/
theorem C19_sequence_counter (env : Env) (db : DB) (order : Order)
    (hc : InInt32 (counterOf db order.event_id)) :
    ∃ news : List Ticket,
      (storeAfterIssue env db order).tickets = db.tickets ++ news ∧
      counterOf (storeAfterIssue env db order) order.event_id
        = counterOf db order.event_id + (news.length : Int) ∧
      counterOf db order.event_id ≤ counterOf (storeAfterIssue env db order) order.event_id ∧
      (∀ e, e ≠ order.event_id →
        counterOf (storeAfterIssue env db order) e = counterOf db e) ∧
      (∀ (i : Nat) (h : i < news.length),
        (news.get ⟨i, h⟩).card_index = (i : Int) ∧
        ∃ r, (news.get ⟨i, h⟩).serial
          = makeSerial order.event_id (counterOf db order.event_id + (i : Int) + 1) r) ∧
      (∀ i j : Nat, i ≠ j →
        counterOf db order.event_id + (i : Int) + 1
          ≠ counterOf db order.event_id + (j : Int) + 1) ∧
      ∀ i : Nat, counterOf db order.event_id < counterOf db order.event_id + (i : Int) + 1 := by
  obtain ⟨news, h1, h2, h3, h4⟩ := issue_sequence env db order hc
  refine ⟨news, h1, h2, ?_, h3, h4, ?_, ?_⟩
  · rw [h2]; omega
  · intro i j hij; omega
  · intro i; omega

set_option maxRecDepth 100000 in
/-- Witness of C19: a second order of event `E1`, whose counter is at 1, gets its 2 cards;
the counter ends at 3. -/
theorem C19_witness :
    InInt32 (counterOf storeOtherOrder orderSecond.event_id) ∧
      counterOf (storeAfterIssue envMixed storeOtherOrder orderSecond) "E1" = 3 ∧
      ∃ news : List Ticket,
        (storeAfterIssue envMixed storeOtherOrder orderSecond).tickets
          = storeOtherOrder.tickets ++ news ∧
        counterOf (storeAfterIssue envMixed storeOtherOrder orderSecond) orderSecond.event_id
          = counterOf storeOtherOrder orderSecond.event_id + (news.length : Int) :=
  ⟨by decide, by decide,
    (C19_sequence_counter envMixed storeOtherOrder orderSecond (by decide)).imp
      (fun _ h => ⟨h.1, h.2.1⟩)⟩

/-! ## Lemmas on sampling -/

theorem randIndex_lt (r len : Nat) (h : 0 < len) : randIndex r len < len := by
  unfold randIndex
  apply Nat.div_lt_of_lt_mul
  have h1 : r % 2 ^ 53 < 2 ^ 53 := Nat.mod_lt _ (by norm_num)
  calc r % 2 ^ 53 * len < 2 ^ 53 * len := Nat.mul_lt_mul_of_pos_right h1 h

theorem pool_nodup (a b : Int) : (pool a b).Nodup := by
  unfold pool
  apply List.Nodup.map
  · intro x y hxy
    simpa using hxy
  · exact List.nodup_range _

theorem mem_pool (a b x : Int) (h : x ∈ pool a b) : a ≤ x ∧ x ≤ b := by
  unfold pool at h
  rw [List.mem_map] at h
  obtain ⟨k, hk, rfl⟩ := h
  rw [List.mem_range] at hk
  omega

theorem pool_length (a b : Int) : (pool a b).length = (b - a + 1).toNat := by
  unfold pool
  simp

/-- The picking loop draws without replacement: what it adds is duplicate-free, comes from
the pool, and has `min n pool.length` elements. -/
theorem pickLoop_spec (rand : Nat → Nat) :
    ∀ (n pos : Nat) (pl picked : List Int), pl.Nodup →
      ∃ chosen : List Int,
        (pickLoop rand n pos pl picked).1 = picked ++ chosen ∧ chosen.Nodup ∧
        (∀ x ∈ chosen, x ∈ pl) ∧ chosen.length = min n pl.length := by
  intro n
  induction n with
  | zero =>
    intro pos pl picked _
    exact ⟨[], by simp [pickLoop], List.nodup_nil, by simp, by simp⟩
  | succ m ih =>
    intro pos pl picked hnd
    by_cases hlen : 0 < pl.length
    · have hidx := randIndex_lt (rand pos) pl.length hlen
      obtain ⟨chosen, h1, h2, h3, h4⟩ := ih (pos + 1)
        (pl.eraseIdx (randIndex (rand pos) pl.length))
        (picked ++ [pl.getD (randIndex (rand pos) pl.length) 0])
        (List.Nodup.eraseIdx _ hnd)
      have hget : pl.getD (randIndex (rand pos) pl.length) 0
          = pl[randIndex (rand pos) pl.length] := by
        simp [List.getD, List.getElem?_eq_getElem hidx]
      refine ⟨pl.getD (randIndex (rand pos) pl.length) 0 :: chosen, ?_, ?_, ?_, ?_⟩
      · simp only [pickLoop, hlen, if_true]
        rw [h1]
        simp
      · refine List.nodup_cons.mpr ⟨?_, h2⟩
        intro hin
        have hin2 := h3 _ hin
        rw [hget, ← List.Nodup.erase_getElem hnd _ hidx] at hin2
        exact (List.Nodup.not_mem_erase hnd) hin2
      · intro x hx
        rcases List.mem_cons.mp hx with rfl | hx
        · rw [hget]; exact List.getElem_mem _
        · exact List.mem_of_mem_eraseIdx (h3 x hx)
      · rw [List.length_cons, h4, List.length_eraseIdx_of_lt hidx]
        omega
    · have h0 : pl.length = 0 := by omega
      exact ⟨[], by simp [pickLoop, hlen], List.nodup_nil, by simp, by simp [h0]⟩

/-- A sample of 5 from a band of at least 5 numbers: 5 cells, strictly increasing, all inside
the band. -/
theorem sampleRange_spec (rand : Nat → Nat) (a b : Int) (pos : Nat)
    (h : 5 ≤ (b - a + 1).toNat) :
    (sampleRange rand a b 5 pos).1.length = 5 ∧
      (sampleRange rand a b 5 pos).1.Sorted (fun x y => x < y) ∧
      ∀ x ∈ (sampleRange rand a b 5 pos).1, a ≤ x ∧ x ≤ b := by
  obtain ⟨chosen, h1, h2, h3, h4⟩ := pickLoop_spec rand 5 pos (pool a b) [] (pool_nodup a b)
  rw [List.nil_append] at h1
  have hperm := List.perm_insertionSort (fun x y : Int => x ≤ y) chosen
  unfold sampleRange
  simp only [h1]
  refine ⟨?_, ?_, ?_⟩
  · rw [hperm.length_eq, h4, pool_length]
    omega
  · exact (List.sorted_insertionSort (fun x y : Int => x ≤ y) chosen).lt_of_le
      (hperm.nodup_iff.mpr h2)
  · intro x hx
    exact mem_pool a b x (h3 x (hperm.mem_iff.mp hx))

/-- The grid of `genCols` spelled out: five samples drawn one after the other, the middle
one with its third cell overwritten. -/
theorem genCols_eq (rand : Nat → Nat) (pos : Nat) :
    ∃ p1 p2 p3 p4 : Nat,
      (genCols rand pos).1
        = [(sampleRange rand 1 15 5 pos).1, (sampleRange rand 16 30 5 p1).1,
            ((sampleRange rand 31 45 5 p2).1).set 2 0, (sampleRange rand 46 60 5 p3).1,
            (sampleRange rand 61 75 5 p4).1] :=
  ⟨_, _, _, _, rfl⟩

theorem sorted_drop_middle (l : List Int) (hlen : l.length = 5)
    (hs : l.Sorted (fun x y => x < y)) (hb : ∀ x ∈ l, 31 ≤ x ∧ x ≤ 45) :
    (l.set 2 0).length = 5 ∧ (l.set 2 0).getD 2 7 = 0 ∧
      ((l.set 2 0).eraseIdx 2).Sorted (fun x y => x < y) ∧
      ((l.set 2 0).eraseIdx 2).length = 4 ∧
      ∀ x ∈ (l.set 2 0).eraseIdx 2, 31 ≤ x ∧ x ≤ 45 := by
  match l, hlen with
  | [a, b, c, d, e], _ =>
    have hsub : [a, b, d, e].Sorted (fun x y => x < y) := by
      have : List.Sublist [a, b, d, e] [a, b, c, d, e] := by
        apply List.Sublist.cons₂
        apply List.Sublist.cons₂
        apply List.Sublist.cons
        exact List.Sublist.refl _
      exact List.Pairwise.sublist this hs
    refine ⟨rfl, rfl, hsub, rfl, ?_⟩
    intro x hx
    apply hb
    simp only [List.set, List.eraseIdx, List.mem_cons] at hx ⊢
    tauto

/-! ## Card generator: the claims -/

/-- Claim C16. For every sequence of draws `genCols` returns 5 columns of 5 cells; every
column i other than the middle one is strictly increasing (so its cells are distinct) with
all cells in the band from `15 i + 1` to `15 i + 15`; the middle column has `0` at its
centre and its four other cells strictly increasing inside 31..45; the bands are those of
`COLS`, pairwise disjoint and together covering exactly 1..75. -/
theorem C16_genCols_grid (rand : Nat → Nat) (pos : Nat) :
    (genCols rand pos).1.length = 5 ∧
      (∀ i : Nat, i < 5 → ((genCols rand pos).1.getD i []).length = 5) ∧
      (∀ i : Nat, i < 5 → i ≠ 2 →
        ((genCols rand pos).1.getD i []).Sorted (fun x y => x < y) ∧
        ∀ x ∈ (genCols rand pos).1.getD i [],
          15 * (i : Int) + 1 ≤ x ∧ x ≤ 15 * (i : Int) + 15) ∧
      ((genCols rand pos).1.getD 2 []).getD 2 7 = 0 ∧
      (((genCols rand pos).1.getD 2 []).eraseIdx 2).length = 4 ∧
      (((genCols rand pos).1.getD 2 []).eraseIdx 2).Sorted (fun x y => x < y) ∧
      (∀ x ∈ ((genCols rand pos).1.getD 2 []).eraseIdx 2, 31 ≤ x ∧ x ≤ 45) ∧
      COLS = (List.range 5).map (fun (i : Nat) => (15 * (i : Int) + 1, 15 * (i : Int) + 15)) ∧
      (∀ n : Int, (1 ≤ n ∧ n ≤ 75) ↔
        ∃ i : Nat, i < 5 ∧ 15 * (i : Int) + 1 ≤ n ∧ n ≤ 15 * (i : Int) + 15) ∧
      ∀ (n : Int) (i j : Nat), 15 * (i : Int) + 1 ≤ n ∧ n ≤ 15 * (i : Int) + 15 →
        15 * (j : Int) + 1 ≤ n ∧ n ≤ 15 * (j : Int) + 15 → i = j := by
  obtain ⟨p1, p2, p3, p4, hg⟩ := genCols_eq rand pos
  obtain ⟨a1, a2, a3⟩ := sampleRange_spec rand 1 15 pos (by decide)
  obtain ⟨b1, b2, b3⟩ := sampleRange_spec rand 16 30 p1 (by decide)
  obtain ⟨c1, c2, c3⟩ := sampleRange_spec rand 31 45 p2 (by decide)
  obtain ⟨d1, d2, d3⟩ := sampleRange_spec rand 46 60 p3 (by decide)
  obtain ⟨e1, e2, e3⟩ := sampleRange_spec rand 61 75 p4 (by decide)
  obtain ⟨m1, m2, m3, m4, m5⟩ := sorted_drop_middle _ c1 c2 c3
  rw [hg]
  refine ⟨rfl, ?_, ?_, ?_, ?_, ?_, ?_, by decide, ?_, ?_⟩
  · intro i hi
    interval_cases i
    · exact a1
    · exact b1
    · exact m1
    · exact d1
    · exact e1
  · intro i hi hne
    interval_cases i
    · exact ⟨a2, fun x hx => by have := a3 x hx; simpa using this⟩
    · exact ⟨b2, fun x hx => by have := b3 x hx; simpa using this⟩
    · exact absurd rfl hne
    · exact ⟨d2, fun x hx => by have := d3 x hx; simpa using this⟩
    · exact ⟨e2, fun x hx => by have := e3 x hx; simpa using this⟩
  · exact m2
  · exact m4
  · exact m3
  · exact m5
  · intro n
    constructor
    · intro hn
      refine ⟨((n - 1) / 15).toNat, ?_, ?_, ?_⟩ <;> omega
    · rintro ⟨i, hi, h1, h2⟩
      omega
  · intro n i j hi hj
    omega

/-! ## Lemmas on the serial -/

theorem alnum_toNat_lt (c : Char) (h : c.isAlphanum = true) : c.toNat < 128 := by
  simp only [Char.isAlphanum, Char.isAlpha, Char.isUpper, Char.isLower, Char.isDigit,
    Bool.or_eq_true, Bool.and_eq_true, decide_eq_true_eq] at h
  show c.val.toNat < 128
  rcases h with (⟨_, h⟩ | ⟨_, h⟩) | ⟨_, h⟩
  · have h1 : c.val.toNat ≤ 90 := h
    omega
  · have h1 : c.val.toNat ≤ 122 := h
    omega
  · have h1 : c.val.toNat ≤ 57 := h
    omega

theorem upper_of_alnum_small : ∀ k : Fin 128, (Char.ofNat k.val).isAlphanum = true →
    upperAlnum (Char.ofNat k.val).toUpper = true := by
  decide

theorem upper_of_alnum (c : Char) (h : c.isAlphanum = true) : upperAlnum c.toUpper = true := by
  have hlt := alnum_toNat_lt c h
  have hc : Char.ofNat c.toNat = c := Char.ofNat_toNat c
  have := upper_of_alnum_small ⟨c.toNat, hlt⟩
  simp only [hc] at this
  exact this h

theorem digit36_upper : ∀ d : Fin 36, upperAlnum (digit36 d.val).toUpper = true ∧
    digitValue36 (digit36 d.val).toUpper = d.val := by
  decide

/-- Reading the upper-cased digits of `digits36` gives the number back. -/
theorem digits36_value : ∀ (fuel n : Nat) (ds : List Char), n < fuel →
    ((digits36 fuel n ds).map Char.toUpper).foldl (fun acc c => acc * 36 + digitValue36 c) 0
      = (ds.map Char.toUpper).foldl (fun acc c => acc * 36 + digitValue36 c) n := by
  intro fuel
  induction fuel with
  | zero => intro n ds h; omega
  | succ f ih =>
    intro n ds h
    have hd := (digit36_upper ⟨n % 36, Nat.mod_lt _ (by norm_num)⟩).2
    simp only at hd
    by_cases hq : n / 36 = 0
    · have hn : n % 36 = n := by omega
      simp only [digits36, hq, if_true, List.map_cons, List.foldl_cons, hd]
      rw [hn]; simp
    · have hlt : n / 36 < f := by omega
      simp only [digits36, hq, if_false]
      rw [ih (n / 36) _ hlt]
      simp only [List.map_cons, List.foldl_cons, hd]
      have : n / 36 * 36 + n % 36 = n := by omega
      rw [this]

theorem digits36_length : ∀ (fuel n : Nat) (ds : List Char) (k : Nat), n < 36 ^ k → 1 ≤ k →
    (digits36 fuel n ds).length ≤ ds.length + k := by
  intro fuel
  induction fuel with
  | zero => intro n ds k _ _; simp [digits36]
  | succ f ih =>
    intro n ds k hn hk
    by_cases hq : n / 36 = 0
    · simp only [digits36, hq, if_true, List.length_cons]
      omega
    · simp only [digits36, hq, if_false]
      obtain ⟨j, rfl⟩ : ∃ j, k = j + 1 := ⟨k - 1, by omega⟩
      have hj : 1 ≤ j := by
        by_contra hcon
        have : j = 0 := by omega
        subst this
        simp at hn
        omega
      have hdiv : n / 36 < 36 ^ j := by
        rw [Nat.div_lt_iff_lt_mul (by norm_num)]
        calc n < 36 ^ (j + 1) := hn
          _ = 36 ^ j * 36 := by ring
      have := ih (n / 36) (digit36 (n % 36) :: ds) j hdiv hj
      simp only [List.length_cons] at this
      omega

theorem digits36_chars : ∀ (fuel n : Nat) (ds : List Char),
    (∀ c ∈ ds, upperAlnum c.toUpper = true) →
    ∀ c ∈ digits36 fuel n ds, upperAlnum c.toUpper = true := by
  intro fuel
  induction fuel with
  | zero => intro n ds h; simpa [digits36] using h
  | succ f ih =>
    intro n ds h
    have hd := (digit36_upper ⟨n % 36, Nat.mod_lt _ (by norm_num)⟩).1
    simp only at hd
    have hcons : ∀ c ∈ digit36 (n % 36) :: ds, upperAlnum c.toUpper = true := by
      intro c hc
      rcases List.mem_cons.mp hc with rfl | hc
      · exact hd
      · exact h c hc
    by_cases hq : n / 36 = 0
    · simpa [digits36, hq] using hcons
    · simp only [digits36, hq, if_false]
      exact ih _ _ hcons

theorem toString36_nat (n : Nat) :
    (toString36 (n : Int)).map Char.toUpper
      = String.mk ((digits36 (n + 1) n []).map Char.toUpper) := by
  unfold toString36
  have h : ¬ ((n : Int) < 0) := by omega
  simp only [h, if_false, Int.natAbs_ofNat]
  rw [String.map_eq]

theorem foldl_zeros (k : Nat) (l : List Char) :
    (List.replicate k '0' ++ l).foldl (fun acc c => acc * 36 + digitValue36 c) 0
      = l.foldl (fun acc c => acc * 36 + digitValue36 c) 0 := by
  induction k with
  | zero => simp
  | succ j ih =>
    simp only [List.replicate_succ, List.cons_append, List.foldl_cons]
    have : 0 * 36 + digitValue36 '0' = 0 := by decide
    rw [this]
    exact ih

theorem makeSerial_format (eventId rand : String) (n : Nat) :
    ∃ P S : String,
      makeSerial eventId (n : Int) rand = "BF-" ++ P ++ "-" ++ S ++ "-" ++ rand ∧
      P = String.mk (((eventId.toList.filter Char.isAlphanum).map Char.toUpper).take 12) ∧
      P.length ≤ 12 ∧ (∀ c ∈ P.toList, upperAlnum c = true) ∧
      (∀ c ∈ S.toList, upperAlnum c = true) ∧ 5 ≤ S.length ∧
      (n < 36 ^ 5 → S.length = 5) ∧ parse36 S = n := by
  refine ⟨String.mk (((eventId.toList.filter Char.isAlphanum).map Char.toUpper).take 12),
    padStart0 5 ((toString36 (n : Int)).map Char.toUpper), rfl, rfl, ?_, ?_, ?_, ?_, ?_, ?_⟩
  · simp only [String.length_mk]
    exact List.length_take_le _ _
  · intro c hc
    have hc2 : c ∈ ((eventId.toList.filter Char.isAlphanum).map Char.toUpper) :=
      List.mem_of_mem_take hc
    rw [List.mem_map] at hc2
    obtain ⟨d, hd, rfl⟩ := hc2
    exact upper_of_alnum d (List.mem_filter.mp hd).2
  · intro c hc
    rw [toString36_nat] at hc
    unfold padStart0 at hc
    simp only [String.toList, String.data_append, List.mem_append, List.mem_replicate,
      List.mem_map] at hc
    rcases hc with ⟨_, rfl⟩ | ⟨d, hd, rfl⟩
    · decide
    · exact digits36_chars (n + 1) n [] (by simp) d hd
  · rw [toString36_nat]
    unfold padStart0
    simp only [String.length_append, String.length_mk, List.length_replicate, List.length_map]
    omega
  · intro hn
    rw [toString36_nat]
    unfold padStart0
    have hl := digits36_length (n + 1) n [] 5 hn (by norm_num)
    simp only [String.length_append, String.length_mk, List.length_replicate, List.length_map]
    simp only [List.length_nil] at hl
    omega
  · rw [toString36_nat]
    unfold parse36 padStart0
    simp only [String.toList, String.data_append]
    rw [foldl_zeros, digits36_value (n + 1) n [] (by omega)]
    simp

/-! ## Lemmas on the signature -/

theorem digitChar_decimal : ∀ d : Fin 10, (Nat.digitChar d.val).isDigit = true ∧
    (Nat.digitChar d.val).toNat - 48 = d.val := by
  decide

/-- Reading the decimal digits of `Nat.toDigitsCore` gives the number back. -/
theorem toDigitsCore_value : ∀ (fuel n : Nat) (ds : List Char), n < fuel →
    (Nat.toDigitsCore 10 fuel n ds).foldl (fun acc c => acc * 10 + (c.toNat - 48)) 0
      = ds.foldl (fun acc c => acc * 10 + (c.toNat - 48)) n := by
  intro fuel
  induction fuel with
  | zero => intro n ds h; omega
  | succ f ih =>
    intro n ds h
    have hd := (digitChar_decimal ⟨n % 10, Nat.mod_lt _ (by norm_num)⟩).2
    simp only at hd
    by_cases hq : n / 10 = 0
    · have hn : n % 10 = n := by omega
      simp only [Nat.toDigitsCore, hq, if_true, List.foldl_cons, hd]
      rw [hn]; simp
    · have hlt : n / 10 < f := by omega
      simp only [Nat.toDigitsCore, hq, if_false]
      rw [ih (n / 10) _ hlt]
      simp only [List.foldl_cons, hd]
      have : n / 10 * 10 + n % 10 = n := by omega
      rw [this]

theorem toDigitsCore_isDigit : ∀ (fuel n : Nat) (ds : List Char),
    (∀ c ∈ ds, c.isDigit = true) →
      ∀ c ∈ Nat.toDigitsCore 10 fuel n ds, c.isDigit = true := by
  intro fuel
  induction fuel with
  | zero => intro n ds h; simpa [Nat.toDigitsCore] using h
  | succ f ih =>
    intro n ds h
    have hd := (digitChar_decimal ⟨n % 10, Nat.mod_lt _ (by norm_num)⟩).1
    simp only at hd
    have hcons : ∀ c ∈ Nat.digitChar (n % 10) :: ds, c.isDigit = true := by
      intro c hc
      rcases List.mem_cons.mp hc with rfl | hc
      · exact hd
      · exact h c hc
    by_cases hq : n / 10 = 0
    · simpa [Nat.toDigitsCore, hq] using hcons
    · simp only [Nat.toDigitsCore, hq, if_false]
      exact ih _ _ hcons

theorem toDigits_inj (n m : Nat) (h : Nat.toDigits 10 n = Nat.toDigits 10 m) : n = m := by
  have h1 := toDigitsCore_value (n + 1) n [] (by omega)
  have h2 := toDigitsCore_value (m + 1) m [] (by omega)
  unfold Nat.toDigits at h
  rw [h] at h1
  rw [h1] at h2
  simpa using h2

theorem toDigits_isDigit (n : Nat) : ∀ c ∈ Nat.toDigits 10 n, c.isDigit = true :=
  toDigitsCore_isDigit (n + 1) n [] (by simp)

/-- The characters of the decimal text of an integer. -/
theorem toString_int_data (x : Int) :
    (toString x).data = match x with
      | Int.ofNat m => Nat.toDigits 10 m
      | Int.negSucc m => '-' :: Nat.toDigits 10 (m + 1) := by
  cases x <;> rfl

theorem toString_int_no_comma (x : Int) : ',' ∉ (toString x).data := by
  rw [toString_int_data]
  intro h
  cases x with
  | ofNat m =>
    have := toDigits_isDigit m ',' h
    exact absurd this (by decide)
  | negSucc m =>
    rcases List.mem_cons.mp h with h | h
    · exact absurd h (by decide)
    · have := toDigits_isDigit (m + 1) ',' h
      exact absurd this (by decide)

theorem toString_int_inj (x y : Int) (h : toString x = toString y) : x = y := by
  have hd : (toString x).data = (toString y).data := by rw [h]
  rw [toString_int_data, toString_int_data] at hd
  cases x with
  | ofNat m =>
    cases y with
    | ofNat k => rw [toDigits_inj m k hd]
    | negSucc k =>
      exfalso
      have hmem : '-' ∈ Nat.toDigits 10 m := by
        simp only at hd
        rw [hd]; exact List.mem_cons_self _ _
      exact absurd (toDigits_isDigit m '-' hmem) (by decide)
  | negSucc m =>
    cases y with
    | ofNat k =>
      exfalso
      have hmem : '-' ∈ Nat.toDigits 10 k := by
        simp only at hd
        rw [← hd]; exact List.mem_cons_self _ _
      exact absurd (toDigits_isDigit k '-' hmem) (by decide)
    | negSucc k =>
      simp only [List.cons.injEq, true_and] at hd
      have := toDigits_inj _ _ hd
      congr 1
      omega

theorem intercalate_go_data (sep : String) :
    ∀ (rest : List String) (acc : String),
      (String.intercalate.go acc sep rest).data
        = acc.data ++ rest.flatMap (fun x => sep.data ++ x.data) := by
  intro rest
  induction rest with
  | nil => intro acc; simp [String.intercalate.go]
  | cons a as ih =>
    intro acc
    simp only [String.intercalate.go, ih, String.data_append, List.flatMap_cons,
      List.append_assoc]

/-- Two texts that are free of commas and are followed by nothing or by a comma: equal
concatenations have equal parts. -/
theorem split_at_comma : ∀ (s t r1 r2 : List Char), ',' ∉ s → ',' ∉ t →
    (r1 = [] ∨ ∃ u, r1 = ',' :: u) → (r2 = [] ∨ ∃ u, r2 = ',' :: u) →
    s ++ r1 = t ++ r2 → s = t ∧ r1 = r2 := by
  intro s
  induction s with
  | nil =>
    intro t r1 r2 _ ht h1 h2 h
    cases t with
    | nil => exact ⟨rfl, by simpa using h⟩
    | cons d t1 =>
      exfalso
      simp only [List.nil_append, List.cons_append] at h
      rcases h1 with rfl | ⟨u, rfl⟩
      · cases h
      · simp only [List.cons.injEq] at h
        apply ht
        rw [← h.1]
        exact List.mem_cons_self _ _
  | cons c s1 ih =>
    intro t r1 r2 hs ht h1 h2 h
    cases t with
    | nil =>
      exfalso
      simp only [List.nil_append, List.cons_append] at h
      rcases h2 with rfl | ⟨u, rfl⟩
      · cases h
      · simp only [List.cons.injEq] at h
        apply hs
        rw [h.1]
        exact List.mem_cons_self _ _
    | cons d t1 =>
      simp only [List.cons_append, List.cons.injEq] at h
      obtain ⟨hcd, hrest⟩ := h
      have hs1 : ',' ∉ s1 := fun hx => hs (List.mem_cons_of_mem _ hx)
      have ht1 : ',' ∉ t1 := fun hx => ht (List.mem_cons_of_mem _ hx)
      obtain ⟨e1, e2⟩ := ih t1 r1 r2 hs1 ht1 h1 h2 hrest
      exact ⟨by rw [hcd, e1], e2⟩

theorem tail_shape (xs : List String) :
    xs.flatMap (fun x => ("," : String).data ++ x.data) = [] ∨
      ∃ u, xs.flatMap (fun x => ("," : String).data ++ x.data) = ',' :: u := by
  cases xs with
  | nil => exact Or.inl rfl
  | cons a as => exact Or.inr ⟨_, rfl⟩

theorem tails_inj : ∀ (xs ys : List String), xs.length = ys.length →
    (∀ x ∈ xs, ',' ∉ x.data) → (∀ y ∈ ys, ',' ∉ y.data) →
    xs.flatMap (fun x => ("," : String).data ++ x.data)
      = ys.flatMap (fun x => ("," : String).data ++ x.data) → xs = ys := by
  intro xs
  induction xs with
  | nil =>
    intro ys hlen _ _ _
    cases ys with
    | nil => rfl
    | cons _ _ => simp at hlen
  | cons a as ih =>
    intro ys hlen hx hy h
    cases ys with
    | nil => simp at hlen
    | cons b bs =>
      simp only [List.flatMap_cons] at h
      have h' : a.data ++ as.flatMap (fun x => ("," : String).data ++ x.data)
          = b.data ++ bs.flatMap (fun x => ("," : String).data ++ x.data) := by
        simp only [List.append_assoc, List.singleton_append, List.cons_append,
          List.nil_append, List.cons.injEq, true_and] at h
        exact h
      obtain ⟨e1, e2⟩ := split_at_comma _ _ _ _ (hx a (List.mem_cons_self _ _))
        (hy b (List.mem_cons_self _ _)) (tail_shape as) (tail_shape bs) h'
      have hab : a = b := String.ext e1
      have := ih bs (by simpa using hlen) (fun x hm => hx x (List.mem_cons_of_mem _ hm))
        (fun y hm => hy y (List.mem_cons_of_mem _ hm)) e2
      rw [hab, this]

/-- The JSON text determines the integer array, among arrays of one length. -/
theorem jsonInts_inj (l1 l2 : List Int) (hlen : l1.length = l2.length)
    (h : jsonInts l1 = jsonInts l2) : l1 = l2 := by
  have hd : (jsonInts l1).data = (jsonInts l2).data := by rw [h]
  unfold jsonInts at hd
  simp only [String.data_append] at hd
  simp only [List.append_assoc, List.singleton_append, List.cons.injEq, true_and] at hd
  have hbody := List.append_cancel_right hd
  have hstr : l1.map toString = l2.map toString := by
    cases l1 with
    | nil =>
      cases l2 with
      | nil => rfl
      | cons _ _ => simp at hlen
    | cons a as =>
      cases l2 with
      | nil => simp at hlen
      | cons b bs =>
        simp only [List.map_cons, String.intercalate, intercalate_go_data] at hbody
        have hbody2 : (toString a).data
              ++ (as.map toString).flatMap (fun x => ("," : String).data ++ x.data)
            = (toString b).data
              ++ (bs.map toString).flatMap (fun x => ("," : String).data ++ x.data) :=
          (List.cons.inj hbody).2
        obtain ⟨e1, e2⟩ := split_at_comma _ _ _ _ (toString_int_no_comma a)
          (toString_int_no_comma b) (tail_shape (as.map toString))
          (tail_shape (bs.map toString)) hbody2
        have e3 := tails_inj (as.map toString) (bs.map toString) (by simpa using hlen)
          (fun x hx => by
            obtain ⟨z, _, rfl⟩ := List.mem_map.mp hx
            exact toString_int_no_comma z)
          (fun x hx => by
            obtain ⟨z, _, rfl⟩ := List.mem_map.mp hx
            exact toString_int_no_comma z) e2
        simp only [List.map_cons]
        rw [String.ext e1, e3]
  exact List.map_injective_iff.mpr (fun x y hxy => toString_int_inj x y hxy) hstr

theorem list_of_length_five {α : Type} (l : List α) (h : l.length = 5) :
    ∃ x0 x1 x2 x3 x4, l = [x0, x1, x2, x3, x4] := by
  match l, h with
  | [x0, x1, x2, x3, x4], _ => exact ⟨x0, x1, x2, x3, x4, rfl⟩

/-- On a 5 x 5 grid of 32-bit integers `flatCells` lists the cells column after column. -/
theorem flatCells_grid (a : List (List Int)) (ha : IsGrid32 a) :
    flatCells a = a.flatten ∧
      ∀ ci ri : Nat, ci < 5 → ri < 5 →
        a.flatten.getD (5 * ci + ri) 0 = (a.getD ci []).getD ri 0 := by
  obtain ⟨hlen, hcols⟩ := ha
  obtain ⟨c0, c1, c2, c3, c4, rfl⟩ := list_of_length_five a hlen
  obtain ⟨l0, r0⟩ := hcols c0 (by simp)
  obtain ⟨l1, r1⟩ := hcols c1 (by simp)
  obtain ⟨l2, r2⟩ := hcols c2 (by simp)
  obtain ⟨l3, r3⟩ := hcols c3 (by simp)
  obtain ⟨l4, r4⟩ := hcols c4 (by simp)
  obtain ⟨x00, x01, x02, x03, x04, rfl⟩ := list_of_length_five c0 l0
  obtain ⟨x10, x11, x12, x13, x14, rfl⟩ := list_of_length_five c1 l1
  obtain ⟨x20, x21, x22, x23, x24, rfl⟩ := list_of_length_five c2 l2
  obtain ⟨x30, x31, x32, x33, x34, rfl⟩ := list_of_length_five c3 l3
  obtain ⟨x40, x41, x42, x43, x44, rfl⟩ := list_of_length_five c4 l4
  constructor
  · have e : ∀ c : List Int, ∀ x ∈ c, (∀ y ∈ c, InInt32 y) → toInt32 x = x :=
      fun c x hx hc => toInt32_of_range x (hc x hx)
    simp only [flatCells, List.range, List.range.loop, List.flatMap_cons, List.flatMap_nil,
      List.map_cons, List.map_nil, List.getD_cons_zero, List.getD_cons_succ, List.flatten,
      List.append_nil, List.cons_append, List.nil_append]
    rw [e _ x00 (by simp) r0, e _ x01 (by simp) r0, e _ x02 (by simp) r0, e _ x03 (by simp) r0,
      e _ x04 (by simp) r0, e _ x10 (by simp) r1, e _ x11 (by simp) r1, e _ x12 (by simp) r1,
      e _ x13 (by simp) r1, e _ x14 (by simp) r1, e _ x20 (by simp) r2, e _ x21 (by simp) r2,
      e _ x22 (by simp) r2, e _ x23 (by simp) r2, e _ x24 (by simp) r2, e _ x30 (by simp) r3,
      e _ x31 (by simp) r3, e _ x32 (by simp) r3, e _ x33 (by simp) r3, e _ x34 (by simp) r3,
      e _ x40 (by simp) r4, e _ x41 (by simp) r4, e _ x42 (by simp) r4, e _ x43 (by simp) r4,
      e _ x44 (by simp) r4]
  · intro ci ri hci hri
    interval_cases ci <;> interval_cases ri <;> rfl

theorem flatten_grid_inj (a b : List (List Int)) (ha : IsGrid32 a) (hb : IsGrid32 b)
    (h : a.flatten = b.flatten) : a = b := by
  obtain ⟨hlen, hcols⟩ := ha
  obtain ⟨hlenb, hcolsb⟩ := hb
  obtain ⟨c0, c1, c2, c3, c4, rfl⟩ := list_of_length_five a hlen
  obtain ⟨d0, d1, d2, d3, d4, rfl⟩ := list_of_length_five b hlenb
  obtain ⟨x00, x01, x02, x03, x04, rfl⟩ := list_of_length_five c0 (hcols c0 (by simp)).1
  obtain ⟨x10, x11, x12, x13, x14, rfl⟩ := list_of_length_five c1 (hcols c1 (by simp)).1
  obtain ⟨x20, x21, x22, x23, x24, rfl⟩ := list_of_length_five c2 (hcols c2 (by simp)).1
  obtain ⟨x30, x31, x32, x33, x34, rfl⟩ := list_of_length_five c3 (hcols c3 (by simp)).1
  obtain ⟨x40, x41, x42, x43, x44, rfl⟩ := list_of_length_five c4 (hcols c4 (by simp)).1
  obtain ⟨y00, y01, y02, y03, y04, rfl⟩ := list_of_length_five d0 (hcolsb d0 (by simp)).1
  obtain ⟨y10, y11, y12, y13, y14, rfl⟩ := list_of_length_five d1 (hcolsb d1 (by simp)).1
  obtain ⟨y20, y21, y22, y23, y24, rfl⟩ := list_of_length_five d2 (hcolsb d2 (by simp)).1
  obtain ⟨y30, y31, y32, y33, y34, rfl⟩ := list_of_length_five d3 (hcolsb d3 (by simp)).1
  obtain ⟨y40, y41, y42, y43, y44, rfl⟩ := list_of_length_five d4 (hcolsb d4 (by simp)).1
  simp only [List.flatten, List.cons_append, List.nil_append, List.append_nil,
    List.cons.injEq, and_true] at h
  simp only [List.cons.injEq, and_true]
  tauto

theorem sign_canonical (a b : List (List Int)) (ha : IsGrid32 a) (hb : IsGrid32 b) :
    (sign a = sign b ↔ a = b) ∧ sign a = jsonInts a.flatten ∧ a.flatten.length = 25 ∧
      ∀ ci ri : Nat, ci < 5 → ri < 5 →
        a.flatten.getD (5 * ci + ri) 0 = (a.getD ci []).getD ri 0 := by
  obtain ⟨fa, ia⟩ := flatCells_grid a ha
  obtain ⟨fb, _⟩ := flatCells_grid b hb
  have hla : a.flatten.length = 25 := by
    obtain ⟨hlen, hcols⟩ := ha
    obtain ⟨c0, c1, c2, c3, c4, rfl⟩ := list_of_length_five a hlen
    simp [(hcols c0 (by simp)).1, (hcols c1 (by simp)).1, (hcols c2 (by simp)).1,
      (hcols c3 (by simp)).1, (hcols c4 (by simp)).1]
  have hlb : b.flatten.length = 25 := by
    obtain ⟨hlen, hcols⟩ := hb
    obtain ⟨c0, c1, c2, c3, c4, rfl⟩ := list_of_length_five b hlen
    simp [(hcols c0 (by simp)).1, (hcols c1 (by simp)).1, (hcols c2 (by simp)).1,
      (hcols c3 (by simp)).1, (hcols c4 (by simp)).1]
  refine ⟨⟨?_, fun h => by rw [h]⟩, ?_, hla, ia⟩
  · intro h
    unfold sign at h
    rw [fa, fb] at h
    exact flatten_grid_inj a b ha hb (jsonInts_inj _ _ (by rw [hla, hlb]) h)
  · unfold sign
    rw [fa]

/-! ## Serial and signature: the claims -/

/-- Claim C17. On 5 x 5 grids of integers of the signed 32-bit range `sign` is a canonical
uniqueness key: two grids have the same signature exactly when they are equal cell by cell;
the signature is the JSON array of the 25 cells listed column after column, the cell of
column `ci` and row `ri` at position `5 ci + ri`. -/
theorem C17_sign_canonical (a b : List (List Int)) (ha : IsGrid32 a) (hb : IsGrid32 b) :
    (sign a = sign b ↔ a = b) ∧ sign a = jsonInts a.flatten ∧ a.flatten.length = 25 ∧
      ∀ ci ri : Nat, ci < 5 → ri < 5 →
        a.flatten.getD (5 * ci + ri) 0 = (a.getD ci []).getD ri 0 :=
  sign_canonical a b ha hb

/-- Witness of C17: two grids that differ in their first two cells. -/
theorem C17_witness :
    IsGrid32 gridConst ∧ IsGrid32 gridOther ∧
      (sign gridConst = sign gridOther ↔ gridConst = gridOther) :=
  ⟨by decide, by decide, (C17_sign_canonical gridConst gridOther (by decide) (by decide)).1⟩

/-- Claim C18. For every event id and every non-negative integer `seq`, `makeSerial` returns
`BF-` P `-` S `-` R, where P is the event id with the non-alphanumeric characters removed,
upper-cased and cut to 12 characters (so P has at most 12 characters, all `A-Z` or `0-9`),
and S is made of characters `0-9`, `A-Z`, has at least 5 characters and exactly 5 when
`seq < 36^5`, and denotes `seq` when read as a base-36 numeral. -/
theorem C18_makeSerial_format (eventId rand : String) (seq : Nat) :
    ∃ P S : String,
      makeSerial eventId (seq : Int) rand = "BF-" ++ P ++ "-" ++ S ++ "-" ++ rand ∧
      P = String.mk (((eventId.toList.filter Char.isAlphanum).map Char.toUpper).take 12) ∧
      P.length ≤ 12 ∧ (∀ c ∈ P.toList, upperAlnum c = true) ∧
      (∀ c ∈ S.toList, upperAlnum c = true) ∧ 5 ≤ S.length ∧
      (seq < 36 ^ 5 → S.length = 5) ∧ parse36 S = seq :=
  makeSerial_format eventId rand seq

/-! ## Lemmas on the expiry sweep, order by order -/

theorem map_ne_self_iff {α : Type} (f : α → α) (l : List α) :
    l.map f ≠ l ↔ ∃ x ∈ l, f x ≠ x := by
  induction l with
  | nil => simp
  | cons a t ih =>
    by_cases ha : f a = a
    · simp only [List.map_cons, ha, ne_eq, List.cons.injEq, true_and, List.mem_cons,
        exists_eq_or_imp, not_true_eq_false, false_or]
      exact ih
    · simp only [List.map_cons, ne_eq, List.cons.injEq, not_and, List.mem_cons,
        exists_eq_or_imp]
      constructor
      · intro _; exact Or.inl ha
      · intro _ h; exact absurd h ha

theorem forall₂_map_self {α β : Type} (R : α → β → Prop) (f : α → β) (l : List α)
    (h : ∀ x ∈ l, R x (f x)) : List.Forall₂ R l (l.map f) := by
  induction l with
  | nil => exact List.Forall₂.nil
  | cons a t ih =>
    exact List.Forall₂.cons (h a (List.mem_cons_self a t))
      (ih (fun x hx => h x (List.mem_cons_of_mem a hx)))

theorem expireOne_flag (cfg : Config) (now : Int) (o : Order) :
    (expireOne cfg now o).2 = true ↔ (expireOne cfg now o).1 ≠ o := by
  unfold expireOne
  by_cases hs : o.status ≠ "PENDING_PAYMENT"
  · simp [hs]
  · have hs2 : o.status = "PENDING_PAYMENT" := not_not.mp hs
    rw [if_neg hs]
    cases he : o.expires_at with
    | absent =>
      simp only [true_iff, ne_eq]
      intro h
      have := congrArg Order.expires_at h
      rw [he] at this
      cases this
    | invalid raw => simp
    | «at» ms =>
      by_cases hd : ms ≤ now
      · simp only [hd, if_true, true_iff, ne_eq]
        intro h
        have h1 : ("EXPIRED" : String) = o.status := congrArg Order.status h
        rw [hs2] at h1
        revert h1; decide
      · simp [hd]

theorem expireOne_status_spec (cfg : Config) (now : Int) (o : Order) :
    (((expireOne cfg now o).1.status = "EXPIRED" ∧ o.status ≠ "EXPIRED") ↔
      (o.status = "PENDING_PAYMENT" ∧ ∃ ms, o.expires_at = DateField.at ms ∧ ms ≤ now)) ∧
    (o.status ≠ "PENDING_PAYMENT" → (expireOne cfg now o).1 = o) ∧
    (∀ ms, o.status = "PENDING_PAYMENT" → o.expires_at = DateField.at ms → now < ms →
      (expireOne cfg now o).1 = o) := by
  unfold expireOne
  by_cases hs : o.status ≠ "PENDING_PAYMENT"
  · rw [if_pos hs]
    refine ⟨⟨fun h => absurd h.1 h.2, fun h => absurd h.1 hs⟩, fun _ => rfl, fun _ h => absurd h hs⟩
  · have hs2 : o.status = "PENDING_PAYMENT" := not_not.mp hs
    rw [if_neg hs]
    cases he : o.expires_at with
    | absent =>
      refine ⟨⟨fun h => ?_, fun h => ?_⟩, fun h => absurd hs2 h, fun ms _ h => by cases h⟩
      · exfalso
        have h1 := h.1
        dsimp only at h1
        rw [hs2] at h1
        revert h1; decide
      · obtain ⟨_, ms, h, _⟩ := h
        cases h
    | invalid raw =>
      refine ⟨⟨fun h => ?_, fun h => ?_⟩, fun h => absurd hs2 h, fun ms _ h => by cases h⟩
      · exfalso
        have h1 := h.1
        dsimp only at h1
        rw [hs2] at h1
        revert h1; decide
      · obtain ⟨_, ms, h, _⟩ := h
        cases h
    | «at» ms =>
      by_cases hd : ms ≤ now
      · dsimp only
        rw [if_pos hd]
        refine ⟨⟨fun _ => ⟨hs2, ms, rfl, hd⟩, fun _ => ⟨rfl, ?_⟩⟩, fun h => absurd hs2 h, ?_⟩
        · rw [hs2]; decide
        · intro ms2 _ h hlt
          cases h
          omega
      · dsimp only
        rw [if_neg hd]
        refine ⟨⟨fun h => ?_, fun h => ?_⟩, fun _ => rfl, fun _ _ _ _ => rfl⟩
        · exfalso
          have h1 := h.1
          rw [hs2] at h1
          revert h1; decide
        · obtain ⟨_, ms2, h, hle⟩ := h
          cases h
          exact absurd hle hd

theorem expireOne_backfill (cfg : Config) (now : Int) (o : Order)
    (hs : o.status = "PENDING_PAYMENT") (he : o.expires_at = DateField.absent) :
    (expireOne cfg now o).1
      = { o with expires_at := DateField.at (createdOrNow now o + cfg.ttlMin * 60 * 1000) } := by
  unfold expireOne
  rw [if_neg (by simp [hs])]
  simp only [he]

theorem createdOrNow_parsed (now : Int) (o : Order) (ms : Int)
    (h : o.created_at = DateField.at ms) (h0 : ms ≠ 0) : createdOrNow now o = ms := by
  unfold createdOrNow
  simp only [h, h0, if_false]

theorem createdOrNow_fallback (now : Int) (o : Order)
    (h : ∀ ms, o.created_at = DateField.at ms → ms = 0) : createdOrNow now o = now := by
  unfold createdOrNow
  cases hc : o.created_at with
  | absent => rfl
  | invalid raw => rfl
  | «at» ms => simp only [h ms hc, if_true]

theorem expireOne_has_deadline (cfg : Config) (now : Int) (o : Order)
    (h : (expireOne cfg now o).1.status = "PENDING_PAYMENT") :
    (expireOne cfg now o).1.expires_at ≠ DateField.absent := by
  by_cases hs : o.status = "PENDING_PAYMENT"
  · cases he : o.expires_at with
    | absent =>
      rw [expireOne_backfill cfg now o hs he]
      intro h2
      cases h2
    | invalid raw =>
      have h1 : (expireOne cfg now o).1 = o := by
        unfold expireOne
        rw [if_neg (by simp [hs])]
        simp only [he]
      rw [h1, he]
      intro h2
      cases h2
    | «at» ms =>
      by_cases hd : ms ≤ now
      · rw [expireOne_due cfg now o ms hs he hd] at h
        have h1 : ("EXPIRED" : String) = "PENDING_PAYMENT" := h
        exact absurd h1 (by decide)
      · have h1 : (expireOne cfg now o).1 = o := by
          unfold expireOne
          rw [if_neg (by simp [hs])]
          simp only [he, hd, if_false]
        rw [h1, he]
        intro h2
        cases h2
  · rw [expireOne_other_status cfg now o hs] at h
    exact absurd h hs


/-! ## Expiry sweep: the claims -/

/-- Claim C21, amended. When the backfill of some order throws, `expirePendingOrders`
throws `RangeError` and stores nothing. Otherwise it returns, and maps the orders position
by position: an order ends `EXPIRED` without having been `EXPIRED` before exactly when it
had status `PENDING_PAYMENT` and an `expires_at` that parses to an instant at or before
`now`; an order with another status, and a `PENDING_PAYMENT` order whose deadline is later
than `now`, is left as it was, status included; and the value returned is `true` if and only
if the list of orders it leaves differs from the one it found. -/
theorem C21_sweep_expires_exactly_due_pending (cfg : Config) (now : Int) (db : DB) :
    ((∃ o ∈ db.orders, BackfillThrows cfg now o) →
      expirePendingOrdersOrThrow cfg now db = Except.error "RangeError: Invalid time value") ∧
    ((∀ o ∈ db.orders, ¬ BackfillThrows cfg now o) →
      ∃ (after : DB) (changed : Bool),
        expirePendingOrdersOrThrow cfg now db = Except.ok (after, changed) ∧
        List.Forall₂
          (fun o o' =>
            ((o'.status = "EXPIRED" ∧ o.status ≠ "EXPIRED") ↔
              (o.status = "PENDING_PAYMENT" ∧
                ∃ ms, o.expires_at = DateField.at ms ∧ ms ≤ now)) ∧
            (o.status ≠ "PENDING_PAYMENT" → o' = o) ∧
            (∀ ms, o.status = "PENDING_PAYMENT" → o.expires_at = DateField.at ms → now < ms →
              o' = o))
          db.orders after.orders ∧
        (changed = true ↔ after.orders ≠ db.orders)) := by
  constructor
  · intro h
    unfold expirePendingOrdersOrThrow
    rw [if_pos h]
  · intro h
    refine ⟨(expirePendingOrders cfg now db).1, (expirePendingOrders cfg now db).2, ?_, ?_, ?_⟩
    · unfold expirePendingOrdersOrThrow
      rw [if_neg (by rintro ⟨o, ho, ht⟩; exact h o ho ht)]
    · exact forall₂_map_self _ _ _ (fun o _ => expireOne_status_spec cfg now o)
    · show (db.orders.any (fun o => (expireOne cfg now o).2) = true ↔
        db.orders.map (fun o => (expireOne cfg now o).1) ≠ db.orders)
      rw [map_ne_self_iff, List.any_eq_true]
      constructor
      · rintro ⟨o, ho, h⟩
        exact ⟨o, ho, (expireOne_flag cfg now o).mp h⟩
      · rintro ⟨o, ho, h⟩
        exact ⟨o, ho, (expireOne_flag cfg now o).mpr h⟩

/-- Witness of C21: the only order of `storePendingDue` is `PENDING_PAYMENT` with a deadline
at instant 1000, so no backfill can throw; the sweep at instant 2000 returns `true` and the
order ends `EXPIRED`. -/
theorem C21_witness :
    (∀ o ∈ storePendingDue.orders, ¬ BackfillThrows {} 2000 o) ∧
    (∃ (after : DB) (changed : Bool),
      expirePendingOrdersOrThrow {} 2000 storePendingDue = Except.ok (after, changed) ∧
      after.orders.map (fun o => o.status) = ["EXPIRED"] ∧ changed = true) := by
  refine ⟨by decide, ?_⟩
  obtain ⟨after, changed, hrun, _, hflag⟩ :=
    (C21_sweep_expires_exactly_due_pending {} 2000 storePendingDue).2 (by decide)
  have hok : expirePendingOrdersOrThrow {} 2000 storePendingDue
      = Except.ok (expirePendingOrders {} 2000 storePendingDue) := by
    unfold expirePendingOrdersOrThrow
    rw [if_neg (by decide)]
  rw [hok] at hrun
  have hpair : expirePendingOrders {} 2000 storePendingDue = (after, changed) :=
    Except.ok.inj hrun
  have hafter : after = (expirePendingOrders {} 2000 storePendingDue).1 := by rw [hpair]
  have hst : after.orders.map (fun o => o.status) = ["EXPIRED"] := by
    rw [hafter]; decide
  refine ⟨after, changed, by rw [hok, hpair], hst, hflag.mpr ?_⟩
  intro h
  have h2 := congrArg (fun l => l.map (fun o => o.status)) h
  rw [show (fun l => l.map (fun o => o.status)) after.orders = ["EXPIRED"] from hst] at h2
  revert h2
  decide

set_option maxRecDepth 100000 in
/-- Counterexample to C21: in `storeDueAndUndatable` order `o1` is `PENDING_PAYMENT` with a
deadline at instant 1000, and order `o2` lacks `expires_at` and was created at the last
instant a `Date` holds. The sweep at instant 2000 with the default TTL throws `RangeError`
at the backfill of `o2`: it returns no value and stores nothing, so `o1` is not `EXPIRED`. -/
theorem C21_counterexample :
    storeDueAndUndatable.orders.map (fun o => (o.id, o.status, o.created_at, o.expires_at))
      = [("o1", "PENDING_PAYMENT", DateField.absent, DateField.at 1000),
         ("o2", "PENDING_PAYMENT", DateField.at 8640000000000000, DateField.absent)] ∧
    expirePendingOrdersOrThrow {} 2000 storeDueAndUndatable
      = Except.error "RangeError: Invalid time value" := by
  refine ⟨by decide, ?_⟩
  unfold expirePendingOrdersOrThrow
  rw [if_pos (by decide)]

/-- Claim C22, amended. When the backfill of some order throws, `expirePendingOrders` throws
`RangeError` and stores nothing. Otherwise it returns, and for every `PENDING_PAYMENT` order
lacking `expires_at` it leaves the status `PENDING_PAYMENT`, whatever the computed deadline,
and sets `expires_at` to `created_at` + TTL minutes when `created_at` parses to an instant
other than `0`, and to `now` + TTL minutes when `created_at` is missing, does not parse, or
parses to the instant `0`; after a run that returns every `PENDING_PAYMENT` order has an
`expires_at`; the TTL, a whole number of minutes, defaults to 30. -/
theorem C22_backfill_keeps_pending (cfg : Config) (now : Int) (db : DB) :
    ((∃ o ∈ db.orders, BackfillThrows cfg now o) →
      expirePendingOrdersOrThrow cfg now db = Except.error "RangeError: Invalid time value") ∧
    ((∀ o ∈ db.orders, ¬ BackfillThrows cfg now o) →
      ∃ (after : DB) (changed : Bool),
        expirePendingOrdersOrThrow cfg now db = Except.ok (after, changed) ∧
        List.Forall₂
          (fun o o' =>
            o.status = "PENDING_PAYMENT" → o.expires_at = DateField.absent →
              o'.status = "PENDING_PAYMENT" ∧
              (∀ ms, o.created_at = DateField.at ms → ms ≠ 0 →
                o'.expires_at = DateField.at (ms + cfg.ttlMin * 60 * 1000)) ∧
              ((∀ ms, o.created_at = DateField.at ms → ms = 0) →
                o'.expires_at = DateField.at (now + cfg.ttlMin * 60 * 1000)))
          db.orders after.orders ∧
        (∀ o' ∈ after.orders,
          o'.status = "PENDING_PAYMENT" → o'.expires_at ≠ DateField.absent)) ∧
    ({} : Config).ttlMin = 30 := by
  refine ⟨?_, ?_, rfl⟩
  · intro h
    unfold expirePendingOrdersOrThrow
    rw [if_pos h]
  · intro h
    refine ⟨(expirePendingOrders cfg now db).1, (expirePendingOrders cfg now db).2, ?_, ?_, ?_⟩
    · unfold expirePendingOrdersOrThrow
      rw [if_neg (by rintro ⟨o, ho, ht⟩; exact h o ho ht)]
    · refine forall₂_map_self _ _ _ (fun o _ hs he => ?_)
      rw [expireOne_backfill cfg now o hs he]
      refine ⟨hs, fun ms hc h0 => ?_, fun h => ?_⟩
      · show DateField.at (createdOrNow now o + cfg.ttlMin * 60 * 1000) = _
        rw [createdOrNow_parsed now o ms hc h0]
      · show DateField.at (createdOrNow now o + cfg.ttlMin * 60 * 1000) = _
        rw [createdOrNow_fallback now o h]
    · intro o' ho'
      change o' ∈ db.orders.map (fun o => (expireOne cfg now o).1) at ho'
      obtain ⟨o, _, rfl⟩ := List.mem_map.mp ho'
      exact expireOne_has_deadline cfg now o

/-- Witness of C22: the order of `storeLegacyDated` was created at instant 1000 and has no
`expires_at`; the sweep at instant 5000000 with the default TTL returns, stores the
deadline 1801000, already past, and the order is still `PENDING_PAYMENT`. -/
theorem C22_witness :
    (∀ o ∈ storeLegacyDated.orders, ¬ BackfillThrows {} 5000000 o) ∧
    (∃ (after : DB) (changed : Bool),
      expirePendingOrdersOrThrow {} 5000000 storeLegacyDated = Except.ok (after, changed) ∧
      after.orders.map (fun o => (o.status, o.expires_at))
        = [("PENDING_PAYMENT", DateField.at 1801000)] ∧
      ∀ o' ∈ after.orders,
        o'.status = "PENDING_PAYMENT" → o'.expires_at ≠ DateField.absent) := by
  refine ⟨by decide, ?_⟩
  obtain ⟨after, changed, hrun, _, hall⟩ :=
    (C22_backfill_keeps_pending {} 5000000 storeLegacyDated).2.1 (by decide)
  have hok : expirePendingOrdersOrThrow {} 5000000 storeLegacyDated
      = Except.ok (expirePendingOrders {} 5000000 storeLegacyDated) := by
    unfold expirePendingOrdersOrThrow
    rw [if_neg (by decide)]
  have hpair : expirePendingOrders {} 5000000 storeLegacyDated = (after, changed) := by
    rw [hok] at hrun
    exact Except.ok.inj hrun
  have hafter : after = (expirePendingOrders {} 5000000 storeLegacyDated).1 := by rw [hpair]
  exact ⟨after, changed, hrun, by rw [hafter]; decide, hall⟩

set_option maxRecDepth 100000 in
/-- Counterexample to C22. The two orders of `storeLegacyPending` are `PENDING_PAYMENT`
without `expires_at`; `o1` has no `created_at` and `o2` was created at the instant `0`. The
sweep at instant 5000000 with the default TTL of 30 minutes returns and stores the deadline
`now` + TTL = 6800000 in both; for `o2`, `created_at` + TTL is 1800000. And in
`storeDueAndUndatable`, where `o2` lacks `expires_at` and was created at the last instant a
`Date` holds, the sweep throws `RangeError`: no `expires_at` is stored. -/
theorem C22_counterexample :
    storeLegacyPending.orders.map (fun o => (o.id, o.status, o.created_at, o.expires_at))
      = [("o1", "PENDING_PAYMENT", DateField.absent, DateField.absent),
         ("o2", "PENDING_PAYMENT", DateField.at 0, DateField.absent)] ∧
    (expirePendingOrdersOrThrow {} 5000000 storeLegacyPending).toOption.map
        (fun r => r.1.orders.map (fun o => (o.id, o.expires_at)))
      = some [("o1", DateField.at 6800000), ("o2", DateField.at 6800000)] ∧
    DateField.at 6800000 ≠ DateField.at (0 + 30 * 60 * 1000) ∧
    (expirePendingOrdersOrThrow {} 2000 storeDueAndUndatable).toOption = none := by
  refine ⟨by decide, ?_, by decide, ?_⟩
  · unfold expirePendingOrdersOrThrow
    rw [if_neg (by decide)]
    decide
  · unfold expirePendingOrdersOrThrow
    rw [if_pos (by decide)]
    rfl

/-! ## Lemmas on the iteration count -/

theorem issueLoopCounted_fst (env : Env) (order : Order) (total : Int) :
    ∀ (safety : Nat) (st : LoopState),
      (issueLoopCounted env order total safety st).1 = issueLoop env order total safety st := by
  intro safety
  induction safety with
  | zero => intro st; rfl
  | succ n ih =>
    intro st
    by_cases hc : (st.created : Int) < total
    · by_cases hm : sign (genCols env.rand st.pos).1 ∈ st.existing
      · simp only [issueLoopCounted, issueLoop, hc, hm, if_true]
        exact ih _
      · simp only [issueLoopCounted, issueLoop, hc, hm, if_true, if_false]
        exact ih _
    · simp only [issueLoopCounted, issueLoop, hc, if_false]

theorem issueLoopCounted_le (env : Env) (order : Order) (total : Int) :
    ∀ (safety : Nat) (st : LoopState),
      (issueLoopCounted env order total safety st).2 ≤ safety := by
  intro safety
  induction safety with
  | zero => intro st; exact Nat.le_refl 0
  | succ n ih =>
    intro st
    by_cases hc : (st.created : Int) < total
    · by_cases hm : sign (genCols env.rand st.pos).1 ∈ st.existing
      · simp only [issueLoopCounted, hc, hm, if_true]
        exact Nat.succ_le_succ (ih _)
      · simp only [issueLoopCounted, hc, hm, if_true, if_false]
        exact Nat.succ_le_succ (ih _)
    · simp only [issueLoopCounted, hc, if_false]
      exact Nat.zero_le _

theorem loopEnd_created_le (env : Env) (db : DB) (order : Order) :
    ((loopEnd env db order).created : Int) ≤ max 0 (totalCardsOf order) := by
  by_cases hneg : 0 ≤ totalCardsOf order
  · have := issueLoop_created_le env order (totalCardsOf order)
      (totalCardsOf order * 20).toNat (loopStart db order) (by simpa [loopStart] using hneg)
    unfold loopEnd
    rw [max_eq_right hneg]
    exact this
  · have h0 : (totalCardsOf order * 20).toNat = 0 := by omega
    unfold loopEnd
    rw [h0]
    simp [issueLoop, loopStart]

theorem issue_adds_at_most (env : Env) (db : DB) (order : Order) :
    ∃ news : List Ticket,
      (storeAfterIssue env db order).tickets = db.tickets ++ news ∧
      (news.length : Int) ≤ max 0 (totalCardsOf order) := by
  by_cases h : ticketsFor db order.id = []
  · by_cases he : order.event_id = ""
    · refine ⟨[], ?_, ?_⟩
      · rw [(issue_throw env db order h he).2]; simp
      · simp
    · obtain ⟨news, h1, h2, _⟩ := loopEnd_tickets env db order
      refine ⟨news, ?_, ?_⟩
      · rw [(issue_fresh env db order h he).2.1, h1]
      · have := loopEnd_created_le env db order
        rw [h2] at this
        exact this
  · refine ⟨[], ?_, ?_⟩
    · rw [(issue_existing env db order h).2.1]; simp
    · simp


/-! ## Generation loop: the claim -/

/-- Claim C23, amended. For an order whose `combos_count` and `combo_size` are integers in
the range where double arithmetic is exact (`ExactSizes`), the loop of
`generateTicketsForOrder` is a recursion on the retry ceiling `safety`, so it ends for every
store and sequence of draws. With `totalCards = (combos_count || 1) * (combo_size || 6)`,
the counted loop is the loop, it performs at most `20 * totalCards` iterations (none when
that is negative), and the call appends at most `totalCards` tickets to the stored ones. -/
theorem C23_loop_bounded_by_retry_ceiling (env : Env) (db : DB) (order : Order)
    (_hexact : ExactSizes order) :
    (issueLoopCounted env order (totalCardsOf order) (totalCardsOf order * 20).toNat
        (loopStart db order)).1 = loopEnd env db order ∧
    (loopIterations env db order : Int) ≤ max 0 (20 * totalCardsOf order) ∧
    (∃ news : List Ticket,
      (storeAfterIssue env db order).tickets = db.tickets ++ news ∧
      (news.length : Int) ≤ max 0 (totalCardsOf order)) ∧
    totalCardsOf order
      = (if order.combos_count = 0 then 1 else order.combos_count)
        * (if order.combo_size = 0 then 6 else order.combo_size) := by
  refine ⟨issueLoopCounted_fst _ _ _ _ _, ?_, issue_adds_at_most env db order, rfl⟩
  have h := issueLoopCounted_le env order (totalCardsOf order)
    (totalCardsOf order * 20).toNat (loopStart db order)
  unfold loopIterations
  omega

set_option maxRecDepth 100000 in
/-- Witness of C23: order `o2` asks for 2 cards, every draw is `0` and the only grid these
draws give is already used in its event; the loop runs its 40 iterations and appends no
ticket. -/
theorem C23_witness :
    ExactSizes orderSecond ∧
    (loopIterations envConst storeOtherOrder orderSecond : Int)
      ≤ max 0 (20 * totalCardsOf orderSecond) ∧
    loopIterations envConst storeOtherOrder orderSecond = 40 ∧
    (storeAfterIssue envConst storeOtherOrder orderSecond).tickets = storeOtherOrder.tickets :=
  ⟨by decide,
    (C23_loop_bounded_by_retry_ceiling envConst storeOtherOrder orderSecond (by decide)).2.1,
    by decide, by decide⟩

set_option maxRecDepth 100000 in
/-- Counterexample to C23: the order `orderNoSizes` has neither `combos_count` nor
`combo_size`, so `combos_count * combo_size` is `0`; the defaults `1` and `6` apply, and
on the empty store the loop runs 6 iterations and appends 6 tickets. -/
theorem C23_counterexample :
    ExactSizes orderNoSizes ∧
    orderNoSizes.combos_count * orderNoSizes.combo_size = 0 ∧
    loopIterations envSpread {} orderNoSizes = 6 ∧
    (storeAfterIssue envSpread {} orderNoSizes).tickets.length = 6 := by
  decide

/-! ## Lemmas on the sold cards breakdown -/

theorem onlineTickets_eq (db : DB) (eventId : String) :
    onlineTickets db eventId
      = db.tickets.filter (fun t => decide (PaidOrderOfEvent db eventId t.order_id)) := by
  unfold onlineTickets
  apply List.filter_congr
  intro t _
  simp only [decide_eq_decide]
  unfold PaidOrderOfEvent
  simp only [List.mem_map, List.mem_filter, decide_eq_true_eq, Bool.decide_and, Bool.decide_or,
    Bool.and_eq_true, Bool.or_eq_true]
  constructor
  · rintro ⟨o, ⟨ho, he, hs⟩, hid⟩
    exact ⟨o, ho, hid, he, hs⟩
  · rintro ⟨o, ho, hid, he, hs⟩
    exact ⟨o, ⟨ho, he, hs⟩, hid⟩

theorem isOnlineGen_obj (upper : String → String) (tickets : List Ticket) (g : GenEntry) :
    isOnlineGen upper (tickets.map (fun t => t.id)) (GenItem.obj g) = false ↔ ManualEntry upper tickets g := by
  unfold isOnlineGen ManualEntry
  by_cases h1 : truthy g.order_id
  · simp [h1]
  · by_cases h2 : upper (sourceText g) = "ONLINE"
    · simp [h1, h2]
    · by_cases h3 : entryId g = ""
      · simp [h1, h2, h3]
      · simp only [h1, h2, h3, if_false, decide_eq_false_iff_not, List.mem_map, not_exists,
          not_and, not_false_eq_true, ne_eq, true_and, false_or]

theorem manual_prims (upper : String → String) (ids : List String) (n : Nat)
    (tids : List String) :
    (match ids.map GenItem.prim with
      | GenItem.obj _ :: _ =>
        ((ids.map GenItem.prim).filter (fun g => !isOnlineGen upper tids g)).length
      | _ => (ids.map GenItem.prim).length - n) = ids.length - n := by
  cases ids with
  | nil => rfl
  | cons a t => simp

theorem manual_objs (upper : String → String) (gs : List GenEntry) (n : Nat)
    (tickets : List Ticket) :
    (match gs.map GenItem.obj with
      | GenItem.obj _ :: _ =>
        ((gs.map GenItem.obj).filter
          (fun g => !isOnlineGen upper (tickets.map (fun t => t.id)) g)).length
      | _ => (gs.map GenItem.obj).length - n)
      = (gs.filter (fun g => decide (ManualEntry upper tickets g))).length := by
  have hfilter : ∀ l : List GenEntry,
      ((l.map GenItem.obj).filter
        (fun g => !isOnlineGen upper (tickets.map (fun t => t.id)) g)).length
        = (l.filter (fun g => decide (ManualEntry upper tickets g))).length := by
    intro l
    rw [List.filter_map, List.length_map]
    congr 1
    apply List.filter_congr
    intro g _
    have := isOnlineGen_obj upper tickets g
    by_cases hm : ManualEntry upper tickets g
    · simp [hm, this.mpr hm]
    · have hne : isOnlineGen upper (tickets.map (fun t => t.id)) (GenItem.obj g) = true := by
        cases hb : isOnlineGen upper (tickets.map (fun t => t.id)) (GenItem.obj g) with
        | true => rfl
        | false => exact absurd (this.mp hb) hm
      simp [hm, hne]
  cases gs with
  | nil => simp
  | cons a t => exact hfilter (a :: t)


/-! ## Sold cards breakdown: the claim -/

/-- Claim C24, amended. The result of `computeSoldCardsBreakdown` satisfies
`total = online + manual`, with `online` the number of stored tickets whose order is an
order of the event with status `PAID` or `TICKETS_ISSUED`, and `manual` a natural number.
When `state.generated` is a list of primitive ids, `manual = max(0, generatedCount - online)`
and `total = max(online, generatedCount)`. When it is a list of objects, `manual` counts
exactly the objects that have no `order_id`, whose mark (`source`, or `origin` when `source`
is empty), put in upper case by the engine's `toUpperCase` (any `upper`), is not `ONLINE`,
and whose id (`id`, or `ticket_id` when the object has no `id`) is empty or is not the id of
an online ticket. -/
theorem C24_breakdown_never_double_counts (upper : String → String) (db : DB)
    (eventId : String) :
    (computeSoldCardsBreakdown upper db eventId).total
      = (computeSoldCardsBreakdown upper db eventId).online
        + (computeSoldCardsBreakdown upper db eventId).manual ∧
    (computeSoldCardsBreakdown upper db eventId).online
      = (db.tickets.filter
          (fun t => decide (PaidOrderOfEvent db eventId t.order_id))).length ∧
    (∀ ids : List String, generatedOf db eventId = ids.map GenItem.prim →
      ((computeSoldCardsBreakdown upper db eventId).manual : Int)
        = max 0 ((ids.length : Int) - (computeSoldCardsBreakdown upper db eventId).online) ∧
      (computeSoldCardsBreakdown upper db eventId).total
        = max (computeSoldCardsBreakdown upper db eventId).online ids.length) ∧
    (∀ gs : List GenEntry, generatedOf db eventId = gs.map GenItem.obj →
      (computeSoldCardsBreakdown upper db eventId).manual
        = (gs.filter (fun g => decide (ManualEntry upper
            (db.tickets.filter (fun t => decide (PaidOrderOfEvent db eventId t.order_id)))
            g))).length) := by
  refine ⟨rfl, ?_, ?_, ?_⟩
  · show (onlineTickets db eventId).length = _
    rw [onlineTickets_eq]
  · intro ids hgen
    have hm : (computeSoldCardsBreakdown upper db eventId).manual
        = ids.length - (onlineTickets db eventId).length := by
      unfold computeSoldCardsBreakdown
      simp only [hgen]
      exact manual_prims upper ids _ _
    have ht : (computeSoldCardsBreakdown upper db eventId).total
        = (onlineTickets db eventId).length + (computeSoldCardsBreakdown upper db eventId).manual := rfl
    have ho : (computeSoldCardsBreakdown upper db eventId).online
        = (onlineTickets db eventId).length := rfl
    rw [ht, hm, ho]
    constructor
    · omega
    · omega
  · intro gs hgen
    rw [← onlineTickets_eq]
    unfold computeSoldCardsBreakdown
    simp only [hgen]
    exact manual_objs upper gs _ _

set_option maxRecDepth 100000 in
/-- Witness of C24: `storeLegacyGenerated` lists three generated ids in the legacy format
and has one online ticket: 1 online, 2 manual, 3 in total. -/
theorem C24_witness :
    computeSoldCardsBreakdown upperAscii storeLegacyGenerated "E1"
      = { online := 1, manual := 2, total := 3 } ∧
    ((computeSoldCardsBreakdown upperAscii storeLegacyGenerated "E1").manual : Int)
      = max 0 ((3 : Int) - (computeSoldCardsBreakdown upperAscii storeLegacyGenerated "E1").online) ∧
    (computeSoldCardsBreakdown upperAscii storeLegacyGenerated "E1").total
      = max (computeSoldCardsBreakdown upperAscii storeLegacyGenerated "E1").online 3 :=
  ⟨by decide,
    (C24_breakdown_never_double_counts upperAscii storeLegacyGenerated "E1").2.2.1 ["1", "2", "3"] rfl⟩

set_option maxRecDepth 100000 in
/-- Counterexample to C24: the two generated objects of `storeGenerated` have no `order_id`
and no mark (the upper-casing is applied to the empty text), and the only online ticket is
`t0`. The code counts 1 manual card: it takes
`entryByTicketId`, which has no `id`, for the online ticket its `ticket_id` names, and
`entryWithBothIds` for a manual card, by its `id` alone. Reading the claim's id as the field
`id`, both objects count as manual; reading it as either identifier, none does. -/
theorem C24_counterexample :
    generatedOf storeGenerated "E1" = [GenItem.obj entryByTicketId, GenItem.obj entryWithBothIds] ∧
    onlineTickets storeGenerated "E1" = [ticketSeed] ∧
    computeSoldCardsBreakdown upperAscii storeGenerated "E1" = { online := 1, manual := 1, total := 2 } ∧
    generatedSample = [entryByTicketId, entryWithBothIds] ∧
    (generatedSample.filter
      (fun g => decide (ManualEntryAsDocumented [ticketSeed] g))).length = 2 ∧
    (generatedSample.filter
      (fun g => decide (ManualEntryAsDocumented [ticketSeed] g ∧
        ∀ t ∈ [ticketSeed], some t.id ≠ g.ticket_id))).length = 0 := by
  decide

/-! ## Lemmas on the public order search -/

theorem safeRow_scrub (o : Order) : safeRow (scrubVendor o) = safeRow o := rfl

theorem matchesQuery_scrub (q : OrderQuery) (o : Order) :
    matchesQuery q (scrubVendor o) = matchesQuery q o := rfl

theorem insertRow_map (cmp : Order → Order → Bool) (f : Order → Order)
    (hf : ∀ a b, cmp (f a) (f b) = cmp a b) (a : Order) :
    ∀ l : List Order, insertRow cmp (f a) (l.map f) = (insertRow cmp a l).map f := by
  intro l
  induction l with
  | nil => rfl
  | cons b t ih =>
    by_cases h : cmp a b = true
    · simp only [List.map_cons, insertRow, hf, h, if_true, ih]
    · simp only [List.map_cons, insertRow, hf, h, if_false]
      rfl

theorem sortRows_comparison : ComparisonSort sortRows := by
  intro cmp f l hf
  induction l with
  | nil => rfl
  | cons a t ih =>
    show insertRow cmp (f a) (sortRows cmp (t.map f)) = (insertRow cmp a (sortRows cmp t)).map f
    rw [ih, insertRow_map cmp f hf]

theorem search_rows_scrub (eng : Engine) (hsort : ComparisonSort eng.sort) (db : DB)
    (q : OrderQuery) :
    (eng.sort (fun a b => eng.less a.created_at b.created_at)
        (db.orders.filter (matchesQuery q))).map safeRow
      = (eng.sort (fun a b => eng.less a.created_at b.created_at)
          ((db.orders.map scrubVendor).filter (matchesQuery q))).map safeRow := by
  have h1 : (db.orders.map scrubVendor).filter (matchesQuery q)
      = (db.orders.filter (matchesQuery q)).map scrubVendor := by
    rw [List.filter_map]
    rfl
  rw [h1, hsort (fun a b => eng.less a.created_at b.created_at) scrubVendor _
    (fun _ _ => rfl), List.map_map]
  rfl


/-! ## Public order search: the claim -/

/-- Claim C25. For an engine whose `sort` reads the rows through the comparator only, and
two stores that differ at most in the fields `vendor_code`, `vendor_id`, `vendor_name`,
`vendor_stats_applied`, `nequi_ref` and `payment_url` of their orders, `GET /orders` gives
the same reply to the same query; and the row built from an order has none of those fields:
it is the same row whatever values they hold. -/
theorem C25_public_search_hides_vendor_fields (eng : Engine)
    (hsort : ComparisonSort eng.sort) (db1 db2 : DB) (q : OrderQuery)
    (h : SameButVendorFields db1 db2) :
    publicOrderSearch eng db1 q = publicOrderSearch eng db2 q ∧
    ∀ (o : Order) (code vid name ref url : Option String) (applied : Bool),
      safeRow { o with
        vendor_code := code, vendor_id := vid, vendor_name := name
        vendor_stats_applied := applied, nequi_ref := ref, payment_url := url } = safeRow o := by
  refine ⟨?_, fun _ _ _ _ _ _ _ => rfl⟩
  unfold publicOrderSearch
  by_cases hq : ¬ truthy q.phone ∧ ¬ truthy q.email
  · rw [if_pos hq, if_pos hq]
  · rw [if_neg hq, if_neg hq]
    show ({ code := 200, rows := _ } : SearchReply) = { code := 200, rows := _ }
    rw [search_rows_scrub eng hsort db1 q, search_rows_scrub eng hsort db2 q, h.1]

set_option maxRecDepth 100000 in
/-- Witness of C25: `storeSearchA` and `storeSearchB` differ in the vendor and payment
reference fields of their two orders; the search by phone, with the insertion sort as the
engine, lists `o2` then `o1` and replies the same on both. -/
theorem C25_witness :
    ComparisonSort engineSample.sort ∧
    SameButVendorFields storeSearchA storeSearchB ∧
    storeSearchA.orders ≠ storeSearchB.orders ∧
    (publicOrderSearch engineSample storeSearchA querySample).rows.map (fun r => r.id)
      = ["o2", "o1"] ∧
    publicOrderSearch engineSample storeSearchA querySample
      = publicOrderSearch engineSample storeSearchB querySample :=
  ⟨sortRows_comparison,
    ⟨rfl, rfl, rfl, rfl, rfl, rfl, rfl⟩,
    by
      intro h
      have h1 := congrArg (fun l => l.map (fun o => o.vendor_code)) h
      revert h1
      decide,
    by decide,
    (C25_public_search_hides_vendor_fields engineSample sortRows_comparison storeSearchA
      storeSearchB querySample ⟨rfl, rfl, rfl, rfl, rfl, rfl, rfl⟩).1⟩

end BingoFlash
